import Mathlib

/-!
Price monitor (`main.go`): a shallow embedding and its checked properties.

The development follows `src/main.go`.

* Go strings are Lean strings (sequences of Unicode scalar values); the texts the
  program handles come from JSON and from the page, both valid UTF-8.
* `int` is the 64-bit integer of the usual build targets.
* A `float64` is modelled by `F64`: NaN, the two infinities, and a sign with an exact
  non-negative rational magnitude. Overflow to infinity, the largest finite value and
  underflow to zero are modelled; the rounding of the 53-bit mantissa in between is
  not (a finite non-zero value stands for the double nearest to it).
* The store file is modelled by its path (`Arquivo`): absent, or a file with its text
  and the rights of the process on it. The text is written and read by a model of
  `encoding/csv` with the comma `;`: quoting by the writer, and in the reader the
  dropping of a carriage return before a line feed, the empty lines, the quotes and
  the number of fields.
-/

namespace PrecoMonitor

/-! ## Library functions used by the program -/

/-- Go `unicode.IsSpace`: the Unicode White_Space code points. -/
def isSpace (c : Char) : Bool :=
  let n := c.toNat
  (9 ≤ n && n ≤ 13) || n == 32 || n == 0x85 || n == 0xA0 || n == 0x1680 ||
    (0x2000 ≤ n && n ≤ 0x200A) || n == 0x2028 || n == 0x2029 || n == 0x202F ||
    n == 0x205F || n == 0x3000

/-- Loop of `strings.Fields`: `cur` holds the current token, reversed. -/
def fieldsAux : List Char → List Char → List (List Char)
  | [], cur => if cur.isEmpty then [] else [cur.reverse]
  | c :: cs, cur =>
    if isSpace c then
      (if cur.isEmpty then fieldsAux cs [] else cur.reverse :: fieldsAux cs [])
    else fieldsAux cs (c :: cur)

/-- Go `strings.Fields`: the maximal runs of non-space characters, in order. -/
def stringsFields (s : String) : List String :=
  (fieldsAux s.toList []).map String.mk

/-- Go `strings.TrimSpace` on a character list. -/
def trimSpaceChars (l : List Char) : List Char :=
  ((l.dropWhile isSpace).reverse.dropWhile isSpace).reverse

/-- Go `strings.TrimSpace`. -/
def stringsTrimSpace (s : String) : String :=
  String.mk (trimSpaceChars s.toList)

/-- Left-to-right scan of `strings.ReplaceAll` for a non-empty `old`: `skip` counts the
characters of a match that are still to be passed over. -/
def replaceAux (old new : List Char) : List Char → Nat → List Char
  | [], _ => []
  | _ :: cs, skip + 1 => replaceAux old new cs skip
  | c :: cs, 0 =>
    if old.isPrefixOf (c :: cs) then new ++ replaceAux old new cs (old.length - 1)
    else c :: replaceAux old new cs 0

/-- Go `strings.ReplaceAll` on character lists: non-overlapping matches, left to right,
one pass; an empty `old` matches before every character and at the end. -/
def replaceAllChars (s old new : List Char) : List Char :=
  if old.isEmpty then new ++ s.flatMap (fun c => c :: new) else replaceAux old new s 0

/-- Go `strings.ReplaceAll`. -/
def stringsReplaceAll (s old new : String) : String :=
  String.mk (replaceAllChars s.toList old.toList new.toList)

/-- Value of a decimal digit character. -/
def digitVal (c : Char) : Option Nat :=
  if 48 ≤ c.toNat ∧ c.toNat ≤ 57 then some (c.toNat - 48) else none

/-- Value of a non-empty run of decimal digits, `none` on anything else. -/
def digitsValue : List Char → Option Nat
  | [] => none
  | c :: cs =>
    (c :: cs).foldl
      (fun acc ch => match acc, digitVal ch with
        | some a, some d => some (a * 10 + d)
        | _, _ => none)
      (some 0)

/-- Go `strconv.Atoi`, `some n` when the error is nil: an optional sign, then one or
more decimal digits, the value within the 64-bit `int`. -/
def strconvAtoi (s : String) : Option Int :=
  match s.toList with
  | [] => none
  | c :: cs =>
    let neg := c == '-'
    let ds := if c == '-' || c == '+' then cs else c :: cs
    match digitsValue ds with
    | none => none
    | some n =>
      let v : Int := if neg then -(n : Int) else (n : Int)
      if -(2 : Int) ^ 63 ≤ v ∧ v ≤ (2 : Int) ^ 63 - 1 then some v else none

/-! ### float64 -/

/-- A `float64` value: NaN, an infinity, or a sign and an exact magnitude. -/
inductive F64 where
  | nan : F64
  | inf (neg : Bool) : F64
  | fin (neg : Bool) (mag : ℚ) : F64
  deriving DecidableEq

/-- The largest finite `float64`. -/
def maxFloat64 : ℚ := 2 ^ 1024 - 2 ^ 971

/-- Decimal texts at or beyond this magnitude round to infinity. -/
def limiteInf : ℚ := 2 ^ 1024 - 2 ^ 970

/-- Decimal texts at or below this magnitude round to zero. -/
def limiteZero : ℚ := 1 / 2 ^ 1075

/-- Go `x == 0` on a `float64`. -/
def F64.isZero : F64 → Bool
  | .fin _ m => m == 0
  | _ => false

/-- Go `x >= 0` on a `float64` (false for NaN). -/
def F64.geZero : F64 → Bool
  | .nan => false
  | .inf neg => !neg
  | .fin neg m => !neg || m == 0

/-- A value a `float64` can hold: the magnitude of a finite one is within range. -/
def F64.valido : F64 → Bool
  | .fin _ m => decide (0 ≤ m) && decide (m ≤ maxFloat64)
  | _ => true

/-- The two errors of `strconv`. -/
inductive NumError where
  | ErrSyntax : NumError
  | ErrRange : NumError
  deriving DecidableEq

/-- Range handling of `strconv.ParseFloat` for a well-formed text of exact magnitude
`mag`: infinity with `ErrRange` on overflow, zero on underflow, no error otherwise. -/
def arredonda (neg : Bool) (mag : ℚ) : F64 × Option NumError :=
  if limiteInf ≤ mag then (F64.inf neg, some NumError.ErrRange)
  else if maxFloat64 < mag then (F64.fin neg maxFloat64, none)
  else if mag ≤ limiteZero then (F64.fin neg 0, none)
  else (F64.fin neg mag, none)

/-- Go `commonPrefixLenIgnoreCase` of `strconv`: `p` is in lower case. -/
def commonPrefixLenIgnoreCase : List Char → List Char → Nat
  | c :: s, p :: ps =>
    let c1 := if 65 ≤ c.toNat ∧ c.toNat ≤ 90 then Char.ofNat (c.toNat + 32) else c
    if c1 = p then commonPrefixLenIgnoreCase s ps + 1 else 0
  | _, _ => 0

/-- Recognition of "inf"/"infinity" after an optional sign (part of `special`). -/
def specialInf (neg : Bool) (nsign : Nat) (s : List Char) : Option (F64 × Nat) :=
  let n := commonPrefixLenIgnoreCase s ['i', 'n', 'f', 'i', 'n', 'i', 't', 'y']
  let n := if 3 < n ∧ n < 8 then 3 else n
  if n = 3 ∨ n = 8 then some (F64.inf neg, nsign + n) else none

/-- Go `special` of `strconv`: the texts of infinity and NaN, with the number of
characters read. -/
def special (s : List Char) : Option (F64 × Nat) :=
  match s with
  | [] => none
  | c :: cs =>
    if c = '+' ∨ c = '-' then specialInf (c == '-') 1 cs
    else if c = 'i' ∨ c = 'I' then specialInf false 0 (c :: cs)
    else if c = 'n' ∨ c = 'N' then
      (if commonPrefixLenIgnoreCase (c :: cs) ['n', 'a', 'n'] = 3 then some (F64.nan, 3)
       else none)
    else none

/-- Digit of the mantissa in base ten or, when `hex`, sixteen. -/
def digitoBase (hex : Bool) (c : Char) : Option Nat :=
  let n := c.toNat
  if 48 ≤ n ∧ n ≤ 57 then some (n - 48)
  else if hex ∧ 97 ≤ n ∧ n ≤ 102 then some (n - 87)
  else if hex ∧ 65 ≤ n ∧ n ≤ 70 then some (n - 55)
  else none

/-- What the mantissa loop of `readFloat` has seen. `mant` is the number spelled by all
the digits read and `frac` counts those after the point, so that the value read is
`mant / base ^ frac` (in `readFloat`: `exp = dp - ndMant`). -/
structure Mantissa where
  sawdot : Bool := false
  sawdigits : Bool := false
  underscores : Bool := false
  mant : Nat := 0
  frac : Nat := 0
  deriving DecidableEq

/-- The mantissa loop of `readFloat`: returns the state and the unread text. -/
def lerMantissa (hex : Bool) : List Char → Mantissa → Mantissa × List Char
  | [], st => (st, [])
  | c :: cs, st =>
    if c = '_' then lerMantissa hex cs { st with underscores := true }
    else if c = '.' then
      (if st.sawdot then (st, c :: cs) else lerMantissa hex cs { st with sawdot := true })
    else
      match digitoBase hex c with
      | some d =>
        lerMantissa hex cs
          { st with
            sawdigits := true
            mant := st.mant * (if hex then 16 else 10) + d
            frac := if st.sawdot then st.frac + 1 else st.frac }
      | none => (st, c :: cs)

/-- The digit loop of the exponent in `readFloat`: value (no longer growing from 10000
on), whether an underscore was seen, unread text. -/
def lerDigitosExp : List Char → Nat → Bool → Nat × Bool × List Char
  | [], e, u => (e, u, [])
  | c :: cs, e, u =>
    if c = '_' then lerDigitosExp cs e true
    else
      match digitVal c with
      | some d => lerDigitosExp cs (if e < 10000 then e * 10 + d else e) u
      | none => (e, u, c :: cs)

/-- The optional exponent of `readFloat`: `none` when the text is rejected, otherwise
the signed exponent, whether an underscore was seen, and the unread text. -/
def lerExpoente (hex : Bool) (s : List Char) : Option (Int × Bool × List Char) :=
  match s with
  | c :: cs =>
    if (hex = false ∧ (c = 'e' ∨ c = 'E')) ∨ (hex = true ∧ (c = 'p' ∨ c = 'P')) then
      let neg := cs.head? == some '-'
      let ds := if cs.head? == some '+' || cs.head? == some '-' then cs.tail else cs
      match ds with
      | [] => none
      | d :: _ =>
        if (digitVal d).isNone then none
        else
          let r := lerDigitosExp ds 0 false
          some (if neg then -(r.1 : Int) else (r.1 : Int), r.2.1, r.2.2)
    else if hex then none
    else some (0, false, c :: cs)
  | [] => if hex then none else some (0, false, [])

/-- Go `underscoreOK` of `strconv`, after the optional sign: `saw` is 0 for a digit,
1 for an underscore, 2 for anything else, 3 at the start. -/
def underscoreLoop (hex : Bool) : List Char → Nat → Bool
  | [], saw => saw != 1
  | c :: cs, saw =>
    if (digitoBase hex c).isSome then underscoreLoop hex cs 0
    else if c = '_' then (if saw != 0 then false else underscoreLoop hex cs 1)
    else if saw == 1 then false
    else underscoreLoop hex cs 2

/-- Go `underscoreOK` of `strconv`. -/
def underscoreOK (s : List Char) : Bool :=
  let s1 := match s with
    | c :: cs => if c = '-' ∨ c = '+' then cs else c :: cs
    | [] => []
  match s1 with
  | c0 :: c :: cs =>
    if c0 = '0' ∧ (c = 'x' ∨ c = 'X') then underscoreLoop true cs 0
    else if c0 = '0' ∧ (c = 'b' ∨ c = 'B' ∨ c = 'o' ∨ c = 'O') then underscoreLoop false cs 0
    else underscoreLoop false s1 3
  | _ => underscoreLoop false s1 3

/-- Whether `readFloat` reads a hexadecimal mantissa: "0x" and at least one more
character. -/
def temPrefixoHex : List Char → Bool
  | c0 :: c :: _ :: _ => c0 == '0' && (c == 'x' || c == 'X')
  | _ => false

/-- Go `readFloat` with the whole-text check of `ParseFloat`, after the sign: the exact
magnitude spelled by `corpo`, `none` for a syntax error. `todo` is the whole text. -/
def lerMagnitude (todo corpo : List Char) : Option ℚ :=
  let hex := temPrefixoHex corpo
  let r := lerMantissa hex (if hex then corpo.drop 2 else corpo) {}
  if r.1.sawdigits = false then none
  else
    match lerExpoente hex r.2 with
    | none => none
    | some (e, u, resto) =>
      if resto ≠ [] then none
      else if (r.1.underscores || u) && !underscoreOK todo then none
      else if hex then some ((r.1.mant : ℚ) / 16 ^ r.1.frac * 2 ^ e)
      else some ((r.1.mant : ℚ) / 10 ^ r.1.frac * 10 ^ e)

/-- Go `strconv.ParseFloat(s, 64)` on a character list: the value and the error. -/
def parseFloatChars (s : List Char) : F64 × Option NumError :=
  match special s with
  | some (v, n) => if n = s.length then (v, none) else (F64.fin false 0, some NumError.ErrSyntax)
  | none =>
    let neg := s.head? == some '-'
    let corpo := if s.head? == some '+' || s.head? == some '-' then s.tail else s
    match lerMagnitude s corpo with
    | none => (F64.fin false 0, some NumError.ErrSyntax)
    | some mag => arredonda neg mag

/-- Go `strconv.ParseFloat(s, 64)`. -/
def strconvParseFloat (s : String) : F64 × Option NumError :=
  parseFloatChars s.toList

/-! ## Text parsing of the cart row (`main.go`, lines 612-629) -/

/-- The loop of `parseEstoque` over the tokens. -/
def parseEstoqueLoop : List String → Int
  | [] => 0
  | p :: ps =>
    match strconvAtoi p with
    | some n => n
    | none => parseEstoqueLoop ps

/-- Go `parseEstoque`. -/
def parseEstoque (txt : String) : Int :=
  parseEstoqueLoop (stringsFields txt)

/-- Go `convertePrecoParaFloat`. -/
def convertePrecoParaFloat (txt : String) : F64 :=
  let txt := stringsReplaceAll txt "R$" ""
  let txt := stringsReplaceAll txt "." ""
  let txt := stringsReplaceAll txt "," "."
  let txt := stringsTrimSpace txt
  (strconvParseFloat txt).1

/-- Deleting every "R$" from a text, left to right (the first cleaning step in the
words of the specification). -/
def apagaCifrao : List Char → List Char
  | [] => []
  | [c] => [c]
  | c :: d :: cs => if c = 'R' ∧ d = '$' then apagaCifrao cs else c :: apagaCifrao (d :: cs)

/-- The cleaned price text in the words of the specification: every "R$" deleted, every
"." deleted, every "," replaced by ".", surrounding white space trimmed. -/
def limpaPreco (txt : String) : String :=
  String.mk (trimSpaceChars
    (((apagaCifrao txt.toList).filter (fun c => c != '.')).map
      (fun c => if c = ',' then '.' else c)))

/-- The number spelled by a list of decimal digits, most significant first. -/
def valorDigitos (ds : List Nat) : Nat :=
  ds.foldl (fun a d => a * 10 + d) 0

/-- Go `strings.ToLower`, as far as comparison with an ASCII key goes: the ASCII capitals
and the two other code points whose lower case is an ASCII letter (U+0130, U+212A). -/
def stringsToLower (s : String) : String :=
  String.mk (s.toList.map (fun c =>
    if 65 ≤ c.toNat ∧ c.toNat ≤ 90 then Char.ofNat (c.toNat + 32)
    else if c.toNat = 0x130 then 'i'
    else if c.toNat = 0x212A then 'k'
    else c))

/-- The character of a decimal digit. -/
def digitChar (d : Nat) : Char := Char.ofNat (48 + d)

/-- Decimal digits of `n`, most significant first, written in front of `acc`. -/
def natDigitsAux : Nat → Nat → List Char → List Char
  | 0, _, acc => acc
  | fuel + 1, n, acc =>
    if n < 10 then digitChar n :: acc
    else natDigitsAux fuel (n / 10) (digitChar (n % 10) :: acc)

/-- Decimal digits of `n`, most significant first. -/
def natDigits (n : Nat) : List Char := natDigitsAux (n + 1) n []

/-- Hundredths of a magnitude, rounded to nearest, ties to even. -/
def centavos (mag : ℚ) : Nat :=
  let x := mag * 100
  let f := ⌊x⌋₊
  if x - f < 1 / 2 then f
  else if 1 / 2 < x - f then f + 1
  else if f % 2 = 0 then f else f + 1

/-- Go `fmt.Sprintf("%.2f", x)` as a character list. -/
def formatFloat2Chars : F64 → List Char
  | .nan => ['N', 'a', 'N']
  | .inf false => ['+', 'I', 'n', 'f']
  | .inf true => ['-', 'I', 'n', 'f']
  | .fin neg m =>
    (if neg then ['-'] else []) ++ natDigits (centavos m / 100) ++
      ['.', digitChar (centavos m / 10 % 10), digitChar (centavos m % 10)]

/-- Go `fmt.Sprintf("%.2f", x)`. -/
def formatFloat2 (x : F64) : String := String.mk (formatFloat2Chars x)

/-- The value read back from the text that `%.2f` writes for `x`: `x` to two decimals. -/
def arredonda2 : F64 → F64
  | .fin neg m => .fin neg ((centavos m : ℚ) / 100)
  | x => x

/-! ## Data (`main.go`, lines 62-92) -/

/-- Go `CardInput`. -/
structure CardInput where
  Nome : String
  Colecao : String
  Numero : String
  deriving DecidableEq

/-- Go `CardResult`. -/
structure CardResult where
  Nome : String
  Colecao : String
  Numero : String
  Condicao : String
  Quantidade : Int
  Preco : F64
  PrecoTotal : F64
  Lingua : String
  deriving DecidableEq

/-- Go `MonitorEntry`. -/
structure MonitorEntry where
  Nome : String
  Colecao : String
  Numero : String
  PrecoAtual : F64
  DataAtual : String
  PrecoInicial : F64
  DataInicial : String
  deriving DecidableEq

/-! ## Cart row (`main.go`, lines 586-601) -/

/-- What a cart row answers to the two lookups of `extraiDadosItemCarrinho`: the text of
`div.item-estoque` and of `div.preco-total.item-total`, `none` when the element is not
found. -/
structure LinhaCarrinho where
  estoque : Option String
  precoTotal : Option String

/-- Go `extraiDadosItemCarrinho`. -/
def extraiDadosItemCarrinho (row : LinhaCarrinho) : CardResult :=
  let dados : CardResult :=
    { Nome := "", Colecao := "", Numero := "", Condicao := "", Quantidade := 0,
      Preco := F64.fin false 0, PrecoTotal := F64.fin false 0, Lingua := "" }
  let dados :=
    match row.estoque with
    | some txt => { dados with Quantidade := parseEstoque txt }
    | none => dados
  match row.precoTotal with
  | some txt =>
    { dados with Preco := convertePrecoParaFloat txt, PrecoTotal := convertePrecoParaFloat txt }
  | none => dados

/-! ## Price-history store (`main.go`, lines 718-841) -/

/-! ### `encoding/csv` with `Comma = ';'` -/

/-- Go `(*csv.Writer).fieldNeedsQuotes` for the comma `;`: a non-empty field is quoted
when it is `\.`, holds a line feed, a carriage return, a quote or the comma, or starts
with a space. -/
def fieldNeedsQuotes (field : List Char) : Bool :=
  match field with
  | [] => false
  | r1 :: _ =>
    field == ['\\', '.'] ||
      field.any (fun c => c == '\n' || c == '\r' || c == '"' || c == ';') ||
      isSpace r1

/-- The loop of `(*csv.Writer).Write` over a field that needs quotes, `UseCRLF` being
false: a quote is written twice, every other character as it is. -/
def csvEscapa : List Char → List Char
  | [] => []
  | c :: cs => if c == '"' then '"' :: '"' :: csvEscapa cs else c :: csvEscapa cs

/-- One field as `(*csv.Writer).Write` writes it. -/
def csvCampo (field : List Char) : List Char :=
  if fieldNeedsQuotes field then '"' :: (csvEscapa field ++ ['"']) else field

/-- The fields after the first of a record, each behind its comma, then the line feed
that ends the record. -/
def csvResto : List String → List Char
  | [] => ['\n']
  | f :: fs => ';' :: (csvCampo f.data ++ csvResto fs)

/-- Go `(*csv.Writer).Write` followed by `Flush`: the text written for one record. -/
def writerWrite : List String → List Char
  | [] => ['\n']
  | f :: fs => csvCampo f.data ++ csvResto fs

/-- The text written for a list of records, one call of `Write` each. -/
def csvTexto (recs : List (List String)) : List Char :=
  recs.flatMap writerWrite

/-- Go `(*csv.Reader).readLine` over the whole input: in every line that ends with a
carriage return and a line feed the carriage return is dropped, and so is a carriage
return that ends the input. -/
def csvNormaliza : List Char → List Char
  | [] => []
  | c :: cs =>
    if c == '\r' && (cs.isEmpty || cs.head? == some '\n') then csvNormaliza cs
    else c :: csvNormaliza cs

/-- Where `(*csv.Reader).readRecord` stands in its input. -/
inductive ModoCSV where
  | inicio : ModoCSV
  | campo : ModoCSV
  | simples : ModoCSV
  | aspas : ModoCSV
  | fechou : ModoCSV
  deriving DecidableEq

/-- A character put in front of the field being read. -/
def poeChar (c : Char) : List (List (List Char)) → List (List (List Char))
  | (f :: fs) :: rs => ((c :: f) :: fs) :: rs
  | rs => rs

/-- The field being read ends at a comma: an empty field is put in front of the fields
that follow in the record. -/
def fechaCampo : List (List (List Char)) → List (List (List Char))
  | fs :: rs => ([] :: fs) :: rs
  | [] => []

/-- The field being read ends at a line feed: it is the last of its record. -/
def fechaRegistro (rs : List (List (List Char))) : List (List (List Char)) :=
  [[]] :: rs

/-- Go `(*csv.Reader).readRecord`, repeated to the end of the input, over the lines as
`readLine` returns them (`LazyQuotes`, `TrimLeadingSpace` and `Comment` unset): the
records, each a list of fields, `none` for a `*csv.ParseError` of the quotes. The modes:
`inicio` at the start of a record, where empty lines are skipped; `campo` at the start
of a later field; `simples` inside a field without quotes, where a quote is
`ErrBareQuote`; `aspas` inside a quoted field, where the end of the input is
`ErrQuote`; `fechou` behind a quote inside a quoted field, which a second quote, the
comma, a line feed or the end of the input may follow, anything else being `ErrQuote`.
Outside `inicio` the first field of the first record of the result is the rest of the
field being read. -/
def csvLoop : List Char → ModoCSV → Option (List (List (List Char)))
  | [], ModoCSV.inicio => some []
  | [], ModoCSV.aspas => none
  | [], ModoCSV.campo => some [[[]]]
  | [], ModoCSV.simples => some [[[]]]
  | [], ModoCSV.fechou => some [[[]]]
  | c :: cs, ModoCSV.aspas =>
    if c == '"' then csvLoop cs ModoCSV.fechou
    else (csvLoop cs ModoCSV.aspas).map (poeChar c)
  | c :: cs, ModoCSV.fechou =>
    if c == '"' then (csvLoop cs ModoCSV.aspas).map (poeChar '"')
    else if c == ';' then (csvLoop cs ModoCSV.campo).map fechaCampo
    else if c == '\n' then (csvLoop cs ModoCSV.inicio).map fechaRegistro
    else none
  | c :: cs, ModoCSV.inicio =>
    if c == '\n' then csvLoop cs ModoCSV.inicio
    else if c == ';' then (csvLoop cs ModoCSV.campo).map fechaCampo
    else if c == '"' then csvLoop cs ModoCSV.aspas
    else (csvLoop cs ModoCSV.simples).map (poeChar c)
  | c :: cs, ModoCSV.campo =>
    if c == '\n' then (csvLoop cs ModoCSV.inicio).map fechaRegistro
    else if c == ';' then (csvLoop cs ModoCSV.campo).map fechaCampo
    else if c == '"' then csvLoop cs ModoCSV.aspas
    else (csvLoop cs ModoCSV.simples).map (poeChar c)
  | c :: cs, ModoCSV.simples =>
    if c == '\n' then (csvLoop cs ModoCSV.inicio).map fechaRegistro
    else if c == ';' then (csvLoop cs ModoCSV.campo).map fechaCampo
    else if c == '"' then none
    else (csvLoop cs ModoCSV.simples).map (poeChar c)

/-- The records of a text as `(*csv.Reader).Read` and `ReadAll` return them one after
the other, before the check of the number of fields; `none` for an error of the
quotes. -/
def csvReadAll (texto : List Char) : Option (List (List String)) :=
  (csvLoop (csvNormaliza texto) ModoCSV.inicio).map
    (fun rs => rs.map (fun r => r.map String.mk))

/-- A text with every carriage return that stands directly before a line feed taken
out: what `readLine` makes of the inside of a quoted field. -/
def semCRLF : List Char → List Char
  | [] => []
  | c :: cs => if c == '\r' && cs.head? == some '\n' then semCRLF cs else c :: semCRLF cs

/-- A field as `encoding/csv` reads it back after having written it. -/
def csvLido (s : String) : String := String.mk (semCRLF s.data)

/-! ### The file -/

/-- The path of the store file: absent (and whether the process may create it), or a
file with its text and whether the process may read it and write it. -/
inductive Arquivo where
  | ausente (criavel : Bool) : Arquivo
  | existe (texto : List Char) (legivel gravavel : Bool) : Arquivo
  deriving DecidableEq

/-- Errors of the store functions: the `*os.PathError` of `os.Open`, `os.OpenFile` and
`os.Create`, the `io.EOF` of reading the header of a file without records, and the
`*csv.ParseError` of the reader. -/
inductive ErroCSV where
  | abrir : ErroCSV
  | semCabecalho : ErroCSV
  | formato : ErroCSV
  deriving DecidableEq

/-- Go `os.Stat(caminho)` returning a nil error: the path exists. -/
def osStat : Arquivo → Bool
  | Arquivo.ausente _ => false
  | Arquivo.existe _ _ _ => true

/-- Go `os.Open`: the text of a file that exists and may be read. -/
def osOpen : Arquivo → Option (List Char)
  | Arquivo.ausente _ => none
  | Arquivo.existe texto legivel _ => if legivel then some texto else none

/-- Go `os.Create` (`O_RDWR|O_CREATE|O_TRUNC`): the file, emptied, when it may be read
and written, or a new file when the path is absent and may be created. -/
def osCreate : Arquivo → Option Arquivo
  | Arquivo.ausente criavel => if criavel then some (Arquivo.existe [] true true) else none
  | Arquivo.existe _ legivel gravavel =>
    if legivel && gravavel then some (Arquivo.existe [] legivel gravavel) else none

/-- Go `os.OpenFile(caminho, O_CREATE|O_WRONLY|O_APPEND, 0644)`: the file when it may be
written, or a new empty file when the path is absent and may be created. -/
def osOpenAppend : Arquivo → Option Arquivo
  | Arquivo.ausente criavel => if criavel then some (Arquivo.existe [] true true) else none
  | Arquivo.existe texto legivel gravavel =>
    if gravavel then some (Arquivo.existe texto legivel gravavel) else none

/-- The text written through an open file put at its end (the writes of an open file
are taken to succeed; the program does not look at their errors). -/
def escreve (arq : Arquivo) (t : List Char) : Arquivo :=
  match arq with
  | Arquivo.ausente criavel => Arquivo.ausente criavel
  | Arquivo.existe texto legivel gravavel => Arquivo.existe (texto ++ t) legivel gravavel

/-! ### The store functions -/

/-- The header `colunas` of `salvarMonitoramento`. -/
def colunas : List String :=
  ["nome", "colecao", "numero", "preco_atual", "data_atual", "preco_inicial", "data_inicial"]

/-- Loop filling `colIndex` in `carregarMonitorCSV`, read at one key: the last column
whose trimmed lower-case name is `chave`, `r` when there is none. -/
def colIndexLoop (chave : String) : List String → Nat → Nat → Nat
  | [], _, r => r
  | c :: cs, i, r =>
    colIndexLoop chave cs (i + 1) (if stringsToLower (stringsTrimSpace c) = chave then i else r)

/-- The map `colIndex` of `carregarMonitorCSV` read at `chave` (0 for a missing key). -/
def colIndex (cols : List String) (chave : String) : Nat :=
  colIndexLoop chave cols 0 0

/-- One record turned into a `MonitorEntry` (body of the loop of `carregarMonitorCSV`). -/
def lerLinha (cols line : List String) : MonitorEntry :=
  { Nome := line.getD (colIndex cols "nome") ""
    Colecao := line.getD (colIndex cols "colecao") ""
    Numero := line.getD (colIndex cols "numero") ""
    PrecoAtual := (strconvParseFloat (line.getD (colIndex cols "preco_atual") "")).1
    DataAtual := line.getD (colIndex cols "data_atual") ""
    PrecoInicial := (strconvParseFloat (line.getD (colIndex cols "preco_inicial") "")).1
    DataInicial := line.getD (colIndex cols "data_inicial") "" }

/-- Go `carregarMonitorCSV`: the list and the error. The list is empty whenever there
is an error. The reader takes the number of fields of the header as the number every
later record must have (`ErrFieldCount` otherwise). -/
def carregarMonitorCSV (arq : Arquivo) : List MonitorEntry × Option ErroCSV :=
  match osOpen arq with
  | none => ([], some ErroCSV.abrir)
  | some texto =>
    match csvReadAll texto with
    | none => ([], some ErroCSV.formato)
    | some [] => ([], some ErroCSV.semCabecalho)
    | some (cols :: lines) =>
      if lines.all (fun l => l.length == cols.length) then
        ((lines.filter (fun l => !(decide (l.length < cols.length)))).map (lerLinha cols), none)
      else ([], some ErroCSV.formato)

/-- The record written for an entry by `sobrescreverMonitorCSV`. -/
def registro (me : MonitorEntry) : List String :=
  [me.Nome, me.Colecao, me.Numero, formatFloat2 me.PrecoAtual, me.DataAtual,
    formatFloat2 me.PrecoInicial, me.DataInicial]

/-- Go `sobrescreverMonitorCSV`: the file after the call and the error returned. When
`os.Create` fails the file is left as it was. -/
def sobrescreverMonitorCSV (arq : Arquivo) (lista : List MonitorEntry) (cols : List String) :
    Arquivo × Option ErroCSV :=
  match osCreate arq with
  | none => (arq, some ErroCSV.abrir)
  | some f => (escreve f (writerWrite cols ++ csvTexto (lista.map registro)), none)

/-- The search loop of `salvarMonitoramento`: index of the first entry with the key. -/
def indiceDe (nome colecao numero : String) : List MonitorEntry → Option Nat
  | [] => none
  | me :: resto =>
    if me.Nome = nome ∧ me.Colecao = colecao ∧ me.Numero = numero then some 0
    else (indiceDe nome colecao numero resto).map (· + 1)

/-- The update of `dfExistente[idx]` in `salvarMonitoramento`. -/
def atualizaEntrada (preco : F64) (dataStr : String) (me : MonitorEntry) : MonitorEntry :=
  let me :=
    if me.PrecoInicial.isZero then { me with PrecoInicial := preco, DataInicial := dataStr }
    else me
  { me with PrecoAtual := preco, DataAtual := dataStr }

/-- Assignment to the element at an index of a slice. -/
def modificaEm {α : Type} (f : α → α) : List α → Nat → List α
  | [], _ => []
  | x :: xs, 0 => f x :: xs
  | x :: xs, i + 1 => x :: modificaEm f xs i

/-- Go `salvarMonitoramento`: the file after the call and the error returned. The error
of `carregarMonitorCSV` is dropped (line 730); the errors of `os.OpenFile` (line 755)
and of `sobrescreverMonitorCSV` (line 750) are returned. The header is written only
when `os.Stat` did not find the path. -/
def salvarMonitoramento (nome colecao numero : String) (preco : F64) (dataStr : String)
    (arq : Arquivo) : Arquivo × Option ErroCSV :=
  let existe := osStat arq
  let dfExistente := if existe then (carregarMonitorCSV arq).1 else []
  match indiceDe nome colecao numero dfExistente with
  | some idx =>
    sobrescreverMonitorCSV arq (modificaEm (atualizaEntrada preco dataStr) dfExistente idx)
      colunas
  | none =>
    match osOpenAppend arq with
    | none => (arq, some ErroCSV.abrir)
    | some f =>
      let record :=
        [nome, colecao, numero, formatFloat2 preco, dataStr, formatFloat2 preco, dataStr]
      (escreve f ((if existe then [] else writerWrite colunas) ++ writerWrite record), none)

/-- One call of `salvarMonitoramento`. -/
structure Upsert where
  nome : String
  colecao : String
  numero : String
  preco : F64
  data : String

/-- The file after a sequence of calls of `salvarMonitoramento`. -/
def aplicaUpserts (arq : Arquivo) (ops : List Upsert) : Arquivo :=
  ops.foldl (fun a op => (salvarMonitoramento op.nome op.colecao op.numero op.preco op.data a).1) arq

/-- The store seen as a list of entries: what `salvarMonitoramento` loads from it. -/
def visao (arq : Arquivo) : List MonitorEntry :=
  if osStat arq then (carregarMonitorCSV arq).1 else []

/-- A price text that `%.2f` reproduces from its parsed value. -/
def textoEstavel (t : String) : Bool :=
  formatFloat2 (strconvParseFloat t).1 == t

/-- A record of seven fields whose two price texts are stable, as every record written
by `salvarMonitoramento` and `sobrescreverMonitorCSV` is. -/
def registroOK : List String → Bool
  | [_, _, _, p1, _, p2, _] => textoEstavel p1 && textoEstavel p2
  | _ => false

/-- The records of a text taken as the writer left it, without the rewriting of line
ends by `readLine`. -/
def csvEscrito (texto : List Char) : Option (List (List String)) :=
  (csvLoop texto ModoCSV.inicio).map (fun rs => rs.map (fun r => r.map String.mk))

/-- A store file in the format the program writes: absent, or the text that the writer
produces for the header `colunas` followed by well-formed records. -/
def arquivoOK : Arquivo → Bool
  | Arquivo.ausente _ => true
  | Arquivo.existe texto _ _ =>
    match csvEscrito texto with
    | some (cols :: rows) =>
      cols == colunas && rows.all registroOK && csvTexto (cols :: rows) == texto
    | _ => false

/-- A store file without a carriage return directly before a line feed or at its end:
`readLine` returns its lines as they are. -/
def arquivoLimpo : Arquivo → Bool
  | Arquivo.ausente _ => true
  | Arquivo.existe texto _ _ => csvNormaliza texto == texto

/-- A store path the process may use: create it when absent, read and write it when it
exists. -/
def acessivel : Arquivo → Bool
  | Arquivo.ausente criavel => criavel
  | Arquivo.existe _ legivel gravavel => legivel && gravavel

/-- An entry that comes back unchanged when its record is read as it stands. -/
def entradaEstavel (me : MonitorEntry) : Prop :=
  lerLinha colunas (registro me) = me

/-- An entry whose five texts are read back as they are written. -/
def textosLimpos (me : MonitorEntry) : Bool :=
  csvLido me.Nome == me.Nome && csvLido me.Colecao == me.Colecao &&
    csvLido me.Numero == me.Numero && csvLido me.DataAtual == me.DataAtual &&
    csvLido me.DataInicial == me.DataInicial

/-- An entry as it is read back after its record has been written: every text as
`encoding/csv` reads it back, both prices as `strconv.ParseFloat` reads the text that
`%.2f` wrote. -/
def relida (me : MonitorEntry) : MonitorEntry :=
  { Nome := csvLido me.Nome
    Colecao := csvLido me.Colecao
    Numero := csvLido me.Numero
    PrecoAtual := (strconvParseFloat (formatFloat2 me.PrecoAtual)).1
    DataAtual := csvLido me.DataAtual
    PrecoInicial := (strconvParseFloat (formatFloat2 me.PrecoInicial)).1
    DataInicial := csvLido me.DataInicial }

/-- The entry a first call of `salvarMonitoramento` creates. -/
def novaEntrada (nome colecao numero : String) (preco : F64) (dataStr : String) :
    MonitorEntry :=
  { Nome := nome, Colecao := colecao, Numero := numero, PrecoAtual := preco,
    DataAtual := dataStr, PrecoInicial := preco, DataInicial := dataStr }

/-- The in-memory step of `salvarMonitoramento` on the loaded list: the first entry
with the key is updated, or a new entry is put at the end. -/
def upsertLista (nome colecao numero : String) (preco : F64) (dataStr : String)
    (l : List MonitorEntry) : List MonitorEntry :=
  match indiceDe nome colecao numero l with
  | some idx => modificaEm (atualizaEntrada preco dataStr) l idx
  | none => l ++ [novaEntrada nome colecao numero preco dataStr]

/-- Whether an entry has the key `(nome, colecao, numero)`. -/
def temChave (nome colecao numero : String) (me : MonitorEntry) : Bool :=
  me.Nome == nome && me.Colecao == colecao && me.Numero == numero

/-- The keys of a list of entries are pairwise different. -/
def chavesUnicas (l : List MonitorEntry) : Prop :=
  (l.map (fun me => (me.Nome, me.Colecao, me.Numero))).Nodup

instance (l : List MonitorEntry) : Decidable (chavesUnicas l) := by
  unfold chavesUnicas
  infer_instance

/-- Reference upsert, from the words of the specification: when no entry has the key a
new entry with current = initial = (price, time) is added; otherwise the entry with the
key gets current = (price, time), and initial = (price, time) when its initial price
was zero; entries with another key are kept. -/
def upsertRef (nome colecao numero : String) (preco : F64) (dataStr : String)
    (l : List MonitorEntry) : List MonitorEntry :=
  if l.any (temChave nome colecao numero) then
    l.map (fun me =>
      if temChave nome colecao numero me then
        { me with
          PrecoAtual := preco
          DataAtual := dataStr
          PrecoInicial := if me.PrecoInicial.isZero then preco else me.PrecoInicial
          DataInicial := if me.PrecoInicial.isZero then dataStr else me.DataInicial }
      else me)
  else
    l ++ [{ Nome := nome, Colecao := colecao, Numero := numero, PrecoAtual := preco,
            DataAtual := dataStr, PrecoInicial := preco, DataInicial := dataStr }]

/-- The entry of `arquivoExemplo`. -/
def entradaExemplo : MonitorEntry :=
  { Nome := "Pikachu", Colecao := "SV1", Numero := "25", PrecoAtual := F64.fin false 5,
    DataAtual := "2024-01-01 10:00:00", PrecoInicial := F64.fin false 5,
    DataInicial := "2024-01-01 10:00:00" }

/-- A store file with one record, as the program writes it. -/
def arquivoExemplo : Arquivo :=
  Arquivo.existe
    ("nome;colecao;numero;preco_atual;data_atual;preco_inicial;data_inicial\n".data ++
      "Pikachu;SV1;25;5.00;2024-01-01 10:00:00;5.00;2024-01-01 10:00:00\n".data)
    true true

/-! ## Monitor control (`main.go`, lines 636-651 and 902-959) -/

/-- The globals of the monitor with two counters: `lancamentos` counts the executions
of `go monitorLoop`, `ativos` is the counter of `wgMonitor` (instances of `monitorLoop`
launched and not yet returned). -/
structure EstadoMonitor where
  monitorRunning : Bool
  monitorPaused : Bool
  lancamentos : Nat
  ativos : Nat
  deriving DecidableEq

/-- A request: its method and the decoded body (`none` when the JSON does not parse). -/
structure Pedido where
  metodo : String
  cards : Option (List CardInput)

/-- An answer: an error status of `http.Error` or a body written with status 200. -/
inductive Resposta where
  | erro (status : Nat) : Resposta
  | corpo (texto : String) : Resposta
  deriving DecidableEq

/-- Go `monitorHandler`. -/
def monitorHandler (r : Pedido) (s : EstadoMonitor) : EstadoMonitor × Resposta :=
  if r.metodo ≠ "POST" then (s, Resposta.erro 405)
  else
    match r.cards with
    | none => (s, Resposta.erro 400)
    | some cards =>
      if cards.length = 0 then (s, Resposta.erro 400)
      else if s.monitorRunning then (s, Resposta.corpo "Monitor já está em execução.\n")
      else
        ({ monitorRunning := true, monitorPaused := false,
           lancamentos := s.lancamentos + 1, ativos := s.ativos + 1 },
          Resposta.corpo "Monitoramento iniciado.\n")

/-- Go `monitorPauseHandler`. -/
def monitorPauseHandler (s : EstadoMonitor) : EstadoMonitor × Resposta :=
  if !s.monitorRunning then (s, Resposta.corpo "Monitor não está em execução.\n")
  else
    let s1 := { s with monitorPaused := !s.monitorPaused }
    if s1.monitorPaused then (s1, Resposta.corpo "Monitor pausado.\n")
    else (s1, Resposta.corpo "Monitor retomado.\n")

/-- Go `monitorStopHandler`. -/
def monitorStopHandler (s : EstadoMonitor) : EstadoMonitor × Resposta :=
  ((if s.monitorRunning then { s with monitorRunning := false } else s),
    Resposta.corpo "Monitor interrompido.\n")

/-- One live instance of `monitorLoop` at a check point (the two places where it locks
and reads the flags): it returns when `monitorRunning` is false, otherwise it goes on
(sleeping when paused). Nothing happens when no instance is live. -/
def monitorLoopCheck (s : EstadoMonitor) : EstadoMonitor :=
  if s.ativos = 0 then s
  else if !s.monitorRunning then { s with ativos := s.ativos - 1 }
  else s

/-- What can happen to the monitor state. -/
inductive Evento where
  | start (r : Pedido) : Evento
  | pause : Evento
  | stop : Evento
  | check : Evento

/-- The state after one event. -/
def passo (s : EstadoMonitor) : Evento → EstadoMonitor
  | .start r => (monitorHandler r s).1
  | .pause => (monitorPauseHandler s).1
  | .stop => (monitorStopHandler s).1
  | .check => monitorLoopCheck s

/-- The state after a sequence of events. -/
def executa (s : EstadoMonitor) (evs : List Evento) : EstadoMonitor :=
  evs.foldl passo s

/-- A well-formed start request. -/
def pedidoExemplo : Pedido :=
  { metodo := "POST", cards := some [{ Nome := "Pikachu", Colecao := "SV1", Numero := "25" }] }

/-- The state at process start: no monitor, nothing launched. -/
def ocioso : EstadoMonitor :=
  { monitorRunning := false, monitorPaused := false, lancamentos := 0, ativos := 0 }


/-! ## Browser session and extraction protocol (`main.go`, lines 443-610) -/

/-- Go `strings.Contains` on character lists. -/
def contemLista : List Char → List Char → Bool
  | [], sub => sub.isEmpty
  | c :: cs, sub => sub.isPrefixOf (c :: cs) || contemLista cs sub

/-- Go `strings.Contains`. -/
def stringsContains (s sub : String) : Bool :=
  contemLista s.toList sub.toList

/-- Go `unicode.ToUpper` as far as comparison with ASCII text goes: the ASCII small
letters and the two other code points whose upper case is an ASCII letter (U+0131,
U+017F). -/
def toUpperRune (c : Char) : Char :=
  if 97 ≤ c.toNat ∧ c.toNat ≤ 122 then Char.ofNat (c.toNat - 32)
  else if c.toNat = 0x131 then 'I'
  else if c.toNat = 0x17F then 'S'
  else c

/-- Go `strings.ToUpper` (see `toUpperRune`). -/
def stringsToUpper (s : String) : String :=
  String.mk (s.toList.map toUpperRune)

/-- Go `selenium.ByCSSSelector` and `selenium.ByTagName`. -/
inductive By where
  | css : By
  | tag : By
  deriving DecidableEq

/-- The part of `selenium.WebDriver` and `selenium.WebElement` the program uses, over
a session state `σ` and element handles `ε`. `Get` gives the error of the navigation
(`none` for nil); a lookup gives `none` when selenium returns an error; `Text` and
`GetAttribute` give "" on an error, which is what the program reads then. -/
structure WebDriver (σ ε : Type) where
  Get : String → σ → σ × Option String
  FindElement : By → String → σ → Option ε
  ElemFindElement : ε → By → String → σ → Option ε
  ElemFindElements : ε → By → String → σ → Option (List ε)
  Click : ε → σ → σ
  Text : ε → σ → String
  GetAttribute : ε → String → σ → String

/-- The `config.Website` of the program. -/
def configWebsite : String := "https://www.ligapokemon.com.br/"

/-- The query URL built at the start of `buscaCartaCompleta`. -/
def montaURL (nome colecao numero : String) : String :=
  configWebsite ++ "?view=cards/card&card=" ++ stringsReplaceAll nome " " "%20" ++
    "%20(" ++ numero ++ ")&ed=" ++ colecao ++ "&num=" ++ numero

/-- Go `fechaBannerCookies`: the session after the attempt. -/
def fechaBannerCookies {σ ε : Type} (wd : WebDriver σ ε) (s : σ) : σ :=
  match wd.FindElement By.css "#lgpd-cookie" s with
  | some banner =>
    match wd.ElemFindElement banner By.tag "button" s with
    | some btn => wd.Click btn s
    | none => s
  | none => s

/-- The loop of `extraiLinguaECondicao` over the titles of the `img` elements: every
non-empty title is assigned to `lingua`. -/
def loopLingua : List String → String → String
  | [], lingua => lingua
  | title :: resto, lingua => loopLingua resto (if title ≠ "" then title else lingua)

/-- The loop of `extraiLinguaECondicao` over the titles of the `.quality` elements: it
stops at the first title whose upper case contains "NM". -/
def loopCondicao : List String → String
  | [] => ""
  | title :: resto =>
    if stringsContains (stringsToUpper title) "NM" then title else loopCondicao resto

/-- Go `extraiLinguaECondicao`: the pair (lingua, condicao). -/
def extraiLinguaECondicao {σ ε : Type} (wd : WebDriver σ ε) (store : ε) (s : σ) :
    String × String :=
  match wd.ElemFindElement store By.css ".infos-quality-and-language.desktop-only" s with
  | none => ("", "")
  | some infos =>
    let imgs := (wd.ElemFindElements infos By.tag "img" s).getD []
    let lingua := loopLingua (imgs.map (fun img => wd.GetAttribute img "title" s)) ""
    let qs := (wd.ElemFindElements infos By.css ".quality" s).getD []
    let condicao := loopCondicao (qs.map (fun q => wd.GetAttribute q "title" s))
    (lingua, condicao)

/-- Go `localizaBotaoComprarNM`. -/
def localizaBotaoComprarNM {σ ε : Type} (wd : WebDriver σ ε) (store : ε) (s : σ) : Option ε :=
  wd.ElemFindElement store By.css "div.btn-green.cursor-pointer" s

/-- Go `abreModalCarrinho`: the session after the attempt. -/
def abreModalCarrinho {σ ε : Type} (wd : WebDriver σ ε) (s : σ) : σ :=
  match wd.FindElement By.css "div.cart-icon-container.icon-container" s with
  | some iconeCarrinho =>
    let s1 := wd.Click iconeCarrinho s
    match wd.FindElement By.css "a.btn-view-cart" s1 with
    | some meuCarrinhoBtn => wd.Click meuCarrinhoBtn s1
    | none => s1
  | none => s

/-- The loop of `localizaItemCarrinho` over the rows of the cart. -/
def localizaLoop {σ ε : Type} (wd : WebDriver σ ε) (nome numero : String) (s : σ) :
    List ε → Option ε
  | [] => none
  | row :: resto =>
    match wd.ElemFindElement row By.css "p.cardtitle a" s with
    | none => localizaLoop wd nome numero s resto
    | some tituloElem =>
      if stringsContains (wd.Text tituloElem s) nome &&
          stringsContains (wd.Text tituloElem s) ("(" ++ numero ++ ")") then some row
      else localizaLoop wd nome numero s resto

/-- Go `localizaItemCarrinho`: the row, `none` when an error is returned. -/
def localizaItemCarrinho {σ ε : Type} (wd : WebDriver σ ε) (nome numero : String) (s : σ) :
    Option ε :=
  match wd.FindElement By.css "div.itens" s with
  | none => none
  | some itens =>
    match wd.ElemFindElements itens By.css "div.row" s with
    | none => none
    | some rows => localizaLoop wd nome numero s rows

/-- What a row element answers to the lookups of `extraiDadosItemCarrinho`. -/
def leLinhaCarrinho {σ ε : Type} (wd : WebDriver σ ε) (row : ε) (s : σ) : LinhaCarrinho :=
  { estoque := (wd.ElemFindElement row By.css "div.item-estoque" s).map (fun e => wd.Text e s)
    precoTotal :=
      (wd.ElemFindElement row By.css "div.preco-total.item-total" s).map (fun e => wd.Text e s) }

/-- Go `removeItemCarrinho`: the session after the attempt. -/
def removeItemCarrinho {σ ε : Type} (wd : WebDriver σ ε) (row : ε) (s : σ) : σ :=
  match wd.ElemFindElement row By.css "div.btn-circle.remove.delete.item-delete" s with
  | some btnRemove => wd.Click btnRemove s
  | none => s

/-- The loop of `buscaCartaCompleta` over the seller elements: the results appended and
the session after the loop. -/
def buscaLoop {σ ε : Type} (wd : WebDriver σ ε) (nome colecao numero : String) :
    List ε → σ → List CardResult × σ
  | [], s => ([], s)
  | store :: resto, s =>
    if stringsContains (stringsToUpper (extraiLinguaECondicao wd store s).2) "NM" then
      match localizaBotaoComprarNM wd store s with
      | some btnComprar =>
        let s1 := fechaBannerCookies wd s
        let s2 := wd.Click btnComprar s1
        let s3 := abreModalCarrinho wd s2
        match localizaItemCarrinho wd nome numero s3 with
        | some rowCarrinho =>
          ([{ extraiDadosItemCarrinho (leLinhaCarrinho wd rowCarrinho s3) with
              Nome := nome
              Colecao := colecao
              Numero := numero
              Lingua := (extraiLinguaECondicao wd store s).1
              Condicao := (extraiLinguaECondicao wd store s).2 }],
            removeItemCarrinho wd rowCarrinho s3)
        | none => buscaLoop wd nome colecao numero resto s3
      | none => buscaLoop wd nome colecao numero resto s
    else buscaLoop wd nome colecao numero resto s

/-- Go `buscaCartaCompleta`: the results, the error, and the session after the call. -/
def buscaCartaCompleta {σ ε : Type} (wd : WebDriver σ ε) (nome colecao numero : String)
    (s : σ) : (List CardResult × Option String) × σ :=
  match wd.Get (montaURL nome colecao numero) s with
  | (s1, some err) => (([], some err), s1)
  | (s1, none) =>
    let s2 := fechaBannerCookies wd s1
    match wd.FindElement By.css "#marketplace-stores" s2 with
    | none => (([], none), s2)
    | some storesContainer =>
      match wd.ElemFindElements storesContainer By.css ".store" s2 with
      | none => (([], none), s2)
      | some stores =>
        (((buscaLoop wd nome colecao numero stores s2).1, none),
          (buscaLoop wd nome colecao numero stores s2).2)

/-! ### A page as a list of seller blocks -/

/-- A cart row of the page model: the text of its title link, of its stock element and
of its total-price element, `none` when the element is missing, and whether the row has
a delete control. -/
structure LinhaPagina where
  titulo : Option String
  estoque : Option String
  precoTotal : Option String
  remover : Bool := true
  deriving DecidableEq

/-- A seller block (`.store`) of the page model: whether it has the block of quality
and language, the titles of the `img` and of the `.quality` elements of that block in
document order, whether it has a buy control, and the row that clicking the buy control
puts in the cart. -/
structure Vendedor where
  infos : Bool
  imagens : List String
  qualidades : List String
  comprar : Bool
  linha : Option LinhaPagina
  deriving DecidableEq

/-- The session state of the page model: whether the cookie banner is shown, the seller
blocks of `#marketplace-stores` in document order (`none` without the container), the
rows in the cart, whether the menu of the cart icon is open (it holds the link
`a.btn-view-cart`) and whether the cart view is open (it holds `div.itens`). -/
structure Pagina where
  banner : Bool
  lojas : Option (List Vendedor)
  carrinho : List LinhaPagina
  menuAberto : Bool := false
  carrinhoAberto : Bool := false
  deriving DecidableEq

/-- The element handles of the page model. -/
inductive Elemento where
  | banner : Elemento
  | botaoBanner : Elemento
  | lojas : Elemento
  | loja (v : Vendedor) : Elemento
  | infos (v : Vendedor) : Elemento
  | img (title : String) : Elemento
  | qualidade (title : String) : Elemento
  | comprar (v : Vendedor) : Elemento
  | iconeCarrinho : Elemento
  | verCarrinho : Elemento
  | itens : Elemento
  | linha (l : LinhaPagina) : Elemento
  | texto (t : String) : Elemento
  | remover (l : LinhaPagina) : Elemento
  deriving DecidableEq

/-- The session of the page model. Navigation succeeds and shows the page with the
menu of the cart icon and the cart view closed; the banner and the cart stay as they
were. The banner button hides the banner. While the banner is shown it takes the click
meant for a buy control; otherwise the buy control of a seller puts the seller's row at
the end of the cart. A click on the cart icon opens its menu, where the link to the cart
is found, and a click on that link opens the cart view, where the rows are found. The
delete control of a row takes the row out of the cart. -/
def paginaDriver : WebDriver Pagina Elemento where
  Get := fun _ s => ({ s with menuAberto := false, carrinhoAberto := false }, none)
  FindElement := fun por sel s =>
    if por = By.css ∧ sel = "#lgpd-cookie" then (if s.banner then some Elemento.banner else none)
    else if por = By.css ∧ sel = "#marketplace-stores" then s.lojas.map (fun _ => Elemento.lojas)
    else if por = By.css ∧ sel = "div.cart-icon-container.icon-container" then
      some Elemento.iconeCarrinho
    else if por = By.css ∧ sel = "a.btn-view-cart" then
      (if s.menuAberto then some Elemento.verCarrinho else none)
    else if por = By.css ∧ sel = "div.itens" then
      (if s.carrinhoAberto then some Elemento.itens else none)
    else none
  ElemFindElement := fun e por sel _ =>
    match e with
    | Elemento.banner => if por = By.tag ∧ sel = "button" then some Elemento.botaoBanner else none
    | Elemento.loja v =>
      if por = By.css ∧ sel = ".infos-quality-and-language.desktop-only" then
        (if v.infos then some (Elemento.infos v) else none)
      else if por = By.css ∧ sel = "div.btn-green.cursor-pointer" then
        (if v.comprar then some (Elemento.comprar v) else none)
      else none
    | Elemento.linha l =>
      if por = By.css ∧ sel = "p.cardtitle a" then l.titulo.map Elemento.texto
      else if por = By.css ∧ sel = "div.item-estoque" then l.estoque.map Elemento.texto
      else if por = By.css ∧ sel = "div.preco-total.item-total" then
        l.precoTotal.map Elemento.texto
      else if por = By.css ∧ sel = "div.btn-circle.remove.delete.item-delete" then
        (if l.remover then some (Elemento.remover l) else none)
      else none
    | _ => none
  ElemFindElements := fun e por sel s =>
    match e with
    | Elemento.lojas =>
      if por = By.css ∧ sel = ".store" then some ((s.lojas.getD []).map Elemento.loja)
      else some []
    | Elemento.infos v =>
      if por = By.tag ∧ sel = "img" then some (v.imagens.map Elemento.img)
      else if por = By.css ∧ sel = ".quality" then some (v.qualidades.map Elemento.qualidade)
      else some []
    | Elemento.itens =>
      if por = By.css ∧ sel = "div.row" then some (s.carrinho.map Elemento.linha) else some []
    | _ => some []
  Click := fun e s =>
    match e with
    | Elemento.botaoBanner => { s with banner := false }
    | Elemento.comprar v =>
      if s.banner then s else { s with carrinho := s.carrinho ++ v.linha.toList }
    | Elemento.iconeCarrinho => { s with menuAberto := true }
    | Elemento.verCarrinho => { s with carrinhoAberto := true }
    | Elemento.remover l => { s with carrinho := s.carrinho.erase l }
    | _ => s
  Text := fun e _ =>
    match e with
    | Elemento.texto t => t
    | _ => ""
  GetAttribute := fun e attr _ =>
    match e with
    | Elemento.img title => if attr = "title" then title else ""
    | Elemento.qualidade title => if attr = "title" then title else ""
    | _ => ""

/-- A text contains "NM" in any mix of upper and lower case. -/
def contemNMLista : List Char → Bool
  | [] => false
  | [_] => false
  | c :: d :: r =>
    ((c == 'n' || c == 'N') && (d == 'm' || d == 'M')) || contemNMLista (d :: r)

/-- A text contains "NM" in any mix of upper and lower case. -/
def contemNM (t : String) : Bool :=
  contemNMLista t.toList

/-- The title of a cart row contains the card name and the number in parentheses. -/
def tituloConfere (nome numero : String) (l : LinhaPagina) : Bool :=
  match l.titulo with
  | some t => stringsContains t nome && stringsContains t ("(" ++ numero ++ ")")
  | none => false

/-- A seller qualifies, in the words of the specification: a condition label that
contains "NM" in any case, a buy control, and a cart row found by its title. -/
def qualifica (nome numero : String) (v : Vendedor) : Bool :=
  v.infos && v.qualidades.any contemNM && v.comprar &&
    (match v.linha with
     | some l => tituloConfere nome numero l
     | none => false)

/-- The observation read from a seller and its cart row: the requested identity, the
seller's condition label with "NM", the quantity and the price of the row. -/
def observacaoDe (nome colecao numero : String) (v : Vendedor) (l : LinhaPagina) : CardResult :=
  { Nome := nome
    Colecao := colecao
    Numero := numero
    Condicao := (v.qualidades.find? contemNM).getD ""
    Quantidade := (extraiDadosItemCarrinho { estoque := l.estoque, precoTotal := l.precoTotal }).Quantidade
    Preco := (extraiDadosItemCarrinho { estoque := l.estoque, precoTotal := l.precoTotal }).Preco
    PrecoTotal := (extraiDadosItemCarrinho { estoque := l.estoque, precoTotal := l.precoTotal }).PrecoTotal
    Lingua := loopLingua v.imagens "" }

/-- The result the specification describes for a page: the observation of the first
seller that qualifies, nothing when no seller qualifies. -/
def buscaRef (nome colecao numero : String) (vs : List Vendedor) : List CardResult :=
  match vs.find? (qualifica nome numero) with
  | some v => (v.linha.map (observacaoDe nome colecao numero v)).toList
  | none => []

/-- The sellers of the end-to-end example: seller A with condition "LP", seller B with
condition "NM — Near Mint" and a cart row priced "R$ 10,00". -/
def vendedoresExemplo : List Vendedor :=
  [{ infos := true, imagens := ["Português"], qualidades := ["LP"], comprar := true,
     linha := some { titulo := some "Pikachu (25) - outro vendedor LP",
                     estoque := some "Estoque: 1 unidades",
                     precoTotal := some "R$ 7,00" } },
   { infos := true, imagens := ["Português"], qualidades := ["NM — Near Mint"],
     comprar := true,
     linha := some { titulo := some "Pikachu (25)", estoque := some "Estoque: 3 unidades",
                     precoTotal := some "R$ 10,00" } }]

/-- The page of the end-to-end example: the banner shown, the sellers of
`vendedoresExemplo`, an empty cart. -/
def paginaExemplo : Pagina :=
  { banner := true, lojas := some vendedoresExemplo, carrinho := [] }

/-- A row of another card, left in the cart, without a delete control. -/
def linhaOutra : LinhaPagina :=
  { titulo := some "Charizard (4)", estoque := some "Estoque: 2 unidades",
    precoTotal := some "R$ 50,00", remover := false }

/-- A page whose cart already holds a row of the card, with one seller of condition "NM"
whose buy control puts no row in the cart. -/
def paginaComSobra : Pagina :=
  { banner := true
    lojas := some
      [{ infos := true, imagens := ["Português"], qualidades := ["NM"], comprar := true,
         linha := none }]
    carrinho := [{ titulo := some "Pikachu (25)", estoque := some "Estoque: 1 unidades",
                   precoTotal := some "R$ 99,00" }] }

/-- The titles of a list of elements, in order (`GetAttribute("title")` on each). -/
def titulosDe {σ ε : Type} (wd : WebDriver σ ε) (elems : List ε) (s : σ) : List String :=
  elems.map (fun e => wd.GetAttribute e "title" s)

/-- The first non-empty text of a list, "" when there is none (the language label in the
words of the specification). -/
def primeiroNaoVazio (ts : List String) : String :=
  (ts.find? (fun t => t != "")).getD ""

/-- The last non-empty text of a list, "" when there is none. -/
def ultimoNaoVazio (ts : List String) : String :=
  ((ts.filter (fun t => t != "")).getLast?).getD ""

/-! ## Digits -/

theorem digitVal_digitChar : ∀ d : Nat, d < 10 → digitVal (digitChar d) = some d := by
  decide

theorem digitoBase_digitChar : ∀ d : Nat, d < 10 → digitoBase false (digitChar d) = some d := by
  decide

theorem digitChar_ne_special : ∀ d : Nat, d < 10 →
    digitChar d ≠ '_' ∧ digitChar d ≠ '.' ∧ digitChar d ≠ '-' ∧ digitChar d ≠ '+' ∧
    digitChar d ≠ 'x' ∧ digitChar d ≠ 'X' ∧ digitChar d ≠ 'i' ∧ digitChar d ≠ 'I' ∧
    digitChar d ≠ 'n' ∧ digitChar d ≠ 'N' ∧ digitChar d ≠ 'e' ∧ digitChar d ≠ 'E' := by
  decide

/-- Value spelled by a list of digits, most significant first, after `a`. -/
theorem natDigitsAux_spec (fuel : Nat) : ∀ (n : Nat) (acc : List Nat), n < fuel →
    ∃ ds : List Nat, natDigitsAux fuel n (acc.map digitChar) = (ds ++ acc).map digitChar ∧
      (∀ d ∈ ds, d < 10) ∧ ds ≠ [] ∧ ds.foldl (fun a d => a * 10 + d) 0 = n := by
  induction fuel with
  | zero => intro n acc h; omega
  | succ fuel ih =>
    intro n acc h
    by_cases h10 : n < 10
    · refine ⟨[n], ?_, ?_, by simp, by simp⟩
      · simp [natDigitsAux, h10]
      · intro d hd; simp at hd; omega
    · have hlt : n / 10 < fuel := by omega
      obtain ⟨ds, h1, h2, h3, h4⟩ := ih (n / 10) (n % 10 :: acc) hlt
      refine ⟨ds ++ [n % 10], ?_, ?_, by simp, ?_⟩
      · simp only [natDigitsAux, h10, if_false]
        simpa using h1
      · intro d hd
        rcases List.mem_append.mp hd with hd | hd
        · exact h2 d hd
        · simp at hd; omega
      · rw [List.foldl_append, h4]; simp; omega

theorem natDigits_spec (n : Nat) :
    ∃ ds : List Nat, natDigits n = ds.map digitChar ∧
      (∀ d ∈ ds, d < 10) ∧ ds ≠ [] ∧ ds.foldl (fun a d => a * 10 + d) 0 = n := by
  obtain ⟨ds, h1, h2, h3, h4⟩ := natDigitsAux_spec (n + 1) n [] (by omega)
  exact ⟨ds, by simpa [natDigits] using h1, h2, h3, h4⟩


/-! ## Reading back what `%.2f` writes -/

theorem lerMantissa_digits (ds : List Nat) : ∀ (rest : List Char) (st : Mantissa),
    (∀ d ∈ ds, d < 10) →
    lerMantissa false (ds.map digitChar ++ rest) st =
      lerMantissa false rest
        { st with
          sawdigits := st.sawdigits || !ds.isEmpty
          mant := ds.foldl (fun a d => a * 10 + d) st.mant
          frac := if st.sawdot then st.frac + ds.length else st.frac } := by
  induction ds with
  | nil => intro rest st _; cases st; simp
  | cons d ds ih =>
    intro rest st h
    have hd : d < 10 := h d (by simp)
    have hne := digitChar_ne_special d hd
    have hv := digitoBase_digitChar d hd
    simp only [List.map_cons, List.cons_append, lerMantissa, hne.1, hne.2.1, if_false, hv,
      List.append_eq]
    rw [ih rest _ (fun x hx => h x (by simp [hx]))]
    cases st with
    | mk sd sg us mt fr =>
      cases sd <;> simp [Nat.add_assoc, Nat.add_comm 1]

theorem special_digit (d : Nat) (hd : d < 10) (cs : List Char) :
    special (digitChar d :: cs) = none := by
  have hne := digitChar_ne_special d hd
  simp [special, hne]

theorem commonPrefixLen_digit : ∀ d : Nat, d < 10 → ∀ (cs : List Char) (p : Char) (ps : List Char),
    (p = 'i' ∨ p = 'n') → commonPrefixLenIgnoreCase (digitChar d :: cs) (p :: ps) = 0 := by
  intro d hd cs p ps hp
  have h1 : ¬ (65 ≤ (digitChar d).toNat ∧ (digitChar d).toNat ≤ 90) := by
    revert d; decide
  have hne := digitChar_ne_special d hd
  rcases hp with rfl | rfl <;> simp [commonPrefixLenIgnoreCase, h1, hne]

theorem special_minus_digit (d : Nat) (hd : d < 10) (cs : List Char) :
    special ('-' :: digitChar d :: cs) = none := by
  simp [special, specialInf, commonPrefixLen_digit d hd cs 'i' _ (Or.inl rfl)]

theorem temPrefixoHex_digits (ds : List Nat) (h : ∀ d ∈ ds, d < 10) (r : List Char) :
    temPrefixoHex (ds.map digitChar ++ '.' :: r) = false := by
  match ds, h with
  | [], _ => rcases r with _ | ⟨a, _ | ⟨b, t⟩⟩ <;> simp [temPrefixoHex]
  | [d], _ => rcases r with _ | ⟨a, t⟩ <;> simp [temPrefixoHex]
  | d :: d1 :: ds, h =>
    have hne := digitChar_ne_special d1 (h d1 (by simp))
    cases ds <;> simp [temPrefixoHex, hne]


theorem lerMagnitude_decimal (todo : List Char) (ds1 ds2 : List Nat)
    (h1 : ∀ d ∈ ds1, d < 10) (h2 : ∀ d ∈ ds2, d < 10) (hne : ds1 ≠ []) :
    lerMagnitude todo (ds1.map digitChar ++ '.' :: ds2.map digitChar) =
      some ((((ds1 ++ ds2).foldl (fun a d => a * 10 + d) 0 : Nat) : ℚ) / 10 ^ ds2.length) := by
  have hhex := temPrefixoHex_digits ds1 h1 (ds2.map digitChar)
  have hm : lerMantissa false (ds1.map digitChar ++ '.' :: ds2.map digitChar) {} =
      ({ sawdot := true, sawdigits := true, underscores := false,
         mant := (ds1 ++ ds2).foldl (fun a d => a * 10 + d) 0, frac := ds2.length }, []) := by
    rw [lerMantissa_digits ds1 _ _ h1]
    have h3 := lerMantissa_digits ds2 [] 
      { sawdot := true, sawdigits := true, underscores := false,
        mant := ds1.foldl (fun a d => a * 10 + d) 0, frac := 0 } h2
    simp only [List.append_nil] at h3
    cases ds1 with
    | nil => exact absurd rfl hne
    | cons d ds1 =>
      simp only [lerMantissa, List.isEmpty_cons, Bool.not_false, Bool.or_true]
      simp only [show ('.' : Char) ≠ '_' by decide, if_false, if_true, Bool.false_eq_true]
      rw [h3]
      simp [lerMantissa, List.foldl_append]
  simp only [lerMagnitude, hhex, Bool.false_eq_true, if_false, hm, lerExpoente]
  simp

theorem parseFloatChars_decimal (ds1 ds2 : List Nat)
    (h1 : ∀ d ∈ ds1, d < 10) (h2 : ∀ d ∈ ds2, d < 10) (hne : ds1 ≠ []) (neg : Bool) :
    parseFloatChars ((if neg then ['-'] else []) ++ ds1.map digitChar ++ '.' :: ds2.map digitChar) =
      arredonda neg ((((ds1 ++ ds2).foldl (fun a d => a * 10 + d) 0 : Nat) : ℚ) / 10 ^ ds2.length) := by
  cases ds1 with
  | nil => exact absurd rfl hne
  | cons d ds1 =>
    have hd : d < 10 := h1 d (by simp)
    have hne2 := digitChar_ne_special d hd
    cases neg with
    | true =>
      have hs := special_minus_digit d hd (ds1.map digitChar ++ '.' :: ds2.map digitChar)
      have hl := lerMagnitude_decimal
        ('-' :: digitChar d :: (ds1.map digitChar ++ '.' :: ds2.map digitChar)) (d :: ds1) ds2 h1 h2 hne
      simp only [List.map_cons, List.cons_append] at hl
      simp [parseFloatChars, hs, hl]
    | false =>
      have hs := special_digit d hd (ds1.map digitChar ++ '.' :: ds2.map digitChar)
      have hl := lerMagnitude_decimal
        (digitChar d :: (ds1.map digitChar ++ '.' :: ds2.map digitChar)) (d :: ds1) ds2 h1 h2 hne
      simp only [List.map_cons, List.cons_append] at hl
      have hb : (digitChar d == '-') = false := by simp [hne2]
      simp [parseFloatChars, hs, hl, hne2, hb]


theorem temPrefixoHex_inteiro (ds : List Nat) (h : ∀ d ∈ ds, d < 10) :
    temPrefixoHex (ds.map digitChar) = false := by
  match ds, h with
  | [], _ => rfl
  | [d], _ => rfl
  | [d, d1], _ => rfl
  | d :: d1 :: d2 :: ds, h =>
    have hne := digitChar_ne_special d1 (h d1 (by simp))
    simp [temPrefixoHex, hne]

theorem lerMagnitude_inteiro (todo : List Char) (ds : List Nat)
    (h : ∀ d ∈ ds, d < 10) (hne : ds ≠ []) :
    lerMagnitude todo (ds.map digitChar) =
      some ((ds.foldl (fun a d => a * 10 + d) 0 : Nat) : ℚ) := by
  have hhex := temPrefixoHex_inteiro ds h
  have hm : lerMantissa false (ds.map digitChar) {} =
      ({ sawdot := false, sawdigits := true, underscores := false,
         mant := ds.foldl (fun a d => a * 10 + d) 0, frac := 0 }, []) := by
    have h3 := lerMantissa_digits ds [] {} h
    simp only [List.append_nil] at h3
    rw [h3]
    cases ds with
    | nil => exact absurd rfl hne
    | cons d ds => simp [lerMantissa]
  simp only [lerMagnitude, hhex, Bool.false_eq_true, if_false, hm, lerExpoente]
  simp

theorem parseFloatChars_inteiro (ds : List Nat) (h : ∀ d ∈ ds, d < 10) (hne : ds ≠ [])
    (neg : Bool) :
    parseFloatChars ((if neg then ['-'] else []) ++ ds.map digitChar) =
      arredonda neg ((ds.foldl (fun a d => a * 10 + d) 0 : Nat) : ℚ) := by
  cases ds with
  | nil => exact absurd rfl hne
  | cons d ds =>
    have hd : d < 10 := h d (by simp)
    have hne2 := digitChar_ne_special d hd
    cases neg with
    | true =>
      have hs := special_minus_digit d hd (ds.map digitChar)
      have hl := lerMagnitude_inteiro ('-' :: digitChar d :: ds.map digitChar) (d :: ds) h hne
      simp only [List.map_cons] at hl
      simp [parseFloatChars, hs, hl]
    | false =>
      have hs := special_digit d hd (ds.map digitChar)
      have hl := lerMagnitude_inteiro (digitChar d :: ds.map digitChar) (d :: ds) h hne
      simp only [List.map_cons] at hl
      have hb : (digitChar d == '-') = false := by simp [hne2]
      simp [parseFloatChars, hs, hl, hne2, hb]

theorem centavos_natCast_div (c : Nat) : centavos ((c : ℚ) / 100) = c := by
  have hx : (c : ℚ) / 100 * 100 = c := by field_simp
  simp [centavos, hx]

theorem maxFloat64_nat : ∃ M : Nat, maxFloat64 = (M : ℚ) := by
  refine ⟨2 ^ 1024 - 2 ^ 971, ?_⟩
  rw [maxFloat64, Nat.cast_sub (Nat.pow_le_pow_right (by norm_num) (by norm_num))]
  simp only [Nat.cast_pow, Nat.cast_ofNat]

theorem centavos_le (m : ℚ) (N : Nat) (h0 : 0 ≤ m) (h : m * 100 ≤ N) : centavos m ≤ N := by
  have hx0 : 0 ≤ m * 100 := by positivity
  have hf : ⌊m * 100⌋₊ ≤ N := by
    have := Nat.floor_le_floor h
    simpa using this
  have hfx : (⌊m * 100⌋₊ : ℚ) ≤ m * 100 := Nat.floor_le hx0
  have hsucc : (1 : ℚ) / 2 ≤ m * 100 - ⌊m * 100⌋₊ → ⌊m * 100⌋₊ + 1 ≤ N := by
    intro hge
    have hlt : (⌊m * 100⌋₊ : ℚ) < N := by linarith
    have : ⌊m * 100⌋₊ < N := by exact_mod_cast hlt
    omega
  unfold centavos
  simp only
  split_ifs with a b c
  · exact hf
  · exact hsucc (le_of_lt b)
  · exact hf
  · exact hsucc (not_lt.mp a)

theorem valido_centavos (m : ℚ) (h0 : 0 ≤ m) (h : m ≤ maxFloat64) :
    ((centavos m : ℚ) / 100) ≤ maxFloat64 := by
  obtain ⟨M, hM⟩ := maxFloat64_nat
  rw [hM] at h ⊢
  have h2 : m * 100 ≤ ((M * 100 : Nat) : ℚ) := by
    push_cast
    exact mul_le_mul_of_nonneg_right h (by norm_num)
  have h3 := centavos_le m _ h0 h2
  have h4 : (centavos m : ℚ) ≤ ((M * 100 : Nat) : ℚ) := by exact_mod_cast h3
  rw [div_le_iff₀ (by norm_num)]
  simpa using h4

theorem arredonda_centavos (neg : Bool) (c : Nat) (h : (c : ℚ) / 100 ≤ maxFloat64) :
    arredonda neg ((c : ℚ) / 100) = (F64.fin neg ((c : ℚ) / 100), none) := by
  have hmax : maxFloat64 < limiteInf := by
    unfold maxFloat64 limiteInf; norm_num
  have h1 : ¬ limiteInf ≤ (c : ℚ) / 100 := by
    intro h'; linarith
  have h2 : ¬ maxFloat64 < (c : ℚ) / 100 := not_lt.mpr h
  by_cases hc : c = 0
  · subst hc
    have h3 : (0 : ℚ) ≤ limiteZero := by unfold limiteZero; positivity
    have e : ((0 : Nat) : ℚ) / 100 = 0 := by simp
    rw [e] at h1 h2 ⊢
    simp [arredonda, h1, h2, h3]
  · have hc1 : (1 : ℚ) ≤ c := by exact_mod_cast Nat.one_le_iff_ne_zero.mpr hc
    have h3 : ¬ (c : ℚ) / 100 ≤ limiteZero := by
      have : limiteZero < 1 / 100 := by
        unfold limiteZero
        rw [div_lt_div_iff₀ (by positivity) (by norm_num)]
        norm_num
      intro h'
      have : (1 : ℚ) / 100 ≤ c / 100 := by
        apply div_le_div_of_nonneg_right hc1 (by norm_num)
      linarith
    simp [arredonda, h1, h2, h3]

theorem parseFloatChars_format (neg : Bool) (m : ℚ) :
    parseFloatChars (formatFloat2Chars (F64.fin neg m)) =
      arredonda neg ((centavos m : ℚ) / 100) := by
  obtain ⟨ds, h1, h2, h3, h4⟩ := natDigits_spec (centavos m / 100)
  have ha : centavos m / 10 % 10 < 10 := Nat.mod_lt _ (by norm_num)
  have hb : centavos m % 10 < 10 := Nat.mod_lt _ (by norm_num)
  have h5 := parseFloatChars_decimal ds [centavos m / 10 % 10, centavos m % 10] h2
    (by intro d hd; simp at hd; rcases hd with rfl | rfl <;> assumption) h3 neg
  have hval : (ds ++ [centavos m / 10 % 10, centavos m % 10]).foldl (fun a d => a * 10 + d) 0
      = centavos m := by
    rw [List.foldl_append, h4]
    simp only [List.foldl_cons, List.foldl_nil]
    omega
  rw [hval] at h5
  have hstr : formatFloat2Chars (F64.fin neg m) =
      (if neg then ['-'] else []) ++ ds.map digitChar ++
        '.' :: [centavos m / 10 % 10, centavos m % 10].map digitChar := by
    simp [formatFloat2Chars, h1]
  rw [hstr, h5]
  norm_num

theorem parseFloat_formatFloat2 (p : F64) (hp : p.valido = true) :
    strconvParseFloat (formatFloat2 p) = (arredonda2 p, none) := by
  cases p with
  | nan => decide
  | inf neg => cases neg <;> decide
  | fin neg m =>
    simp only [F64.valido, Bool.and_eq_true, decide_eq_true_eq] at hp
    show parseFloatChars (formatFloat2Chars (F64.fin neg m)) = _
    rw [parseFloatChars_format, arredonda_centavos neg _ (valido_centavos m hp.1 hp.2)]
    rfl

theorem formatFloat2_arredonda2 (p : F64) : formatFloat2 (arredonda2 p) = formatFloat2 p := by
  cases p with
  | nan => rfl
  | inf neg => rfl
  | fin neg m =>
    simp [arredonda2, formatFloat2, formatFloat2Chars, centavos_natCast_div]

theorem valido_arredonda2 (p : F64) (hp : p.valido = true) : (arredonda2 p).valido = true := by
  cases p with
  | nan => rfl
  | inf neg => rfl
  | fin neg m =>
    simp only [F64.valido, Bool.and_eq_true, decide_eq_true_eq] at hp
    simp only [arredonda2, F64.valido, Bool.and_eq_true, decide_eq_true_eq]
    exact ⟨by positivity, valido_centavos m hp.1 hp.2⟩

theorem arredonda2_idem (p : F64) : arredonda2 (arredonda2 p) = arredonda2 p := by
  cases p with
  | nan => rfl
  | inf neg => rfl
  | fin neg m => simp [arredonda2, centavos_natCast_div]


/-! ## The CSV text of the store -/

theorem foldr_poeChar (f g : List Char) (fs : List (List Char))
    (rs : List (List (List Char))) :
    f.foldr poeChar ((g :: fs) :: rs) = ((f ++ g) :: fs) :: rs := by
  induction f with
  | nil => rfl
  | cons c f ih => simp [List.foldr, ih, poeChar]

theorem csvLoop_aspas (f : List Char) : ∀ (x : List Char),
    csvLoop (csvEscapa f ++ '"' :: x) ModoCSV.aspas =
      (csvLoop x ModoCSV.fechou).map (fun rs => f.foldr poeChar rs) := by
  induction f with
  | nil => intro x; simp [csvEscapa, csvLoop]
  | cons c f ih =>
    intro x
    by_cases hc : c = '"'
    · subst hc
      simp [csvEscapa, csvLoop, ih, Option.map_map, Function.comp_def]
    · simp [csvEscapa, csvLoop, hc, ih, Option.map_map, Function.comp_def]

/-- A text without line feed, comma or quote. -/
theorem csvLoop_simples (f : List Char)
    (hf : ∀ c ∈ f, c ≠ '\n' ∧ c ≠ ';' ∧ c ≠ '"') : ∀ (x : List Char),
    csvLoop (f ++ x) ModoCSV.simples =
      (csvLoop x ModoCSV.simples).map (fun rs => f.foldr poeChar rs) := by
  induction f with
  | nil => intro x; simp
  | cons c f ih =>
    intro x
    obtain ⟨h1, h2, h3⟩ := hf c (by simp)
    have ih2 := ih (fun d hd => hf d (by simp [hd])) x
    simp [csvLoop, h1, h2, h3, ih2, Option.map_map, Function.comp_def]

theorem fieldNeedsQuotes_false (g : List Char) (h : fieldNeedsQuotes g = false) :
    ∀ c ∈ g, c ≠ '\n' ∧ c ≠ '\r' ∧ c ≠ '"' ∧ c ≠ ';' := by
  cases g with
  | nil => intro c hc; simp at hc
  | cons a g =>
    intro c hc
    simp only [fieldNeedsQuotes, Bool.or_eq_false_iff, List.any_eq_false] at h
    have := h.1.2 c hc
    simpa [not_or, and_assoc] using this

/-- A field followed by a comma, read at the start of a field. -/
theorem csvLoop_campo_virgula (g x : List Char) (m : ModoCSV)
    (hm : m = ModoCSV.inicio ∨ m = ModoCSV.campo) :
    csvLoop (csvCampo g ++ ';' :: x) m =
      (csvLoop x ModoCSV.campo).map (fun rs => g.foldr poeChar (fechaCampo rs)) := by
  unfold csvCampo
  by_cases hq : fieldNeedsQuotes g = true
  · simp only [hq, if_true, List.cons_append, List.append_assoc, List.nil_append]
    have h1 : csvLoop ('"' :: (csvEscapa g ++ '"' :: ';' :: x)) m =
        csvLoop (csvEscapa g ++ '"' :: ';' :: x) ModoCSV.aspas := by
      rcases hm with rfl | rfl <;> simp [csvLoop]
    rw [h1, csvLoop_aspas]
    simp [csvLoop, Option.map_map, Function.comp_def]
  · have hq2 : fieldNeedsQuotes g = false := by simpa using hq
    have hs := fieldNeedsQuotes_false g hq2
    simp only [hq2, Bool.false_eq_true, if_false]
    cases g with
    | nil => rcases hm with rfl | rfl <;> simp [csvLoop]
    | cons c g =>
      obtain ⟨h1, _, h3, h4⟩ := hs c (by simp)
      have h5 : csvLoop (c :: g ++ ';' :: x) m =
          (csvLoop (g ++ ';' :: x) ModoCSV.simples).map (poeChar c) := by
        rcases hm with rfl | rfl <;> simp [csvLoop, h1, h3, h4]
      rw [h5, csvLoop_simples g (fun d hd => by
        obtain ⟨a1, _, a3, a4⟩ := hs d (by simp [hd]); exact ⟨a1, a4, a3⟩)]
      simp [csvLoop, Option.map_map, Function.comp_def]

/-- A field followed by a line feed, read at the start of a field that is not the
first of its record. -/
theorem csvLoop_campo_fim (g x : List Char) :
    csvLoop (csvCampo g ++ '\n' :: x) ModoCSV.campo =
      (csvLoop x ModoCSV.inicio).map (fun rs => g.foldr poeChar (fechaRegistro rs)) := by
  unfold csvCampo
  by_cases hq : fieldNeedsQuotes g = true
  · simp only [hq, if_true, List.cons_append, List.append_assoc, List.nil_append]
    have h1 : csvLoop ('"' :: (csvEscapa g ++ '"' :: '\n' :: x)) ModoCSV.campo =
        csvLoop (csvEscapa g ++ '"' :: '\n' :: x) ModoCSV.aspas := by
      simp [csvLoop]
    rw [h1, csvLoop_aspas]
    simp [csvLoop, Option.map_map, Function.comp_def]
  · have hq2 : fieldNeedsQuotes g = false := by simpa using hq
    have hs := fieldNeedsQuotes_false g hq2
    simp only [hq2, Bool.false_eq_true, if_false]
    cases g with
    | nil => simp [csvLoop]
    | cons c g =>
      obtain ⟨h1, _, h3, h4⟩ := hs c (by simp)
      have h5 : csvLoop (c :: g ++ '\n' :: x) ModoCSV.campo =
          (csvLoop (g ++ '\n' :: x) ModoCSV.simples).map (poeChar c) := by
        simp [csvLoop, h1, h3, h4]
      rw [h5, csvLoop_simples g (fun d hd => by
        obtain ⟨a1, _, a3, a4⟩ := hs d (by simp [hd]); exact ⟨a1, a4, a3⟩)]
      simp [csvLoop, Option.map_map, Function.comp_def]

/-- A field and the rest of its record. -/
theorem csvLoop_resto (fs : List String) : ∀ (g x : List Char) (m : ModoCSV),
    (m = ModoCSV.campo ∨ (m = ModoCSV.inicio ∧ fs ≠ [])) →
    csvLoop (csvCampo g ++ (csvResto fs ++ x)) m =
      (csvLoop x ModoCSV.inicio).map (fun rs => (g :: fs.map String.data) :: rs) := by
  induction fs with
  | nil =>
    intro g x m hm
    rcases hm with rfl | ⟨_, h⟩
    · simp only [csvResto, List.cons_append, List.nil_append]
      rw [csvLoop_campo_fim]
      simp [fechaRegistro, foldr_poeChar]
    · exact absurd rfl h
  | cons f fs ih =>
    intro g x m hm
    have hm2 : m = ModoCSV.inicio ∨ m = ModoCSV.campo := by
      rcases hm with h | ⟨h, _⟩
      · exact Or.inr h
      · exact Or.inl h
    simp only [csvResto, List.cons_append, List.append_assoc]
    rw [csvLoop_campo_virgula g _ m hm2, ih f.data x ModoCSV.campo (Or.inl rfl)]
    simp [Option.map_map, Function.comp_def, fechaCampo, foldr_poeChar]

/-- One written record of two or more fields, read at the start of a record. -/
theorem csvLoop_writerWrite (r : List String) (hr : 2 ≤ r.length) (x : List Char) :
    csvLoop (writerWrite r ++ x) ModoCSV.inicio =
      (csvLoop x ModoCSV.inicio).map (fun rs => r.map String.data :: rs) := by
  match r, hr with
  | f :: g :: fs, _ =>
    simp only [writerWrite, List.append_assoc]
    rw [csvLoop_resto (g :: fs) f.data x ModoCSV.inicio (Or.inr ⟨rfl, by simp⟩)]
    simp

/-- The reader finds in a written text the records that were written. -/
theorem csvLoop_csvTexto (recs : List (List String)) (h : ∀ r ∈ recs, 2 ≤ r.length) :
    csvLoop (csvTexto recs) ModoCSV.inicio = some (recs.map (fun r => r.map String.data)) := by
  induction recs with
  | nil => simp [csvTexto, csvLoop]
  | cons r recs ih =>
    have e : csvTexto (r :: recs) = writerWrite r ++ csvTexto recs := by
      simp [csvTexto]
    rw [e, csvLoop_writerWrite r (h r (by simp)), ih (fun q hq => h q (by simp [hq]))]
    simp

theorem map_mk_data (recs : List (List String)) :
    (recs.map (fun r => r.map String.data)).map (fun r => r.map String.mk) = recs := by
  induction recs with
  | nil => rfl
  | cons r recs ih =>
    simp only [List.map_cons, ih, List.map_map]
    congr 1
    conv_rhs => rw [← List.map_id r]
    apply List.map_congr_left
    intro s _
    rfl

theorem csvEscrito_csvTexto (recs : List (List String)) (h : ∀ r ∈ recs, 2 ≤ r.length) :
    csvEscrito (csvTexto recs) = some recs := by
  unfold csvEscrito
  rw [csvLoop_csvTexto recs h, Option.map_some', map_mk_data]

/-! ### Line ends -/

theorem csvNormaliza_cons (c : Char) (x : List Char) (hc : c ≠ '\r') :
    csvNormaliza (c :: x) = c :: csvNormaliza x := by
  simp [csvNormaliza, hc]

theorem csvNormaliza_semCR (f : List Char) (hf : '\r' ∉ f) (x : List Char) :
    csvNormaliza (f ++ x) = f ++ csvNormaliza x := by
  induction f with
  | nil => rfl
  | cons c f ih =>
    have hc : c ≠ '\r' := fun h => hf (by simp [h])
    have hf2 : '\r' ∉ f := fun h => hf (by simp [h])
    simp [csvNormaliza_cons c _ hc, ih hf2]

theorem semCRLF_semCR (f : List Char) (hf : '\r' ∉ f) : semCRLF f = f := by
  induction f with
  | nil => rfl
  | cons c f ih =>
    have hc : c ≠ '\r' := fun h => hf (by simp [h])
    have hf2 : '\r' ∉ f := fun h => hf (by simp [h])
    simp [semCRLF, hc, ih hf2]

theorem head_csvEscapa (g x : List Char) :
    ((csvEscapa g ++ '"' :: x).head? = some '\n') ↔ g.head? = some '\n' := by
  cases g with
  | nil => simp [csvEscapa]
  | cons d g =>
    by_cases hd : d = '"'
    · subst hd; simp [csvEscapa]
    · simp [csvEscapa, hd]

theorem csvNormaliza_cr_cai (y : List Char) (h : y.head? = some '\n') :
    csvNormaliza ('\r' :: y) = csvNormaliza y := by
  simp [csvNormaliza, h]

theorem csvNormaliza_cr_fica (y : List Char) (h1 : y ≠ []) (h2 : y.head? ≠ some '\n') :
    csvNormaliza ('\r' :: y) = '\r' :: csvNormaliza y := by
  have h3 : y.isEmpty = false := by cases y <;> simp at h1 ⊢
  simp [csvNormaliza, h2, h3]

theorem semCRLF_cr_cai (g : List Char) (h : g.head? = some '\n') :
    semCRLF ('\r' :: g) = semCRLF g := by
  simp [semCRLF, h]

theorem semCRLF_cr_fica (g : List Char) (h : g.head? ≠ some '\n') :
    semCRLF ('\r' :: g) = '\r' :: semCRLF g := by
  simp [semCRLF, h]

theorem csvNormaliza_escapa (g : List Char) : ∀ (x : List Char),
    csvNormaliza (csvEscapa g ++ '"' :: x) =
      csvEscapa (semCRLF g) ++ '"' :: csvNormaliza x := by
  induction g with
  | nil => intro x; simp [csvEscapa, semCRLF, csvNormaliza]
  | cons c g ih =>
    intro x
    by_cases hq : c = '"'
    · subst hq
      simp [csvEscapa, semCRLF, csvNormaliza, ih]
    · by_cases hr : c = '\r'
      · subst hr
        have e : csvEscapa ('\r' :: g) = '\r' :: csvEscapa g := by simp [csvEscapa]
        rw [e]
        by_cases hn : g.head? = some '\n'
        · have hn2 := (head_csvEscapa g x).mpr hn
          rw [List.cons_append, csvNormaliza_cr_cai _ hn2, semCRLF_cr_cai _ hn]
          exact ih x
        · have hn2 : (csvEscapa g ++ '"' :: x).head? ≠ some '\n' :=
            fun h => hn ((head_csvEscapa g x).mp h)
          have hne : csvEscapa g ++ '"' :: x ≠ [] := by simp
          have e2 : csvEscapa ('\r' :: semCRLF g) = '\r' :: csvEscapa (semCRLF g) := by
            simp [csvEscapa]
          rw [List.cons_append, csvNormaliza_cr_fica _ hne hn2, semCRLF_cr_fica _ hn, e2, ih x]
          rfl
      · simp [csvEscapa, semCRLF, csvNormaliza, hq, hr, ih]

theorem semCRLF_mem (g : List Char) : '\r' ∈ g →
    ('\r' ∈ semCRLF g ∨ '\n' ∈ semCRLF g) := by
  induction g with
  | nil => intro h; simp at h
  | cons c g ih =>
    intro h
    by_cases hc : c = '\r'
    · subst hc
      by_cases hn : g.head? = some '\n'
      · cases g with
        | nil => simp at hn
        | cons d g =>
          simp only [List.head?_cons, Option.some.injEq] at hn
          subst hn
          right
          simp [semCRLF]
      · left
        rw [semCRLF_cr_fica _ hn]
        simp
    · have h2 : '\r' ∈ g := by
        rcases List.mem_cons.mp h with h | h
        · exact absurd h.symm hc
        · exact h
      rcases ih h2 with h3 | h3
      · left; simp [semCRLF, hc, h3]
      · right; simp [semCRLF, hc, h3]

theorem semCRLF_ne_nil (g : List Char) (h : '\r' ∈ g) : semCRLF g ≠ [] := by
  intro e
  rcases semCRLF_mem g h with h1 | h1 <;> simp [e] at h1

theorem fieldNeedsQuotes_semCRLF (g : List Char) :
    fieldNeedsQuotes (semCRLF g) = fieldNeedsQuotes g := by
  by_cases h : '\r' ∈ g
  · have h1 : fieldNeedsQuotes g = true := by
      cases g with
      | nil => simp at h
      | cons a g =>
        simp only [fieldNeedsQuotes, Bool.or_eq_true, List.any_eq_true]
        exact Or.inl (Or.inr ⟨'\r', h, by simp⟩)
    have h2 : fieldNeedsQuotes (semCRLF g) = true := by
      cases hs : semCRLF g with
      | nil => exact absurd hs (semCRLF_ne_nil g h)
      | cons a t =>
        simp only [fieldNeedsQuotes, Bool.or_eq_true, List.any_eq_true]
        rcases semCRLF_mem g h with h3 | h3
        · exact Or.inl (Or.inr ⟨'\r', by rw [← hs]; exact h3, by simp⟩)
        · exact Or.inl (Or.inr ⟨'\n', by rw [← hs]; exact h3, by simp⟩)
    rw [h1, h2]
  · rw [semCRLF_semCR g h]

/-- A written field and the separator behind it, as `readLine` leaves them. -/
theorem csvNormaliza_campo (g x : List Char) (s : Char) (hs : s ≠ '\r') :
    csvNormaliza (csvCampo g ++ s :: x) = csvCampo (semCRLF g) ++ s :: csvNormaliza x := by
  unfold csvCampo
  rw [fieldNeedsQuotes_semCRLF]
  by_cases hq : fieldNeedsQuotes g = true
  · simp only [hq, if_true, List.cons_append, List.append_assoc, List.nil_append]
    rw [csvNormaliza_cons _ _ (by decide), csvNormaliza_escapa, csvNormaliza_cons _ _ hs]
  · have hq2 : fieldNeedsQuotes g = false := by simpa using hq
    have hcr : '\r' ∉ g := fun h => (fieldNeedsQuotes_false g hq2 _ h).2.1 rfl
    simp only [hq2, Bool.false_eq_true, if_false]
    rw [csvNormaliza_semCR g hcr, semCRLF_semCR g hcr, csvNormaliza_cons _ _ hs]

theorem csvNormaliza_resto (fs : List String) : ∀ (g x : List Char),
    csvNormaliza (csvCampo g ++ (csvResto fs ++ x)) =
      csvCampo (semCRLF g) ++ (csvResto (fs.map csvLido) ++ csvNormaliza x) := by
  induction fs with
  | nil =>
    intro g x
    simp only [csvResto, List.map_nil, List.cons_append, List.nil_append]
    exact csvNormaliza_campo g x '\n' (by decide)
  | cons f fs ih =>
    intro g x
    simp only [csvResto, List.map_cons, List.cons_append, List.append_assoc]
    rw [csvNormaliza_campo g _ ';' (by decide), ih f.data x]
    rfl

theorem csvNormaliza_writerWrite (r : List String) (x : List Char) :
    csvNormaliza (writerWrite r ++ x) = writerWrite (r.map csvLido) ++ csvNormaliza x := by
  cases r with
  | nil => simp [writerWrite, csvNormaliza]
  | cons f fs =>
    simp only [writerWrite, List.map_cons, List.append_assoc]
    rw [csvNormaliza_resto fs f.data x]
    rfl

/-- The lines of a written text as `readLine` returns them: the text written for the
records with every field read back. -/
theorem csvNormaliza_csvTexto (recs : List (List String)) :
    csvNormaliza (csvTexto recs) = csvTexto (recs.map (fun r => r.map csvLido)) := by
  induction recs with
  | nil => simp [csvTexto, csvNormaliza]
  | cons r recs ih =>
    have e : ∀ (q : List String) (qs : List (List String)),
        csvTexto (q :: qs) = writerWrite q ++ csvTexto qs := by
      intro q qs; simp [csvTexto]
    rw [List.map_cons, e, e, csvNormaliza_writerWrite, ih]

/-- Reading a written text: the records written, every field with its carriage returns
before a line feed gone. -/
theorem csvReadAll_csvTexto (recs : List (List String)) (h : ∀ r ∈ recs, 2 ≤ r.length) :
    csvReadAll (csvTexto recs) = some (recs.map (fun r => r.map csvLido)) := by
  unfold csvReadAll
  rw [csvNormaliza_csvTexto, csvLoop_csvTexto]
  · simp [map_mk_data]
  · intro r hr
    obtain ⟨q, hq, rfl⟩ := List.mem_map.mp hr
    simpa using h q hq

/-! ## The records of the store -/

theorem colIndex_colunas :
    colIndex colunas "nome" = 0 ∧ colIndex colunas "colecao" = 1 ∧
    colIndex colunas "numero" = 2 ∧ colIndex colunas "preco_atual" = 3 ∧
    colIndex colunas "data_atual" = 4 ∧ colIndex colunas "preco_inicial" = 5 ∧
    colIndex colunas "data_inicial" = 6 := by
  decide

theorem lerLinha_colunas (a b c p1 d1 p2 d2 : String) :
    lerLinha colunas [a, b, c, p1, d1, p2, d2] =
      { Nome := a, Colecao := b, Numero := c, PrecoAtual := (strconvParseFloat p1).1,
        DataAtual := d1, PrecoInicial := (strconvParseFloat p2).1, DataInicial := d2 } := by
  obtain ⟨h0, h1, h2, h3, h4, h5, h6⟩ := colIndex_colunas
  simp [lerLinha, h0, h1, h2, h3, h4, h5, h6]

/-- The text that `%.2f` writes for a `float64` is stable. -/
theorem textoEstavel_format (p : F64) (hp : p.valido = true) :
    textoEstavel (formatFloat2 p) = true := by
  simp [textoEstavel, parseFloat_formatFloat2 p hp, formatFloat2_arredonda2]

theorem registroOK_shape (r : List String) (h : registroOK r = true) :
    ∃ a b c p1 d1 p2 d2, r = [a, b, c, p1, d1, p2, d2] ∧
      textoEstavel p1 = true ∧ textoEstavel p2 = true := by
  match r, h with
  | [a, b, c, p1, d1, p2, d2], h =>
    simp only [registroOK, Bool.and_eq_true] at h
    exact ⟨a, b, c, p1, d1, p2, d2, rfl, h.1, h.2⟩

theorem registro_lerLinha (r : List String) (h : registroOK r = true) :
    registro (lerLinha colunas r) = r := by
  obtain ⟨a, b, c, p1, d1, p2, d2, rfl, h1, h2⟩ := registroOK_shape r h
  simp only [textoEstavel, beq_iff_eq] at h1 h2
  simp [lerLinha_colunas, registro, h1, h2]

theorem lerLinha_registro (me : MonitorEntry) :
    lerLinha colunas (registro me) =
      { me with
        PrecoAtual := (strconvParseFloat (formatFloat2 me.PrecoAtual)).1
        PrecoInicial := (strconvParseFloat (formatFloat2 me.PrecoInicial)).1 } := by
  simp [registro, lerLinha_colunas]


theorem rows_eq_map_registro (rows : List (List String)) (h : rows.all registroOK = true) :
    rows = (rows.map (lerLinha colunas)).map registro := by
  rw [List.map_map]
  conv_lhs => rw [← List.map_id rows]
  apply List.map_congr_left
  intro r hr
  simp [registro_lerLinha r (List.all_eq_true.mp h r hr)]

theorem entradaEstavel_lerLinha (r : List String) (h : registroOK r = true) :
    entradaEstavel (lerLinha colunas r) := by
  unfold entradaEstavel
  rw [registro_lerLinha r h]

theorem entradaEstavel_iff (me : MonitorEntry) :
    entradaEstavel me ↔
      (strconvParseFloat (formatFloat2 me.PrecoAtual)).1 = me.PrecoAtual ∧
      (strconvParseFloat (formatFloat2 me.PrecoInicial)).1 = me.PrecoInicial := by
  unfold entradaEstavel
  rw [lerLinha_registro]
  cases me
  simp

theorem registroOK_registro (me : MonitorEntry) (h : entradaEstavel me) :
    registroOK (registro me) = true := by
  rw [entradaEstavel_iff] at h
  simp [registro, registroOK, textoEstavel, h.1, h.2]

theorem entradaEstavel_arredonda2 (p : F64) (hp : p.valido = true) :
    (strconvParseFloat (formatFloat2 (arredonda2 p))).1 = arredonda2 p := by
  rw [parseFloat_formatFloat2 _ (valido_arredonda2 p hp), arredonda2_idem]

theorem entradaEstavel_nova (n c k : String) (p : F64) (d : String) (hp : p.valido = true) :
    entradaEstavel (novaEntrada n c k (arredonda2 p) d) := by
  rw [entradaEstavel_iff]
  simp [novaEntrada, entradaEstavel_arredonda2 p hp]

theorem entradaEstavel_atualiza (p : F64) (d : String) (me : MonitorEntry)
    (hp : p.valido = true) (h : entradaEstavel me) :
    entradaEstavel (atualizaEntrada (arredonda2 p) d me) := by
  rw [entradaEstavel_iff] at h ⊢
  unfold atualizaEntrada
  by_cases hz : me.PrecoInicial.isZero = true
  · simp [hz, entradaEstavel_arredonda2 p hp]
  · simp [hz, entradaEstavel_arredonda2 p hp, h.2]

theorem registro_atualiza (p : F64) (d : String) (me : MonitorEntry) :
    registro (atualizaEntrada p d me) = registro (atualizaEntrada (arredonda2 p) d me) := by
  unfold atualizaEntrada
  by_cases hz : me.PrecoInicial.isZero = true <;>
    simp [hz, registro, formatFloat2_arredonda2]

theorem registro_nova (n c k : String) (p : F64) (d : String) :
    registro (novaEntrada n c k p d) = registro (novaEntrada n c k (arredonda2 p) d) := by
  simp [registro, novaEntrada, formatFloat2_arredonda2]

theorem map_modificaEm_congr {α β : Type} (g : α → β) (f f1 : α → α)
    (h : ∀ x, g (f x) = g (f1 x)) : ∀ (l : List α) (i : Nat),
    (modificaEm f l i).map g = (modificaEm f1 l i).map g := by
  intro l
  induction l with
  | nil => intro i; rfl
  | cons x xs ih =>
    intro i
    cases i with
    | zero => simp [modificaEm, h]
    | succ i => simp [modificaEm, ih i]

theorem forall_modificaEm {α : Type} (P : α → Prop) (f : α → α)
    (hf : ∀ x, P x → P (f x)) : ∀ (l : List α) (i : Nat),
    (∀ x ∈ l, P x) → ∀ x ∈ modificaEm f l i, P x := by
  intro l
  induction l with
  | nil => intro i h x hx; simp [modificaEm] at hx
  | cons y ys ih =>
    intro i h x hx
    cases i with
    | zero =>
      simp only [modificaEm, List.mem_cons] at hx
      rcases hx with rfl | hx
      · exact hf y (h y (by simp))
      · exact h x (by simp [hx])
    | succ i =>
      simp only [modificaEm, List.mem_cons] at hx
      rcases hx with rfl | hx
      · exact h x (by simp)
      · exact ih i (fun z hz => h z (by simp [hz])) x hx

/-! ## The store file and its view -/

theorem digitChar_ne_cr : ∀ d : Nat, d < 10 → digitChar d ≠ '\r' := by
  decide

/-- The text that `%.2f` writes holds no carriage return. -/
theorem formatFloat2_semCR (p : F64) : '\r' ∉ (formatFloat2 p).data := by
  cases p with
  | nan => decide
  | inf neg => cases neg <;> decide
  | fin neg m =>
    obtain ⟨ds, h1, h2, _, _⟩ := natDigits_spec (centavos m / 100)
    show '\r' ∉ formatFloat2Chars (F64.fin neg m)
    have ha : digitChar (centavos m / 10 % 10) ≠ '\r' := digitChar_ne_cr _ (by omega)
    have hb : digitChar (centavos m % 10) ≠ '\r' := digitChar_ne_cr _ (by omega)
    simp only [formatFloat2Chars, h1, List.mem_append, List.mem_map, List.mem_cons,
      List.mem_nil_iff, or_false, not_or]
    refine ⟨⟨?_, ?_⟩, by decide, fun h => ha h.symm, fun h => hb h.symm⟩
    · cases neg <;> simp
    · rintro ⟨d, hd, he⟩
      exact digitChar_ne_cr d (h2 d hd) he

theorem csvLido_semCR (s : String) (h : '\r' ∉ s.data) : csvLido s = s := by
  unfold csvLido
  rw [semCRLF_semCR _ h]

theorem csvLido_format (p : F64) : csvLido (formatFloat2 p) = formatFloat2 p :=
  csvLido_semCR _ (formatFloat2_semCR p)

theorem csvLido_estavel (t : String) (h : textoEstavel t = true) : csvLido t = t := by
  simp only [textoEstavel, beq_iff_eq] at h
  rw [← h]
  exact csvLido_format _

theorem csvLido_colunas : colunas.map csvLido = colunas := by
  decide

theorem registroOK_length (r : List String) (h : registroOK r = true) : r.length = 7 := by
  obtain ⟨a, b, c, p1, d1, p2, d2, rfl, _⟩ := registroOK_shape r h
  rfl

theorem registroOK_lido (r : List String) (h : registroOK r = true) :
    registroOK (r.map csvLido) = true := by
  obtain ⟨a, b, c, p1, d1, p2, d2, rfl, h1, h2⟩ := registroOK_shape r h
  simp [registroOK, csvLido_estavel p1 h1, csvLido_estavel p2 h2, h1, h2]

/-- The record of an entry, written and read: the entry read back. -/
theorem lerLinha_lido_registro (me : MonitorEntry) :
    lerLinha colunas ((registro me).map csvLido) = relida me := by
  simp [registro, lerLinha_colunas, relida, csvLido_format]

theorem csvTexto_cons (r : List String) (recs : List (List String)) :
    csvTexto (r :: recs) = writerWrite r ++ csvTexto recs := by
  simp [csvTexto]

theorem csvTexto_append (a b : List (List String)) :
    csvTexto (a ++ b) = csvTexto a ++ csvTexto b := by
  simp [csvTexto]

theorem csvTexto_um (r : List String) : csvTexto [r] = writerWrite r := by
  simp [csvTexto]

theorem arquivoOK_existe (t : List Char) (l g : Bool)
    (h : arquivoOK (Arquivo.existe t l g) = true) :
    ∃ rows, rows.all registroOK = true ∧ t = csvTexto (colunas :: rows) := by
  unfold arquivoOK at h
  cases he : csvEscrito t with
  | none => simp [he] at h
  | some recs =>
    cases recs with
    | nil => simp [he] at h
    | cons cols rows =>
      simp only [he, Bool.and_eq_true, beq_iff_eq] at h
      obtain ⟨⟨h1, h2⟩, h3⟩ := h
      subst h1
      exact ⟨rows, h2, h3.symm⟩

theorem comprimento_registros (rows : List (List String)) (h : rows.all registroOK = true) :
    ∀ r ∈ colunas :: rows, 2 ≤ r.length := by
  intro r hr
  rcases List.mem_cons.mp hr with rfl | hr
  · decide
  · rw [registroOK_length r (List.all_eq_true.mp h r hr)]
    omega

theorem arquivoOK_csvTexto (rows : List (List String)) (h : rows.all registroOK = true)
    (l g : Bool) : arquivoOK (Arquivo.existe (csvTexto (colunas :: rows)) l g) = true := by
  unfold arquivoOK
  simp only [csvEscrito_csvTexto _ (comprimento_registros rows h), h, beq_self_eq_true,
    Bool.and_self]

/-- What `carregarMonitorCSV` returns for a written text that may be read. -/
theorem carregar_csvTexto (rows : List (List String)) (h : ∀ r ∈ rows, r.length = 7)
    (g : Bool) :
    carregarMonitorCSV (Arquivo.existe (csvTexto (colunas :: rows)) true g) =
      (rows.map (fun r => lerLinha colunas (r.map csvLido)), none) := by
  have h2 : ∀ r ∈ colunas :: rows, 2 ≤ r.length := by
    intro r hr
    rcases List.mem_cons.mp hr with rfl | hr
    · decide
    · rw [h r hr]; omega
  have hall : (rows.map (fun r => r.map csvLido)).all
      (fun l => l.length == colunas.length) = true := by
    rw [List.all_eq_true]
    intro r hr
    obtain ⟨q, hq, rfl⟩ := List.mem_map.mp hr
    simp [h q hq, colunas]
  have hfil : (rows.map (fun r => r.map csvLido)).filter
      (fun l => !(decide (l.length < colunas.length))) = rows.map (fun r => r.map csvLido) := by
    rw [List.filter_eq_self]
    intro r hr
    obtain ⟨q, hq, rfl⟩ := List.mem_map.mp hr
    simp [h q hq, colunas]
  simp only [carregarMonitorCSV, osOpen, if_true, csvReadAll_csvTexto _ h2, List.map_cons,
    csvLido_colunas, hall, hfil, List.map_map]
  rfl

theorem visao_csvTexto (rows : List (List String)) (h : rows.all registroOK = true)
    (g : Bool) :
    visao (Arquivo.existe (csvTexto (colunas :: rows)) true g) =
      rows.map (fun r => lerLinha colunas (r.map csvLido)) := by
  simp only [visao, osStat, if_true]
  rw [carregar_csvTexto rows (fun r hr => registroOK_length r (List.all_eq_true.mp h r hr)) g]

theorem visao_registros (l : List MonitorEntry)
    (h : (l.map registro).all registroOK = true) (g : Bool) :
    visao (Arquivo.existe (csvTexto (colunas :: l.map registro)) true g) = l.map relida := by
  rw [visao_csvTexto _ h, List.map_map]
  apply List.map_congr_left
  intro me _
  exact lerLinha_lido_registro me

theorem visao_ilegivel (t : List Char) (g : Bool) : visao (Arquivo.existe t false g) = [] := by
  simp [visao, osStat, carregarMonitorCSV, osOpen]

theorem visao_ausente (c : Bool) : visao (Arquivo.ausente c) = [] := by
  simp [visao, osStat]

/-- The entries of a store in the format come back unchanged from their records as
they stand. -/
theorem visao_estavel (arq : Arquivo) (hok : arquivoOK arq = true) :
    ∀ me ∈ visao arq, entradaEstavel me := by
  cases arq with
  | ausente c => intro me hme; simp [visao_ausente] at hme
  | existe t l g =>
    cases l with
    | false => intro me hme; simp [visao_ilegivel] at hme
    | true =>
      obtain ⟨rows, hrows, rfl⟩ := arquivoOK_existe t true g hok
      rw [visao_csvTexto rows hrows]
      intro me hme
      obtain ⟨r, hr, rfl⟩ := List.mem_map.mp hme
      exact entradaEstavel_lerLinha _ (registroOK_lido r (List.all_eq_true.mp hrows r hr))

theorem registroOK_nova (n c k : String) (p : F64) (d : String) (hp : p.valido = true) :
    registroOK [n, c, k, formatFloat2 p, d, formatFloat2 p, d] = true := by
  simp [registroOK, textoEstavel_format p hp]

theorem registroOK_atualiza (p : F64) (d : String) (me : MonitorEntry) (hp : p.valido = true)
    (h : registroOK (registro me) = true) :
    registroOK (registro (atualizaEntrada p d me)) = true := by
  simp only [registro, registroOK, Bool.and_eq_true] at h
  unfold atualizaEntrada
  by_cases hz : me.PrecoInicial.isZero = true
  · simp [hz, registro, registroOK, textoEstavel_format p hp]
  · simp [hz, registro, registroOK, textoEstavel_format p hp, h.2]

theorem relida_nova (n c k : String) (p : F64) (d : String) :
    lerLinha colunas ([n, c, k, formatFloat2 p, d, formatFloat2 p, d].map csvLido) =
      relida (novaEntrada n c k p d) :=
  lerLinha_lido_registro (novaEntrada n c k p d)

/-- One call of `salvarMonitoramento` on a store file in the format, whatever the key,
the time and the rights on the file: the file stays in the format, and the list read
from it is the old one, or the old one with the entry at the first position of the key
updated and every entry read back from its record, or the old one with the new entry,
read back, at its end. -/
theorem salvar_geral (n c k : String) (p : F64) (d : String) (arq : Arquivo)
    (hok : arquivoOK arq = true) (hp : p.valido = true) :
    arquivoOK (salvarMonitoramento n c k p d arq).1 = true ∧
    (visao (salvarMonitoramento n c k p d arq).1 = visao arq ∨
      (∃ idx, indiceDe n c k (visao arq) = some idx ∧
        visao (salvarMonitoramento n c k p d arq).1 =
          (modificaEm (atualizaEntrada p d) (visao arq) idx).map relida) ∨
      (indiceDe n c k (visao arq) = none ∧
        visao (salvarMonitoramento n c k p d arq).1 =
          visao arq ++ [relida (novaEntrada n c k p d)])) := by
  have hrec := registroOK_nova n c k p d hp
  cases arq with
  | ausente c0 =>
    cases c0 with
    | false =>
      have e : salvarMonitoramento n c k p d (Arquivo.ausente false) =
          (Arquivo.ausente false, some ErroCSV.abrir) := by
        simp [salvarMonitoramento, osStat, indiceDe, osOpenAppend]
      rw [e]
      exact ⟨hok, Or.inl rfl⟩
    | true =>
      have e : (salvarMonitoramento n c k p d (Arquivo.ausente true)).1 =
          Arquivo.existe (csvTexto (colunas ::
            [[n, c, k, formatFloat2 p, d, formatFloat2 p, d]])) true true := by
        simp [salvarMonitoramento, osStat, indiceDe, osOpenAppend, escreve, csvTexto]
      have hrows : [[n, c, k, formatFloat2 p, d, formatFloat2 p, d]].all registroOK = true := by
        simp [hrec]
      rw [e]
      refine ⟨arquivoOK_csvTexto _ hrows true true, Or.inr (Or.inr ⟨by simp [visao_ausente, indiceDe], ?_⟩)⟩
      rw [visao_csvTexto _ hrows, visao_ausente]
      simpa using relida_nova n c k p d
  | existe t l g =>
    obtain ⟨rows, hrows, rfl⟩ := arquivoOK_existe t l g hok
    have hrows2 : (rows ++ [[n, c, k, formatFloat2 p, d, formatFloat2 p, d]]).all registroOK
        = true := by
      simp [List.all_append, hrows, hrec]
    have eap : csvTexto (colunas :: rows) ++
        writerWrite [n, c, k, formatFloat2 p, d, formatFloat2 p, d] =
        csvTexto (colunas :: (rows ++ [[n, c, k, formatFloat2 p, d, formatFloat2 p, d]])) := by
      rw [← List.cons_append, csvTexto_append, csvTexto_um]
    cases l with
    | false =>
      have hv : visao (Arquivo.existe (csvTexto (colunas :: rows)) false g) = [] :=
        visao_ilegivel _ g
      cases g with
      | false =>
        have e : salvarMonitoramento n c k p d
            (Arquivo.existe (csvTexto (colunas :: rows)) false false) =
            (Arquivo.existe (csvTexto (colunas :: rows)) false false, some ErroCSV.abrir) := by
          simp [salvarMonitoramento, osStat, carregarMonitorCSV, osOpen, indiceDe, osOpenAppend]
        rw [e]
        exact ⟨hok, Or.inl rfl⟩
      | true =>
        have e : (salvarMonitoramento n c k p d
            (Arquivo.existe (csvTexto (colunas :: rows)) false true)).1 =
            Arquivo.existe (csvTexto (colunas ::
              (rows ++ [[n, c, k, formatFloat2 p, d, formatFloat2 p, d]]))) false true := by
          rw [← eap]
          simp [salvarMonitoramento, osStat, carregarMonitorCSV, osOpen, indiceDe, osOpenAppend,
            escreve]
        rw [e]
        exact ⟨arquivoOK_csvTexto _ hrows2 false true, Or.inl (by rw [hv, visao_ilegivel])⟩
    | true =>
      have hv := visao_csvTexto rows hrows g
      have hcar : (carregarMonitorCSV (Arquivo.existe (csvTexto (colunas :: rows)) true g)).1 =
          visao (Arquivo.existe (csvTexto (colunas :: rows)) true g) := by
        simp [visao, osStat]
      have hregs : ∀ me ∈ visao (Arquivo.existe (csvTexto (colunas :: rows)) true g),
          registroOK (registro me) = true := by
        intro me hme
        exact registroOK_registro me (visao_estavel _ hok me hme)
      cases hidx : indiceDe n c k (visao (Arquivo.existe (csvTexto (colunas :: rows)) true g)) with
      | some idx =>
        cases g with
        | false =>
          have e : salvarMonitoramento n c k p d
              (Arquivo.existe (csvTexto (colunas :: rows)) true false) =
              (Arquivo.existe (csvTexto (colunas :: rows)) true false, some ErroCSV.abrir) := by
            unfold salvarMonitoramento
            simp only [osStat, if_true, hcar, hidx]
            simp [sobrescreverMonitorCSV, osCreate]
          rw [e]
          exact ⟨hok, Or.inl rfl⟩
        | true =>
          have e : (salvarMonitoramento n c k p d
              (Arquivo.existe (csvTexto (colunas :: rows)) true true)).1 =
              Arquivo.existe (csvTexto (colunas :: (modificaEm (atualizaEntrada p d)
                (visao (Arquivo.existe (csvTexto (colunas :: rows)) true true)) idx).map
                  registro)) true true := by
            unfold salvarMonitoramento
            simp only [osStat, if_true, hcar, hidx]
            simp [sobrescreverMonitorCSV, osCreate, escreve, csvTexto_cons]
          have hall : ((modificaEm (atualizaEntrada p d)
              (visao (Arquivo.existe (csvTexto (colunas :: rows)) true true)) idx).map
                registro).all registroOK = true := by
            rw [List.all_eq_true]
            intro r hr
            obtain ⟨me, hme, rfl⟩ := List.mem_map.mp hr
            exact forall_modificaEm (fun x => registroOK (registro x) = true) _
              (fun x hx => registroOK_atualiza p d x hp hx) _ idx hregs me hme
          rw [e]
          exact ⟨arquivoOK_csvTexto _ hall true true,
            Or.inr (Or.inl ⟨idx, rfl, visao_registros _ hall true⟩)⟩
      | none =>
        cases g with
        | false =>
          have e : salvarMonitoramento n c k p d
              (Arquivo.existe (csvTexto (colunas :: rows)) true false) =
              (Arquivo.existe (csvTexto (colunas :: rows)) true false, some ErroCSV.abrir) := by
            unfold salvarMonitoramento
            simp only [osStat, if_true, hcar, hidx]
            simp [osOpenAppend]
          rw [e]
          exact ⟨hok, Or.inl rfl⟩
        | true =>
          have e : (salvarMonitoramento n c k p d
              (Arquivo.existe (csvTexto (colunas :: rows)) true true)).1 =
              Arquivo.existe (csvTexto (colunas ::
                (rows ++ [[n, c, k, formatFloat2 p, d, formatFloat2 p, d]]))) true true := by
            rw [← eap]
            unfold salvarMonitoramento
            simp only [osStat, if_true, hcar, hidx]
            simp [osOpenAppend, escreve]
          rw [e]
          refine ⟨arquivoOK_csvTexto _ hrows2 true true, Or.inr (Or.inr ⟨rfl, ?_⟩)⟩
          rw [visao_csvTexto _ hrows2, hv]
          simpa using relida_nova n c k p d

/-! ## Store files without a carriage return before a line feed -/

theorem csvTexto_inj (a b : List (List String)) (ha : ∀ r ∈ a, 2 ≤ r.length)
    (hb : ∀ r ∈ b, 2 ≤ r.length) (h : csvTexto a = csvTexto b) : a = b := by
  have h1 := csvEscrito_csvTexto a ha
  rw [h, csvEscrito_csvTexto b hb] at h1
  exact (Option.some.inj h1).symm

theorem textosLimpos_iff (me : MonitorEntry) :
    textosLimpos me = true ↔
      (csvLido me.Nome = me.Nome ∧ csvLido me.Colecao = me.Colecao ∧
        csvLido me.Numero = me.Numero ∧ csvLido me.DataAtual = me.DataAtual ∧
        csvLido me.DataInicial = me.DataInicial) := by
  simp [textosLimpos, and_assoc]

/-- An entry with clean texts and stable prices is read back as it is. -/
theorem relida_limpa (me : MonitorEntry) (h1 : entradaEstavel me)
    (h2 : textosLimpos me = true) : relida me = me := by
  rw [entradaEstavel_iff] at h1
  rw [textosLimpos_iff] at h2
  obtain ⟨a, b, c, d, e⟩ := h2
  cases me
  simp_all [relida]

theorem registro_limpo (me : MonitorEntry) (h : textosLimpos me = true) :
    (registro me).map csvLido = registro me := by
  rw [textosLimpos_iff] at h
  obtain ⟨a, b, c, d, e⟩ := h
  simp [registro, a, b, c, d, e, csvLido_format]

theorem textosLimpos_lerLinha (r : List String) (h : registroOK r = true)
    (hl : r.map csvLido = r) : textosLimpos (lerLinha colunas r) = true := by
  obtain ⟨a, b, c, p1, d1, p2, d2, rfl, _, _⟩ := registroOK_shape r h
  simp only [List.map_cons, List.map_nil, List.cons.injEq, and_true] at hl
  obtain ⟨ha, hb, hc, _, hd1, _, hd2⟩ := hl
  rw [textosLimpos_iff, lerLinha_colunas]
  exact ⟨ha, hb, hc, hd1, hd2⟩

theorem textosLimpos_nova (n c k : String) (q : F64) (d : String)
    (hn : csvLido n = n) (hc : csvLido c = c) (hk : csvLido k = k) (hd : csvLido d = d) :
    textosLimpos (novaEntrada n c k q d) = true := by
  rw [textosLimpos_iff]
  exact ⟨hn, hc, hk, hd, hd⟩

theorem textosLimpos_atualiza (q : F64) (d : String) (me : MonitorEntry)
    (hd : csvLido d = d) (h : textosLimpos me = true) :
    textosLimpos (atualizaEntrada q d me) = true := by
  rw [textosLimpos_iff] at h ⊢
  obtain ⟨a, b, c, _, e⟩ := h
  unfold atualizaEntrada
  by_cases hz : me.PrecoInicial.isZero = true
  · simp [hz, a, b, c, hd]
  · simp [hz, a, b, c, e, hd]

/-- The records of a clean store file in the format are read back as they are. -/
theorem registros_limpos (rows : List (List String)) (hrows : rows.all registroOK = true)
    (l g : Bool)
    (hl : arquivoLimpo (Arquivo.existe (csvTexto (colunas :: rows)) l g) = true) :
    rows.map (fun r => r.map csvLido) = rows := by
  simp only [arquivoLimpo, beq_iff_eq] at hl
  rw [csvNormaliza_csvTexto] at hl
  have h2 := comprimento_registros rows hrows
  have h3 : ∀ r ∈ (colunas :: rows).map (fun r => r.map csvLido), 2 ≤ r.length := by
    intro r hr
    obtain ⟨q, hq, rfl⟩ := List.mem_map.mp hr
    simpa using h2 q hq
  have h4 := csvTexto_inj _ _ h3 h2 hl
  simp only [List.map_cons, List.cons.injEq] at h4
  exact h4.2

/-- The canonical file of a list of entries with stable prices and clean texts: it is
in the format, clean, and read back as the list. -/
theorem arquivo_canonico (l : List MonitorEntry)
    (h : ∀ me ∈ l, entradaEstavel me ∧ textosLimpos me = true) :
    arquivoOK (Arquivo.existe (csvTexto (colunas :: l.map registro)) true true) = true ∧
    arquivoLimpo (Arquivo.existe (csvTexto (colunas :: l.map registro)) true true) = true ∧
    visao (Arquivo.existe (csvTexto (colunas :: l.map registro)) true true) = l := by
  have hall : (l.map registro).all registroOK = true := by
    rw [List.all_eq_true]
    intro r hr
    obtain ⟨me, hme, rfl⟩ := List.mem_map.mp hr
    exact registroOK_registro me (h me hme).1
  refine ⟨arquivoOK_csvTexto _ hall true true, ?_, ?_⟩
  · simp only [arquivoLimpo, beq_iff_eq]
    rw [csvNormaliza_csvTexto, List.map_cons, csvLido_colunas, List.map_map]
    congr 2
    apply List.map_congr_left
    intro me hme
    exact registro_limpo me (h me hme).2
  · rw [visao_registros l hall true]
    conv_rhs => rw [← List.map_id l]
    apply List.map_congr_left
    intro me hme
    exact relida_limpa me (h me hme).1 (h me hme).2

/-- What `salvarMonitoramento` leaves of a clean store file in the format that may be
read and written, for a key and a time with clean texts: the canonical file of the
in-memory step applied to the list read from the file, and no error. -/
theorem salvar_arquivo (n c k : String) (p : F64) (d : String) (arq : Arquivo)
    (hok : arquivoOK arq = true) (hl : arquivoLimpo arq = true) (hac : acessivel arq = true)
    (hp : p.valido = true) (hn : csvLido n = n) (hc : csvLido c = c) (hk : csvLido k = k)
    (hd : csvLido d = d) :
    salvarMonitoramento n c k p d arq =
        (Arquivo.existe (csvTexto (colunas ::
          (upsertLista n c k (arredonda2 p) d (visao arq)).map registro)) true true, none) ∧
      (∀ me ∈ upsertLista n c k (arredonda2 p) d (visao arq),
        entradaEstavel me ∧ textosLimpos me = true) := by
  have hnova : entradaEstavel (novaEntrada n c k (arredonda2 p) d) ∧
      textosLimpos (novaEntrada n c k (arredonda2 p) d) = true :=
    ⟨entradaEstavel_nova n c k p d hp, textosLimpos_nova n c k _ d hn hc hk hd⟩
  cases arq with
  | ausente c0 =>
    simp only [acessivel] at hac
    subst hac
    constructor
    · simp [salvarMonitoramento, osStat, indiceDe, osOpenAppend, escreve, visao_ausente,
        upsertLista, ← registro_nova, csvTexto]
      simp [registro, novaEntrada]
    · intro me hme
      simp [visao_ausente, upsertLista, indiceDe] at hme
      rw [hme]; exact hnova
  | existe t l g =>
    simp only [acessivel, Bool.and_eq_true] at hac
    obtain ⟨rfl, rfl⟩ := hac
    obtain ⟨rows, hrows, rfl⟩ := arquivoOK_existe t true true hok
    have hlim := registros_limpos rows hrows true true hl
    have hv : visao (Arquivo.existe (csvTexto (colunas :: rows)) true true) =
        rows.map (lerLinha colunas) := by
      rw [visao_csvTexto rows hrows]
      conv_rhs => rw [← hlim]
      rw [List.map_map]
      rfl
    have hest : ∀ me ∈ visao (Arquivo.existe (csvTexto (colunas :: rows)) true true),
        entradaEstavel me ∧ textosLimpos me = true := by
      rw [hv]
      intro me hme
      obtain ⟨r, hr, rfl⟩ := List.mem_map.mp hme
      have hr2 := List.all_eq_true.mp hrows r hr
      refine ⟨entradaEstavel_lerLinha r hr2, textosLimpos_lerLinha r hr2 ?_⟩
      obtain ⟨i, hi, hget⟩ := List.getElem_of_mem hr
      have h5 : (rows.map (fun r => r.map csvLido))[i]? = rows[i]? := by rw [hlim]
      simp only [List.getElem?_map, List.getElem?_eq_getElem hi, hget, Option.map_some',
        Option.some.injEq] at h5
      exact h5
    have hcar : (carregarMonitorCSV (Arquivo.existe (csvTexto (colunas :: rows)) true true)).1 =
        visao (Arquivo.existe (csvTexto (colunas :: rows)) true true) := by
      simp [visao, osStat]
    constructor
    · unfold salvarMonitoramento upsertLista
      simp only [osStat, if_true, hcar]
      cases hidx : indiceDe n c k (visao (Arquivo.existe (csvTexto (colunas :: rows)) true true)) with
      | some idx =>
        simp only [sobrescreverMonitorCSV, osCreate, Bool.and_self, if_true, escreve,
          List.nil_append]
        rw [map_modificaEm_congr registro _ _ (registro_atualiza p d)]
        simp only [csvTexto_cons]
      | none =>
        simp only [osOpenAppend, if_true, escreve, Bool.false_eq_true, if_false,
          List.nil_append, List.map_append, List.map_cons, List.map_nil, ← registro_nova]
        rw [hv, ← rows_eq_map_registro rows hrows, ← List.cons_append, csvTexto_append,
          csvTexto_um]
        simp [registro, novaEntrada]
    · unfold upsertLista
      cases hidx : indiceDe n c k (visao (Arquivo.existe (csvTexto (colunas :: rows)) true true)) with
      | some idx =>
        exact forall_modificaEm (fun x => entradaEstavel x ∧ textosLimpos x = true) _
          (fun x hx => ⟨entradaEstavel_atualiza p d x hp hx.1,
            textosLimpos_atualiza _ d x hd hx.2⟩) _ idx hest
      | none =>
        intro me hme
        rcases List.mem_append.mp hme with hme | hme
        · exact hest me hme
        · simp at hme; rw [hme]; exact hnova

/-- After the call the file is in the format, clean, and may be read and written. -/
theorem salvar_ok (n c k : String) (p : F64) (d : String) (arq : Arquivo)
    (hok : arquivoOK arq = true) (hl : arquivoLimpo arq = true) (hac : acessivel arq = true)
    (hp : p.valido = true) (hn : csvLido n = n) (hc : csvLido c = c) (hk : csvLido k = k)
    (hd : csvLido d = d) :
    arquivoOK (salvarMonitoramento n c k p d arq).1 = true ∧
      arquivoLimpo (salvarMonitoramento n c k p d arq).1 = true ∧
      acessivel (salvarMonitoramento n c k p d arq).1 = true := by
  obtain ⟨h1, h2⟩ := salvar_arquivo n c k p d arq hok hl hac hp hn hc hk hd
  rw [h1]
  obtain ⟨a, b, _⟩ := arquivo_canonico _ h2
  exact ⟨a, b, rfl⟩

theorem visao_salvar (n c k : String) (p : F64) (d : String) (arq : Arquivo)
    (hok : arquivoOK arq = true) (hl : arquivoLimpo arq = true) (hac : acessivel arq = true)
    (hp : p.valido = true) (hn : csvLido n = n) (hc : csvLido c = c) (hk : csvLido k = k)
    (hd : csvLido d = d) :
    visao (salvarMonitoramento n c k p d arq).1 =
      upsertLista n c k (arredonda2 p) d (visao arq) := by
  obtain ⟨h1, h2⟩ := salvar_arquivo n c k p d arq hok hl hac hp hn hc hk hd
  rw [h1]
  exact (arquivo_canonico _ h2).2.2

/-! ## The in-memory step -/

theorem temChave_iff (n c k : String) (me : MonitorEntry) :
    temChave n c k me = true ↔ (me.Nome = n ∧ me.Colecao = c ∧ me.Numero = k) := by
  simp [temChave, and_assoc]

theorem indiceDe_none_iff (n c k : String) (l : List MonitorEntry) :
    indiceDe n c k l = none ↔ ∀ me ∈ l, temChave n c k me = false := by
  induction l with
  | nil => simp [indiceDe]
  | cons x xs ih =>
    by_cases hx : x.Nome = n ∧ x.Colecao = c ∧ x.Numero = k
    · have : temChave n c k x = true := (temChave_iff n c k x).mpr hx
      simp [indiceDe, hx, this]
    · have : temChave n c k x = false := by
        rw [← Bool.not_eq_true, temChave_iff]; exact hx
      simp [indiceDe, hx, this, ih]

theorem indiceDe_some_chave (n c k : String) : ∀ (l : List MonitorEntry) (i : Nat),
    indiceDe n c k l = some i → ∃ me, l[i]? = some me ∧ temChave n c k me = true := by
  intro l
  induction l with
  | nil => intro i h; simp [indiceDe] at h
  | cons x xs ih =>
    intro i h
    by_cases hx : x.Nome = n ∧ x.Colecao = c ∧ x.Numero = k
    · simp only [indiceDe, hx, and_self, if_true, Option.some.injEq] at h
      subst h
      exact ⟨x, by simp, (temChave_iff n c k x).mpr hx⟩
    · simp only [indiceDe, hx, if_false, Option.map_eq_some'] at h
      obtain ⟨j, hj, rfl⟩ := h
      obtain ⟨me, h1, h2⟩ := ih j hj
      exact ⟨me, by simpa using h1, h2⟩

theorem modificaEm_getElem? {α : Type} (f : α → α) : ∀ (l : List α) (i j : Nat),
    (modificaEm f l i)[j]? = if j = i then (l[j]?).map f else l[j]? := by
  intro l
  induction l with
  | nil => intro i j; simp [modificaEm]
  | cons x xs ih =>
    intro i j
    cases i with
    | zero =>
      cases j with
      | zero => simp [modificaEm]
      | succ j => simp [modificaEm]
    | succ i =>
      cases j with
      | zero => simp [modificaEm]
      | succ j => simp [modificaEm, ih i j]

theorem atualizaEntrada_chave (q : F64) (d : String) (me : MonitorEntry) :
    (atualizaEntrada q d me).Nome = me.Nome ∧ (atualizaEntrada q d me).Colecao = me.Colecao ∧
      (atualizaEntrada q d me).Numero = me.Numero := by
  unfold atualizaEntrada
  by_cases hz : me.PrecoInicial.isZero = true <;> simp [hz]

theorem atualizaEntrada_inicial (q : F64) (d : String) (me : MonitorEntry)
    (hz : me.PrecoInicial.isZero = false) :
    (atualizaEntrada q d me).PrecoInicial = me.PrecoInicial ∧
      (atualizaEntrada q d me).DataInicial = me.DataInicial := by
  simp [atualizaEntrada, hz]

/-- One in-memory step seen from one position of the list. -/
theorem upsertLista_getElem? (n c k : String) (q : F64) (d : String) (l : List MonitorEntry)
    (i : Nat) (me : MonitorEntry) (h : l[i]? = some me) :
    ∃ me1, (upsertLista n c k q d l)[i]? = some me1 ∧
      me1.Nome = me.Nome ∧ me1.Colecao = me.Colecao ∧ me1.Numero = me.Numero ∧
      (me.PrecoInicial.isZero = false →
        me1.PrecoInicial = me.PrecoInicial ∧ me1.DataInicial = me.DataInicial) ∧
      (temChave n c k me = false → me1 = me) := by
  unfold upsertLista
  cases hidx : indiceDe n c k l with
  | none =>
    have hlt : i < l.length := by
      by_contra hge
      rw [List.getElem?_eq_none (by omega)] at h
      cases h
    refine ⟨me, ?_, rfl, rfl, rfl, fun _ => ⟨rfl, rfl⟩, fun _ => rfl⟩
    simp only []
    rw [List.getElem?_append_left hlt, h]
  | some idx =>
    simp only [modificaEm_getElem?]
    by_cases hi : i = idx
    · subst hi
      obtain ⟨me2, h1, h2⟩ := indiceDe_some_chave n c k l i hidx
      rw [h] at h1
      cases h1
      refine ⟨atualizaEntrada q d me, by simp [h], ?_⟩
      obtain ⟨a, b, e⟩ := atualizaEntrada_chave q d me
      exact ⟨a, b, e, atualizaEntrada_inicial q d me, fun hf => by rw [h2] at hf; cases hf⟩
    · exact ⟨me, by simp [hi, h], rfl, rfl, rfl, fun _ => ⟨rfl, rfl⟩, fun _ => rfl⟩

theorem aplicaUpserts_cons (arq : Arquivo) (op : Upsert) (ops : List Upsert) :
    aplicaUpserts arq (op :: ops) =
      aplicaUpserts (salvarMonitoramento op.nome op.colecao op.numero op.preco op.data arq).1 ops := by
  simp [aplicaUpserts]

theorem aplicaUpserts_ok (ops : List Upsert) : ∀ (arq : Arquivo),
    arquivoOK arq = true → (∀ op ∈ ops, op.preco.valido = true) →
    arquivoOK (aplicaUpserts arq ops) = true := by
  induction ops with
  | nil => intro arq h _; simpa [aplicaUpserts] using h
  | cons op ops ih =>
    intro arq h hv
    rw [aplicaUpserts_cons]
    exact ih _ (salvar_geral _ _ _ _ _ arq h (hv op (by simp))).1
      (fun o ho => hv o (by simp [ho]))


theorem modificaEm_eq_map (n c k : String) (f : MonitorEntry → MonitorEntry) :
    ∀ (l : List MonitorEntry) (i : Nat), chavesUnicas l → indiceDe n c k l = some i →
    modificaEm f l i = l.map (fun me => if temChave n c k me then f me else me) := by
  intro l
  induction l with
  | nil => intro i _ h; simp [indiceDe] at h
  | cons x xs ih =>
    intro i hu h
    have hu2 : chavesUnicas xs := by
      unfold chavesUnicas at hu ⊢
      simp only [List.map_cons, List.nodup_cons] at hu
      exact hu.2
    by_cases hx : x.Nome = n ∧ x.Colecao = c ∧ x.Numero = k
    · simp only [indiceDe, hx, and_self, if_true, Option.some.injEq] at h
      subst h
      have hxt : temChave n c k x = true := (temChave_iff n c k x).mpr hx
      have hrest : ∀ me ∈ xs, temChave n c k me = false := by
        intro me hme
        rw [← Bool.not_eq_true, temChave_iff]
        intro hm
        unfold chavesUnicas at hu
        simp only [List.map_cons, List.nodup_cons, List.mem_map, not_exists, not_and] at hu
        apply hu.1 me hme
        rw [hm.1, hm.2.1, hm.2.2, hx.1, hx.2.1, hx.2.2]
      simp only [modificaEm, List.map_cons, hxt, if_true, List.cons.injEq, true_and]
      conv_lhs => rw [← List.map_id xs]
      apply List.map_congr_left
      intro me hme
      simp [hrest me hme]
    · have hxf : temChave n c k x = false := by
        rw [← Bool.not_eq_true, temChave_iff]; exact hx
      simp only [indiceDe, hx, if_false, Option.map_eq_some'] at h
      obtain ⟨j, hj, rfl⟩ := h
      simp [modificaEm, hxf, ih j hu2 hj]

theorem upsertLista_eq_upsertRef (n c k : String) (q : F64) (d : String)
    (l : List MonitorEntry) (hu : chavesUnicas l) :
    upsertLista n c k q d l = upsertRef n c k q d l := by
  unfold upsertLista upsertRef
  cases hidx : indiceDe n c k l with
  | none =>
    have hnone := (indiceDe_none_iff n c k l).mp hidx
    have hany : l.any (temChave n c k) = false := by
      rw [List.any_eq_false]
      intro me hme
      simp [hnone me hme]
    simp [hany, novaEntrada]
  | some idx =>
    obtain ⟨me, h1, h2⟩ := indiceDe_some_chave n c k l idx hidx
    have hany : l.any (temChave n c k) = true := by
      rw [List.any_eq_true]
      exact ⟨me, List.getElem?_mem h1, h2⟩
    simp only [hany, if_true]
    rw [modificaEm_eq_map n c k _ l idx hu hidx]
    apply List.map_congr_left
    intro x _
    by_cases hz : x.PrecoInicial.isZero = true <;> simp [atualizaEntrada, hz]

theorem chaves_modificaEm (f : MonitorEntry → MonitorEntry)
    (hf : ∀ me, (f me).Nome = me.Nome ∧ (f me).Colecao = me.Colecao ∧ (f me).Numero = me.Numero) :
    ∀ (l : List MonitorEntry) (i : Nat),
    (modificaEm f l i).map (fun me => (me.Nome, me.Colecao, me.Numero)) =
      l.map (fun me => (me.Nome, me.Colecao, me.Numero)) := by
  intro l
  induction l with
  | nil => intro i; rfl
  | cons x xs ih =>
    intro i
    cases i with
    | zero => simp [modificaEm, hf x]
    | succ i => simp [modificaEm, ih i]

theorem chavesUnicas_upsertLista (n c k : String) (q : F64) (d : String)
    (l : List MonitorEntry) (hu : chavesUnicas l) :
    chavesUnicas (upsertLista n c k q d l) := by
  unfold upsertLista
  cases hidx : indiceDe n c k l with
  | none =>
    have hnone := (indiceDe_none_iff n c k l).mp hidx
    unfold chavesUnicas at hu ⊢
    simp only [List.map_append, List.map_cons, List.map_nil]
    rw [List.nodup_append]
    refine ⟨hu, by simp, ?_⟩
    intro a ha hb
    simp only [List.mem_singleton] at hb
    subst hb
    simp only [List.mem_map] at ha
    obtain ⟨me, hme, hk⟩ := ha
    have := hnone me hme
    rw [← Bool.not_eq_true, temChave_iff] at this
    simp only [novaEntrada, Prod.mk.injEq] at hk
    exact this hk
  | some idx =>
    unfold chavesUnicas at hu ⊢
    simp only []
    rw [chaves_modificaEm _ (atualizaEntrada_chave q d)]
    exact hu

theorem indiceDe_append_nova (n c k : String) (x : MonitorEntry) (hx : temChave n c k x = true) :
    ∀ (l : List MonitorEntry), indiceDe n c k l = none →
    indiceDe n c k (l ++ [x]) = some l.length := by
  have hx2 := (temChave_iff n c k x).mp hx
  intro l
  induction l with
  | nil => intro _; simp [indiceDe, hx2]
  | cons y ys ih =>
    intro h
    by_cases hy : y.Nome = n ∧ y.Colecao = c ∧ y.Numero = k
    · simp [indiceDe, hy] at h
    · simp only [indiceDe, hy, if_false, Option.map_eq_none'] at h
      simp [indiceDe, hy, ih h]

theorem modificaEm_append_length {α : Type} (f : α → α) (x : α) : ∀ (l : List α),
    modificaEm f (l ++ [x]) l.length = l ++ [f x] := by
  intro l
  induction l with
  | nil => rfl
  | cons y ys ih => simp [modificaEm, ih]

theorem upsertLista_novo (n c k : String) (q : F64) (d : String) (l : List MonitorEntry)
    (h : indiceDe n c k l = none) :
    upsertLista n c k q d l = l ++ [novaEntrada n c k q d] := by
  simp [upsertLista, h]

theorem upsertLista_append (n c k : String) (q : F64) (d : String) (l : List MonitorEntry)
    (x : MonitorEntry) (hx : temChave n c k x = true) (h : indiceDe n c k l = none) :
    upsertLista n c k q d (l ++ [x]) = l ++ [atualizaEntrada q d x] := by
  simp [upsertLista, indiceDe_append_nova n c k x hx l h, modificaEm_append_length]

theorem indiceDe_modificaEm (n c k : String) (f : MonitorEntry → MonitorEntry)
    (hf : ∀ me, (f me).Nome = me.Nome ∧ (f me).Colecao = me.Colecao ∧ (f me).Numero = me.Numero) :
    ∀ (l : List MonitorEntry) (i : Nat),
    indiceDe n c k (modificaEm f l i) = indiceDe n c k l := by
  intro l
  induction l with
  | nil => intro i; rfl
  | cons x xs ih =>
    intro i
    cases i with
    | zero => simp [modificaEm, indiceDe, hf x]
    | succ i => simp [modificaEm, indiceDe, ih i]

theorem modificaEm_modificaEm {α : Type} (f : α → α) (hf : ∀ x, f (f x) = f x) :
    ∀ (l : List α) (i : Nat), modificaEm f (modificaEm f l i) i = modificaEm f l i := by
  intro l
  induction l with
  | nil => intro i; rfl
  | cons x xs ih =>
    intro i
    cases i with
    | zero => simp [modificaEm, hf]
    | succ i => simp [modificaEm, ih i]

theorem atualizaEntrada_idem (q : F64) (d : String) (me : MonitorEntry) :
    atualizaEntrada q d (atualizaEntrada q d me) = atualizaEntrada q d me := by
  unfold atualizaEntrada
  by_cases hz : me.PrecoInicial.isZero = true
  · by_cases hq : q.isZero = true <;> simp [hz, hq]
  · simp [hz]

theorem atualizaEntrada_nova (n c k : String) (q : F64) (d : String) :
    atualizaEntrada q d (novaEntrada n c k q d) = novaEntrada n c k q d := by
  unfold atualizaEntrada novaEntrada
  by_cases hq : q.isZero = true <;> simp [hq]

theorem upsertLista_idem (n c k : String) (q : F64) (d : String) (l : List MonitorEntry) :
    upsertLista n c k q d (upsertLista n c k q d l) = upsertLista n c k q d l := by
  cases hidx : indiceDe n c k l with
  | none =>
    rw [upsertLista_novo n c k q d l hidx,
      upsertLista_append n c k q d l _ (by simp [temChave, novaEntrada]) hidx,
      atualizaEntrada_nova]
  | some idx =>
    have h1 : upsertLista n c k q d l = modificaEm (atualizaEntrada q d) l idx := by
      simp [upsertLista, hidx]
    rw [h1]
    unfold upsertLista
    rw [indiceDe_modificaEm n c k _ (atualizaEntrada_chave q d), hidx]
    simp only []
    exact modificaEm_modificaEm _ (atualizaEntrada_idem q d) l idx


/-! ## Claims on the price-history store -/

/-- One call of `salvarMonitoramento` seen from one position of the list read from a
store file in the format, for an entry whose key and initial date are read back as they
are written. -/
theorem salvar_posicao (n c k : String) (p : F64) (d : String) (arq : Arquivo)
    (hok : arquivoOK arq = true) (hp : p.valido = true) (i : Nat) (me : MonitorEntry)
    (hme : (visao arq)[i]? = some me) (hnz : me.PrecoInicial.isZero = false)
    (hn : csvLido me.Nome = me.Nome) (hc : csvLido me.Colecao = me.Colecao)
    (hk : csvLido me.Numero = me.Numero) (hd : csvLido me.DataInicial = me.DataInicial) :
    ∃ me1, (visao (salvarMonitoramento n c k p d arq).1)[i]? = some me1 ∧
      me1.Nome = me.Nome ∧ me1.Colecao = me.Colecao ∧ me1.Numero = me.Numero ∧
      me1.PrecoInicial = me.PrecoInicial ∧ me1.DataInicial = me.DataInicial ∧
      (temChave n c k me = false → csvLido me.DataAtual = me.DataAtual → me1 = me) := by
  have hest := (entradaEstavel_iff me).mp (visao_estavel arq hok me (List.getElem?_mem hme))
  have hrel : ∀ x : MonitorEntry, x.Nome = me.Nome → x.Colecao = me.Colecao →
      x.Numero = me.Numero → x.PrecoInicial = me.PrecoInicial →
      x.DataInicial = me.DataInicial →
      (relida x).Nome = me.Nome ∧ (relida x).Colecao = me.Colecao ∧
      (relida x).Numero = me.Numero ∧ (relida x).PrecoInicial = me.PrecoInicial ∧
      (relida x).DataInicial = me.DataInicial := by
    intro x a b e f g
    simp [relida, a, b, e, f, g, hn, hc, hk, hd, hest.2]
  have hrelme : csvLido me.DataAtual = me.DataAtual → relida me = me := by
    intro hda
    exact relida_limpa me ((entradaEstavel_iff me).mpr hest)
      ((textosLimpos_iff me).mpr ⟨hn, hc, hk, hda, hd⟩)
  rcases (salvar_geral n c k p d arq hok hp).2 with h | ⟨idx, hidx, h⟩ | ⟨_, h⟩
  · exact ⟨me, by rw [h]; exact hme, rfl, rfl, rfl, rfl, rfl, fun _ _ => rfl⟩
  · rw [h]
    by_cases hi : i = idx
    · subst hi
      obtain ⟨me2, h1, h2⟩ := indiceDe_some_chave n c k _ i hidx
      rw [hme] at h1
      cases h1
      obtain ⟨a, b, e⟩ := atualizaEntrada_chave p d me
      obtain ⟨f, g⟩ := atualizaEntrada_inicial p d me hnz
      obtain ⟨r1, r2, r3, r4, r5⟩ := hrel _ a b e f g
      refine ⟨relida (atualizaEntrada p d me), ?_, r1, r2, r3, r4, r5,
        fun hf => by rw [h2] at hf; cases hf⟩
      simp [List.getElem?_map, modificaEm_getElem?, hme]
    · obtain ⟨r1, r2, r3, r4, r5⟩ := hrel me rfl rfl rfl rfl rfl
      refine ⟨relida me, ?_, r1, r2, r3, r4, r5, fun _ hda => hrelme hda⟩
      simp [List.getElem?_map, modificaEm_getElem?, hi, hme]
  · have hlt : i < (visao arq).length := by
      by_contra hge
      rw [List.getElem?_eq_none (by omega)] at hme
      cases hme
    exact ⟨me, by rw [h, List.getElem?_append_left hlt, hme], rfl, rfl, rfl, rfl, rfl,
      fun _ _ => rfl⟩

/-- C1 (as stated, refuted): the first call, on an absent store, with a time that holds
two carriage returns and a line feed, leaves a store file in the format with one record
whose initial price 5 is non-zero and whose initial date is read with one carriage
return before the line feed; the second
call, with the same key, rewrites the file and the initial date of the record is then
read with none: `encoding/csv` drops a carriage return before a line feed each time the
record is written and read. -/
theorem salvarMonitoramento_inicial_muda :
    arquivoOK (aplicaUpserts (Arquivo.ausente true)
      [⟨"Pikachu", "SV1", "25", F64.fin false 5, "x\r\r\ny"⟩]) = true ∧
    visao (aplicaUpserts (Arquivo.ausente true)
      [⟨"Pikachu", "SV1", "25", F64.fin false 5, "x\r\r\ny"⟩]) =
      [MonitorEntry.mk "Pikachu" "SV1" "25" (F64.fin false 5) "x\r\ny" (F64.fin false 5)
        "x\r\ny"] ∧
    (F64.fin false 5).isZero = false ∧
    visao (aplicaUpserts (aplicaUpserts (Arquivo.ausente true)
        [⟨"Pikachu", "SV1", "25", F64.fin false 5, "x\r\r\ny"⟩])
      [⟨"Pikachu", "SV1", "25", F64.fin false 6, "t2"⟩]) =
      [MonitorEntry.mk "Pikachu" "SV1" "25" (F64.fin false 6) "t2" (F64.fin false 5)
        "x\ny"] := by
  decide!

/-- C1 (amended): in a store file in the format the program writes, a record whose
initial price is non-zero and whose name, collection, number and initial date hold no
carriage return directly before a line feed keeps its key, its initial price and its
initial date through every sequence of calls of `salvarMonitoramento`, whatever key,
price and time the calls carry and whatever the rights on the file; the file stays in
the format; and when no call carries the key of the record and its current date holds
no carriage return directly before a line feed either, the record is not changed at
all. -/
theorem salvarMonitoramento_inicial_imutavel (ops : List Upsert) :
    ∀ (arq : Arquivo) (i : Nat) (me : MonitorEntry),
    arquivoOK arq = true → (∀ op ∈ ops, op.preco.valido = true) →
    (visao arq)[i]? = some me → me.PrecoInicial.isZero = false →
    csvLido me.Nome = me.Nome → csvLido me.Colecao = me.Colecao →
    csvLido me.Numero = me.Numero → csvLido me.DataInicial = me.DataInicial →
    arquivoOK (aplicaUpserts arq ops) = true ∧
    ∃ me1, (visao (aplicaUpserts arq ops))[i]? = some me1 ∧
      me1.Nome = me.Nome ∧ me1.Colecao = me.Colecao ∧ me1.Numero = me.Numero ∧
      me1.PrecoInicial = me.PrecoInicial ∧ me1.DataInicial = me.DataInicial ∧
      ((∀ op ∈ ops, temChave op.nome op.colecao op.numero me = false) →
        csvLido me.DataAtual = me.DataAtual → me1 = me) := by
  induction ops with
  | nil =>
    intro arq i me hok _ hme _ _ _ _ _
    exact ⟨by simpa [aplicaUpserts] using hok,
      me, by simpa [aplicaUpserts] using hme, rfl, rfl, rfl, rfl, rfl, fun _ _ => rfl⟩
  | cons op ops ih =>
    intro arq i me hok hv hme hnz hn hc hk hd
    refine ⟨aplicaUpserts_ok _ arq hok hv, ?_⟩
    have hp := hv op (by simp)
    obtain ⟨m1, h1, en, ec, ek, ep, ed, hsame⟩ :=
      salvar_posicao op.nome op.colecao op.numero op.preco op.data arq hok hp i me hme hnz
        hn hc hk hd
    have hok1 := (salvar_geral op.nome op.colecao op.numero op.preco op.data arq hok hp).1
    obtain ⟨_, m2, g1, gn, gc, gk, gp, gd, gsame⟩ :=
      ih _ i m1 hok1 (fun o ho => hv o (by simp [ho])) h1 (by rw [ep]; exact hnz)
        (by rw [en]; exact hn) (by rw [ec]; exact hc) (by rw [ek]; exact hk)
        (by rw [ed]; exact hd)
    refine ⟨m2, by rw [aplicaUpserts_cons]; exact g1, gn.trans en, gc.trans ec, gk.trans ek,
      gp.trans ep, gd.trans ed, ?_⟩
    intro hall hda
    have e1 : m1 = me := hsame (hall op (by simp)) hda
    subst e1
    exact gsame (fun o ho => hall o (by simp [ho])) hda

/-- Witness of C1 (amended): the record of `arquivoExemplo` through an upsert with its
key and one with another key. -/
theorem salvarMonitoramento_inicial_imutavel_witness :
    arquivoOK (aplicaUpserts arquivoExemplo
        [⟨"Pikachu", "SV1", "25", F64.fin false 7, "2024-01-02 10:00:00"⟩,
         ⟨"Mew", "SV2", "151", F64.fin false 3, "2024-01-03 10:00:00"⟩]) = true ∧
    ∃ me1, (visao (aplicaUpserts arquivoExemplo
        [⟨"Pikachu", "SV1", "25", F64.fin false 7, "2024-01-02 10:00:00"⟩,
         ⟨"Mew", "SV2", "151", F64.fin false 3, "2024-01-03 10:00:00"⟩]))[0]? = some me1 ∧
      me1.Nome = entradaExemplo.Nome ∧ me1.Colecao = entradaExemplo.Colecao ∧
      me1.Numero = entradaExemplo.Numero ∧
      me1.PrecoInicial = entradaExemplo.PrecoInicial ∧
      me1.DataInicial = entradaExemplo.DataInicial ∧
      ((∀ op ∈ [(⟨"Pikachu", "SV1", "25", F64.fin false 7, "2024-01-02 10:00:00"⟩ : Upsert),
          ⟨"Mew", "SV2", "151", F64.fin false 3, "2024-01-03 10:00:00"⟩],
        temChave op.nome op.colecao op.numero entradaExemplo = false) →
        csvLido entradaExemplo.DataAtual = entradaExemplo.DataAtual → me1 = entradaExemplo) :=
  salvarMonitoramento_inicial_imutavel _ arquivoExemplo 0 entradaExemplo
    (by decide!) (by decide!) (by decide!) (by decide!) (by decide) (by decide) (by decide)
    (by decide)

/-- C2 (as stated, refuted): on the absent store an upsert with price 0.004 leaves an
entry whose prices are 0, not the entry with price 0.004 of the reference upsert; an
upsert whose name holds a carriage return and a line feed leaves an entry whose name
holds the line feed only; and on a store file that may not be written the call returns
the error of `os.Create` and the store is as it was. -/
theorem salvarMonitoramento_preco_exato_falha :
    (visao (salvarMonitoramento "Pikachu" "SV1" "25" (F64.fin false (1 / 250)) "t1"
        (Arquivo.ausente true)).1 =
        [novaEntrada "Pikachu" "SV1" "25" (F64.fin false 0) "t1"] ∧
      visao (salvarMonitoramento "Pikachu" "SV1" "25" (F64.fin false (1 / 250)) "t1"
        (Arquivo.ausente true)).1 ≠
        upsertRef "Pikachu" "SV1" "25" (F64.fin false (1 / 250)) "t1"
          (visao (Arquivo.ausente true))) ∧
    (visao (salvarMonitoramento "Pika\r\nchu" "SV1" "25" (F64.fin false 5) "t1"
        (Arquivo.ausente true)).1 =
        [novaEntrada "Pika\nchu" "SV1" "25" (F64.fin false 5) "t1"] ∧
      visao (salvarMonitoramento "Pika\r\nchu" "SV1" "25" (F64.fin false 5) "t1"
        (Arquivo.ausente true)).1 ≠
        upsertRef "Pika\r\nchu" "SV1" "25" (F64.fin false 5) "t1"
          (visao (Arquivo.ausente true))) ∧
    (salvarMonitoramento "Pikachu" "SV1" "25" (F64.fin false 7) "t2"
        (Arquivo.existe (csvTexto [colunas, registro entradaExemplo]) true false) =
        (Arquivo.existe (csvTexto [colunas, registro entradaExemplo]) true false,
          some ErroCSV.abrir) ∧
      visao (Arquivo.existe (csvTexto [colunas, registro entradaExemplo]) true false) ≠
        upsertRef "Pikachu" "SV1" "25" (F64.fin false 7) "t2"
          (visao (Arquivo.existe (csvTexto [colunas, registro entradaExemplo]) true false))) := by
  decide!

/-- C2 (amended): on a store file in the format the program writes, without a carriage
return before a line feed, that may be read and written (created when absent) and whose
entries have pairwise different keys, `salvarMonitoramento` with a key and a time that
hold no carriage return before a line feed returns no error and is the reference upsert
with the price taken to two decimals; the file stays such a file and the keys stay
pairwise different. -/
theorem salvarMonitoramento_refina_upsert (n c k : String) (p : F64) (d : String)
    (arq : Arquivo) (hok : arquivoOK arq = true) (hl : arquivoLimpo arq = true)
    (hac : acessivel arq = true) (hp : p.valido = true)
    (hn : csvLido n = n) (hc : csvLido c = c) (hk : csvLido k = k) (hd : csvLido d = d)
    (hu : chavesUnicas (visao arq)) :
    (salvarMonitoramento n c k p d arq).2 = none ∧
      visao (salvarMonitoramento n c k p d arq).1 =
        upsertRef n c k (arredonda2 p) d (visao arq) ∧
      arquivoOK (salvarMonitoramento n c k p d arq).1 = true ∧
      arquivoLimpo (salvarMonitoramento n c k p d arq).1 = true ∧
      acessivel (salvarMonitoramento n c k p d arq).1 = true ∧
      chavesUnicas (visao (salvarMonitoramento n c k p d arq).1) := by
  obtain ⟨a, b, e⟩ := salvar_ok n c k p d arq hok hl hac hp hn hc hk hd
  have hv := visao_salvar n c k p d arq hok hl hac hp hn hc hk hd
  refine ⟨?_, ?_, a, b, e, ?_⟩
  · rw [(salvar_arquivo n c k p d arq hok hl hac hp hn hc hk hd).1]
  · rw [hv, upsertLista_eq_upsertRef n c k _ d _ hu]
  · rw [hv]
    exact chavesUnicas_upsertLista n c k _ d _ hu

/-- Witness of C2 (amended): an upsert with price 1.234 on `arquivoExemplo`. -/
theorem salvarMonitoramento_refina_upsert_witness :
    (salvarMonitoramento "Pikachu" "SV1" "25" (F64.fin false (1234 / 1000))
        "2024-01-02 10:00:00" arquivoExemplo).2 = none ∧
      visao (salvarMonitoramento "Pikachu" "SV1" "25" (F64.fin false (1234 / 1000))
        "2024-01-02 10:00:00" arquivoExemplo).1 =
        upsertRef "Pikachu" "SV1" "25" (arredonda2 (F64.fin false (1234 / 1000)))
          "2024-01-02 10:00:00" (visao arquivoExemplo) ∧
      arquivoOK (salvarMonitoramento "Pikachu" "SV1" "25" (F64.fin false (1234 / 1000))
        "2024-01-02 10:00:00" arquivoExemplo).1 = true ∧
      arquivoLimpo (salvarMonitoramento "Pikachu" "SV1" "25" (F64.fin false (1234 / 1000))
        "2024-01-02 10:00:00" arquivoExemplo).1 = true ∧
      acessivel (salvarMonitoramento "Pikachu" "SV1" "25" (F64.fin false (1234 / 1000))
        "2024-01-02 10:00:00" arquivoExemplo).1 = true ∧
      chavesUnicas (visao (salvarMonitoramento "Pikachu" "SV1" "25"
        (F64.fin false (1234 / 1000)) "2024-01-02 10:00:00" arquivoExemplo).1) :=
  salvarMonitoramento_refina_upsert "Pikachu" "SV1" "25" (F64.fin false (1234 / 1000))
    "2024-01-02 10:00:00" arquivoExemplo (by decide!) (by decide) (by decide) (by decide!)
    (by decide) (by decide) (by decide) (by decide) (by decide!)

/-- C3 (as stated, refuted): on the absent store, upserts with prices 0.0, 0.004 and 5
leave the initial fields at (5, t3): the non-zero second price 0.004 is written as 0.00
and the third call backfills again. And with a name that holds a carriage return and a
line feed the three upserts leave three records, none of them with the initial fields
(2, t2) and the current fields (5, t3): the name is read back without the carriage
return, so no call finds the record of the call before. -/
theorem backfill_duas_vezes :
    ((F64.fin false (1 / 250)).isZero = false ∧
      visao (salvarMonitoramento "Pikachu" "SV1" "25" (F64.fin false 5) "t3"
        (salvarMonitoramento "Pikachu" "SV1" "25" (F64.fin false (1 / 250)) "t2"
          (salvarMonitoramento "Pikachu" "SV1" "25" (F64.fin false 0) "t1"
            (Arquivo.ausente true)).1).1).1 =
        [MonitorEntry.mk "Pikachu" "SV1" "25" (F64.fin false 5) "t3" (F64.fin false 5) "t3"]) ∧
    visao (salvarMonitoramento "Pika\r\nchu" "SV1" "25" (F64.fin false 5) "t3"
        (salvarMonitoramento "Pika\r\nchu" "SV1" "25" (F64.fin false 2) "t2"
          (salvarMonitoramento "Pika\r\nchu" "SV1" "25" (F64.fin false 0) "t1"
            (Arquivo.ausente true)).1).1).1 =
      [MonitorEntry.mk "Pika\nchu" "SV1" "25" (F64.fin false 0) "t1" (F64.fin false 0) "t1",
       MonitorEntry.mk "Pika\nchu" "SV1" "25" (F64.fin false 2) "t2" (F64.fin false 2) "t2",
       MonitorEntry.mk "Pika\nchu" "SV1" "25" (F64.fin false 5) "t3" (F64.fin false 5) "t3"] := by
  decide!

/-- C3 (amended): for a store file in the format the program writes, without a carriage
return before a line feed, that may be read and written (created when absent), a key
absent from it, a key and times that hold no carriage return before a line feed, and a
second price that is non-zero to two decimals, the upserts with prices 0.0, `p2`, `p3`
return no error and put one record at the end of the store; after the second call its
initial and current fields are (`p2` to two decimals, `t2`), after the third its
initial fields are still those and its current fields are (`p3` to two decimals,
`t3`). -/
theorem backfill_uma_vez (n c k t1 t2 t3 : String) (p2 p3 : F64) (arq : Arquivo)
    (hok : arquivoOK arq = true) (hl : arquivoLimpo arq = true) (hac : acessivel arq = true)
    (hn : csvLido n = n) (hc : csvLido c = c) (hk : csvLido k = k)
    (ht1 : csvLido t1 = t1) (ht2 : csvLido t2 = t2) (ht3 : csvLido t3 = t3)
    (habs : indiceDe n c k (visao arq) = none)
    (h2 : p2.valido = true) (h3 : p3.valido = true)
    (hnz : (arredonda2 p2).isZero = false) :
    (salvarMonitoramento n c k (F64.fin false 0) t1 arq).2 = none ∧
    (salvarMonitoramento n c k p2 t2
        (salvarMonitoramento n c k (F64.fin false 0) t1 arq).1).2 = none ∧
    (salvarMonitoramento n c k p3 t3
        (salvarMonitoramento n c k p2 t2
          (salvarMonitoramento n c k (F64.fin false 0) t1 arq).1).1).2 = none ∧
    visao (salvarMonitoramento n c k p2 t2
        (salvarMonitoramento n c k (F64.fin false 0) t1 arq).1).1 =
      visao arq ++ [MonitorEntry.mk n c k (arredonda2 p2) t2 (arredonda2 p2) t2] ∧
    visao (salvarMonitoramento n c k p3 t3
        (salvarMonitoramento n c k p2 t2
          (salvarMonitoramento n c k (F64.fin false 0) t1 arq).1).1).1 =
      visao arq ++ [MonitorEntry.mk n c k (arredonda2 p3) t3 (arredonda2 p2) t2] := by
  have h0 : (F64.fin false 0).valido = true := by decide!
  have hz : arredonda2 (F64.fin false 0) = F64.fin false 0 := by
    have := centavos_natCast_div 0
    simp only [Nat.cast_zero, zero_div] at this
    simp [arredonda2, this]
  obtain ⟨ok1, l1, a1⟩ := salvar_ok n c k (F64.fin false 0) t1 arq hok hl hac h0 hn hc hk ht1
  have e1 := (salvar_arquivo n c k (F64.fin false 0) t1 arq hok hl hac h0 hn hc hk ht1).1
  have v1 := visao_salvar n c k (F64.fin false 0) t1 arq hok hl hac h0 hn hc hk ht1
  rw [hz, upsertLista_novo n c k _ t1 _ habs] at v1
  obtain ⟨ok2, l2, a2⟩ := salvar_ok n c k p2 t2 _ ok1 l1 a1 h2 hn hc hk ht2
  have e2 := (salvar_arquivo n c k p2 t2 _ ok1 l1 a1 h2 hn hc hk ht2).1
  have v2 := visao_salvar n c k p2 t2 _ ok1 l1 a1 h2 hn hc hk ht2
  rw [v1, upsertLista_append n c k _ t2 _ _ (by simp [temChave, novaEntrada]) habs] at v2
  have q2 : atualizaEntrada (arredonda2 p2) t2 (novaEntrada n c k (F64.fin false 0) t1) =
      MonitorEntry.mk n c k (arredonda2 p2) t2 (arredonda2 p2) t2 := by
    simp [atualizaEntrada, novaEntrada, F64.isZero]
  rw [q2] at v2
  have e3 := (salvar_arquivo n c k p3 t3 _ ok2 l2 a2 h3 hn hc hk ht3).1
  have v3 := visao_salvar n c k p3 t3 _ ok2 l2 a2 h3 hn hc hk ht3
  rw [v2, upsertLista_append n c k _ t3 _ _ (by simp [temChave]) habs] at v3
  have q3 : atualizaEntrada (arredonda2 p3) t3
      (MonitorEntry.mk n c k (arredonda2 p2) t2 (arredonda2 p2) t2) =
      MonitorEntry.mk n c k (arredonda2 p3) t3 (arredonda2 p2) t2 := by
    simp [atualizaEntrada, hnz]
  rw [q3] at v3
  exact ⟨by rw [e1], by rw [e2], by rw [e3], v2, v3⟩

/-- Witness of C3 (amended): a new key on `arquivoExemplo` with prices 0.0, 12.99, 15. -/
theorem backfill_uma_vez_witness :
    (salvarMonitoramento "Mew" "SV2" "151" (F64.fin false 0) "t1" arquivoExemplo).2 = none ∧
    (salvarMonitoramento "Mew" "SV2" "151" (F64.fin false (1299 / 100)) "t2"
        (salvarMonitoramento "Mew" "SV2" "151" (F64.fin false 0) "t1" arquivoExemplo).1).2 =
      none ∧
    (salvarMonitoramento "Mew" "SV2" "151" (F64.fin false 15) "t3"
        (salvarMonitoramento "Mew" "SV2" "151" (F64.fin false (1299 / 100)) "t2"
          (salvarMonitoramento "Mew" "SV2" "151" (F64.fin false 0) "t1" arquivoExemplo).1).1).2 =
      none ∧
    visao (salvarMonitoramento "Mew" "SV2" "151" (F64.fin false (1299 / 100)) "t2"
        (salvarMonitoramento "Mew" "SV2" "151" (F64.fin false 0) "t1" arquivoExemplo).1).1 =
      visao arquivoExemplo ++ [MonitorEntry.mk "Mew" "SV2" "151"
        (arredonda2 (F64.fin false (1299 / 100))) "t2"
        (arredonda2 (F64.fin false (1299 / 100))) "t2"] ∧
    visao (salvarMonitoramento "Mew" "SV2" "151" (F64.fin false 15) "t3"
        (salvarMonitoramento "Mew" "SV2" "151" (F64.fin false (1299 / 100)) "t2"
          (salvarMonitoramento "Mew" "SV2" "151" (F64.fin false 0) "t1" arquivoExemplo).1).1).1 =
      visao arquivoExemplo ++ [MonitorEntry.mk "Mew" "SV2" "151"
        (arredonda2 (F64.fin false 15)) "t3"
        (arredonda2 (F64.fin false (1299 / 100))) "t2"] :=
  backfill_uma_vez "Mew" "SV2" "151" "t1" "t2" "t3" (F64.fin false (1299 / 100))
    (F64.fin false 15) arquivoExemplo (by decide!) (by decide) (by decide) (by decide)
    (by decide) (by decide) (by decide) (by decide) (by decide) (by decide!) (by decide!)
    (by decide!) (by decide!)

/-- C4 (as stated, refuted): with a name that holds a carriage return and a line feed,
the second call with the same key, price and time does not find the record of the first
(its name is read back without the carriage return) and puts a second record in the
store: the store after two calls is not the store after one. -/
theorem salvarMonitoramento_repetido_acrescenta :
    visao (salvarMonitoramento "Pika\r\nchu" "SV1" "25" (F64.fin false 5) "t1"
        (Arquivo.ausente true)).1 =
      [MonitorEntry.mk "Pika\nchu" "SV1" "25" (F64.fin false 5) "t1" (F64.fin false 5) "t1"] ∧
    visao (salvarMonitoramento "Pika\r\nchu" "SV1" "25" (F64.fin false 5) "t1"
        (salvarMonitoramento "Pika\r\nchu" "SV1" "25" (F64.fin false 5) "t1"
          (Arquivo.ausente true)).1).1 =
      [MonitorEntry.mk "Pika\nchu" "SV1" "25" (F64.fin false 5) "t1" (F64.fin false 5) "t1",
       MonitorEntry.mk "Pika\nchu" "SV1" "25" (F64.fin false 5) "t1" (F64.fin false 5) "t1"] ∧
    (salvarMonitoramento "Pika\r\nchu" "SV1" "25" (F64.fin false 5) "t1"
        (salvarMonitoramento "Pika\r\nchu" "SV1" "25" (F64.fin false 5) "t1"
          (Arquivo.ausente true)).1).1 ≠
      (salvarMonitoramento "Pika\r\nchu" "SV1" "25" (F64.fin false 5) "t1"
        (Arquivo.ausente true)).1 := by
  decide!

/-- C4 (amended): on a store file in the format the program writes, without a carriage
return before a line feed, that may be read and written (created when absent), and for
a key and a time that hold no carriage return before a line feed, a second call of
`salvarMonitoramento` with the same key, price and time returns no error and leaves the
file exactly as the first call left it. -/
theorem salvarMonitoramento_idempotente (n c k : String) (p : F64) (d : String)
    (arq : Arquivo) (hok : arquivoOK arq = true) (hl : arquivoLimpo arq = true)
    (hac : acessivel arq = true) (hp : p.valido = true)
    (hn : csvLido n = n) (hc : csvLido c = c) (hk : csvLido k = k) (hd : csvLido d = d) :
    salvarMonitoramento n c k p d (salvarMonitoramento n c k p d arq).1 =
      ((salvarMonitoramento n c k p d arq).1, none) := by
  obtain ⟨h1, _⟩ := salvar_arquivo n c k p d arq hok hl hac hp hn hc hk hd
  obtain ⟨ok1, l1, a1⟩ := salvar_ok n c k p d arq hok hl hac hp hn hc hk hd
  obtain ⟨h3, _⟩ := salvar_arquivo n c k p d _ ok1 l1 a1 hp hn hc hk hd
  rw [h3, visao_salvar n c k p d arq hok hl hac hp hn hc hk hd, upsertLista_idem, h1]

/-- Witness of C4 (amended): the same upsert twice on `arquivoExemplo`. -/
theorem salvarMonitoramento_idempotente_witness :
    salvarMonitoramento "Pikachu" "SV1" "25" (F64.fin false (799 / 100)) "2024-01-02 10:00:00"
        (salvarMonitoramento "Pikachu" "SV1" "25" (F64.fin false (799 / 100))
          "2024-01-02 10:00:00" arquivoExemplo).1 =
      ((salvarMonitoramento "Pikachu" "SV1" "25" (F64.fin false (799 / 100))
        "2024-01-02 10:00:00" arquivoExemplo).1, none) :=
  salvarMonitoramento_idempotente "Pikachu" "SV1" "25" (F64.fin false (799 / 100))
    "2024-01-02 10:00:00" arquivoExemplo (by decide!) (by decide) (by decide) (by decide!)
    (by decide) (by decide) (by decide) (by decide)

/-! ## Claims on the monitor control -/

/-- C5 (the code breaks the claim): from the idle state, a start, a stop and a second
start before the first `monitorLoop` reaches a check point leave two instances of
`monitorLoop` alive, and a later check point does not end either of them. -/
theorem monitor_duas_instancias :
    (executa ocioso [Evento.start pedidoExemplo, Evento.stop,
      Evento.start pedidoExemplo]).ativos = 2 ∧
    (executa ocioso [Evento.start pedidoExemplo, Evento.stop,
      Evento.start pedidoExemplo, Evento.check, Evento.check]).ativos = 2 := by
  decide

/-- C6: for a well-formed start request, when `monitorRunning` is true `monitorHandler`
answers "Monitor já está em execução." and leaves the flags and both counters as they
were; when it is false the handler sets `monitorRunning`, clears `monitorPaused` and
launches exactly one `monitorLoop`. -/
theorem monitorHandler_start (r : Pedido) (cards : List CardInput) (s : EstadoMonitor)
    (hm : r.metodo = "POST") (hc : r.cards = some cards) (hne : cards ≠ []) :
    (s.monitorRunning = true →
      monitorHandler r s = (s, Resposta.corpo "Monitor já está em execução.\n")) ∧
    (s.monitorRunning = false →
      monitorHandler r s =
        ({ monitorRunning := true, monitorPaused := false,
           lancamentos := s.lancamentos + 1, ativos := s.ativos + 1 },
          Resposta.corpo "Monitoramento iniciado.\n")) := by
  have hl : cards.length ≠ 0 := by
    cases cards with
    | nil => exact absurd rfl hne
    | cons x xs => simp
  constructor
  · intro h
    simp [monitorHandler, hm, hc, hl, h]
  · intro h
    simp [monitorHandler, hm, hc, hl, h]

/-- Witness of C6: a second start request on the state a first one leaves. -/
theorem monitorHandler_start_witness :
    ((executa ocioso [Evento.start pedidoExemplo]).monitorRunning = true →
      monitorHandler pedidoExemplo (executa ocioso [Evento.start pedidoExemplo]) =
        (executa ocioso [Evento.start pedidoExemplo],
          Resposta.corpo "Monitor já está em execução.\n")) ∧
    ((executa ocioso [Evento.start pedidoExemplo]).monitorRunning = false →
      monitorHandler pedidoExemplo (executa ocioso [Evento.start pedidoExemplo]) =
        ({ monitorRunning := true, monitorPaused := false,
           lancamentos := (executa ocioso [Evento.start pedidoExemplo]).lancamentos + 1,
           ativos := (executa ocioso [Evento.start pedidoExemplo]).ativos + 1 },
          Resposta.corpo "Monitoramento iniciado.\n")) :=
  monitorHandler_start pedidoExemplo
    [{ Nome := "Pikachu", Colecao := "SV1", Numero := "25" }]
    (executa ocioso [Evento.start pedidoExemplo]) (by decide) (by decide) (by decide)

/-- C7: two pause toggles in a row leave the monitor state, and so the pair
(`monitorRunning`, `monitorPaused`), exactly as it was. -/
theorem monitorPauseHandler_twice (s : EstadoMonitor) :
    (monitorPauseHandler (monitorPauseHandler s).1).1 = s ∧
    (monitorPauseHandler (monitorPauseHandler s).1).1.monitorRunning = s.monitorRunning ∧
    (monitorPauseHandler (monitorPauseHandler s).1).1.monitorPaused = s.monitorPaused := by
  have h : (monitorPauseHandler (monitorPauseHandler s).1).1 = s := by
    cases s with
    | mk r p l a =>
      cases r <;> cases p <;> simp [monitorPauseHandler]
  exact ⟨h, by rw [h], by rw [h]⟩

/-! ## Claims on the texts of the cart row -/

theorem parseEstoqueLoop_append (pre : List String) (t : String) (post : List String)
    (n : Int) (hpre : ∀ u ∈ pre, strconvAtoi u = none) (ht : strconvAtoi t = some n) :
    parseEstoqueLoop (pre ++ t :: post) = n := by
  induction pre with
  | nil => simp [parseEstoqueLoop, ht]
  | cons u us ih =>
    have hu : strconvAtoi u = none := hpre u (by simp)
    simp only [List.cons_append, parseEstoqueLoop, hu]
    exact ih (fun v hv => hpre v (by simp [hv]))

theorem parseEstoqueLoop_none (toks : List String) (h : ∀ u ∈ toks, strconvAtoi u = none) :
    parseEstoqueLoop toks = 0 := by
  induction toks with
  | nil => rfl
  | cons u us ih =>
    have hu : strconvAtoi u = none := h u (by simp)
    simp only [parseEstoqueLoop, hu]
    exact ih (fun v hv => h v (by simp [hv]))

/-- C9: `parseEstoque` returns the value of the first token, among the tokens that
white space delimits in the text, that `strconv.Atoi` accepts, and 0 when it accepts
none; "Estoque: 3 unidades" gives 3. -/
theorem parseEstoque_primeiro_inteiro (txt : String) :
    (∀ (pre : List String) (t : String) (post : List String) (n : Int),
      stringsFields txt = pre ++ t :: post → (∀ u ∈ pre, strconvAtoi u = none) →
      strconvAtoi t = some n → parseEstoque txt = n) ∧
    ((∀ u ∈ stringsFields txt, strconvAtoi u = none) → parseEstoque txt = 0) ∧
    parseEstoque txt = ((stringsFields txt).findSome? strconvAtoi).getD 0 ∧
    stringsFields "Estoque: 3 unidades" = ["Estoque:", "3", "unidades"] ∧
    parseEstoque "Estoque: 3 unidades" = 3 := by
  refine ⟨?_, ?_, ?_, by decide, by decide⟩
  · intro pre t post n hf hpre ht
    unfold parseEstoque
    rw [hf]
    exact parseEstoqueLoop_append pre t post n hpre ht
  · intro h
    exact parseEstoqueLoop_none _ h
  · unfold parseEstoque
    induction stringsFields txt with
    | nil => rfl
    | cons u us ih =>
      cases hu : strconvAtoi u with
      | none => simp [parseEstoqueLoop, List.findSome?, hu, ih]
      | some n => simp [parseEstoqueLoop, List.findSome?, hu]


theorem replaceAux_cifrao : ∀ (s : List Char),
    replaceAux ['R', '$'] [] s 0 = apagaCifrao s := by
  intro s
  induction s using apagaCifrao.induct with
  | case1 => rfl
  | case2 c =>
    by_cases hc : c = 'R' <;> simp [replaceAux, apagaCifrao, List.isPrefixOf, hc]
  | case3 c d cs h ih =>
    obtain ⟨rfl, rfl⟩ := h
    simp [replaceAux, apagaCifrao, List.isPrefixOf, ih]
  | case4 c d cs h ih =>
    have hp : List.isPrefixOf ['R', '$'] (c :: d :: cs) = false := by
      simp only [List.isPrefixOf, Bool.and_true, Bool.and_eq_false_imp, beq_iff_eq]
      intro h1
      simp only [beq_eq_false_iff_ne]
      intro h2
      exact h ⟨h1.symm, h2.symm⟩
    rw [replaceAux, hp]
    simp [apagaCifrao, h, ih]

theorem replaceAux_apaga (a : Char) : ∀ (s : List Char),
    replaceAux [a] [] s 0 = s.filter (fun c => c != a) := by
  intro s
  induction s with
  | nil => rfl
  | cons c cs ih =>
    by_cases hc : a = c
    · subst hc; simp [replaceAux, List.isPrefixOf, ih]
    · have hc2 : c ≠ a := fun h => hc h.symm
      simp [replaceAux, List.isPrefixOf, ih, hc, hc2]

theorem replaceAux_troca (a b : Char) : ∀ (s : List Char),
    replaceAux [a] [b] s 0 = s.map (fun c => if c = a then b else c) := by
  intro s
  induction s with
  | nil => rfl
  | cons c cs ih =>
    by_cases hc : a = c
    · subst hc; simp [replaceAux, List.isPrefixOf, ih]
    · have hc2 : c ≠ a := fun h => hc h.symm
      simp [replaceAux, List.isPrefixOf, ih, hc, hc2]

theorem convertePreco_eq_limpa (txt : String) :
    convertePrecoParaFloat txt = (strconvParseFloat (limpaPreco txt)).1 := by
  simp [convertePrecoParaFloat, limpaPreco, stringsReplaceAll, stringsTrimSpace,
    replaceAllChars, replaceAux_cifrao, replaceAux_apaga, replaceAux_troca]


theorem arredonda_cases (neg : Bool) (mag : ℚ) :
    arredonda neg mag = (F64.inf neg, some NumError.ErrRange) ∨
      ∃ m, arredonda neg mag = (F64.fin neg m, none) := by
  unfold arredonda
  split_ifs
  · exact Or.inl rfl
  · exact Or.inr ⟨_, rfl⟩
  · exact Or.inr ⟨_, rfl⟩
  · exact Or.inr ⟨_, rfl⟩

theorem parseFloatChars_erro_sintaxe (s : List Char)
    (h : (parseFloatChars s).2 = some NumError.ErrSyntax) :
    (parseFloatChars s).1 = F64.fin false 0 := by
  unfold parseFloatChars at h ⊢
  cases hsp : special s with
  | some vn =>
    obtain ⟨v, n⟩ := vn
    simp only [hsp] at h ⊢
    by_cases hn : n = s.length
    · simp [hn] at h
    · simp [hn]
  | none =>
    simp only [hsp] at h ⊢
    generalize lerMagnitude s _ = r at h ⊢
    cases r with
    | none => rfl
    | some mag =>
      simp only at h ⊢
      rcases arredonda_cases (s.head? == some '-') mag with h1 | ⟨m, h1⟩ <;>
        rw [h1] at h <;> simp at h

theorem parseFloatChars_erro_faixa (s : List Char)
    (h : (parseFloatChars s).2 = some NumError.ErrRange) :
    ∃ neg, (parseFloatChars s).1 = F64.inf neg := by
  unfold parseFloatChars at h ⊢
  cases hsp : special s with
  | some vn =>
    obtain ⟨v, n⟩ := vn
    simp only [hsp] at h ⊢
    by_cases hn : n = s.length
    · simp [hn] at h
    · simp [hn] at h
  | none =>
    simp only [hsp] at h ⊢
    generalize lerMagnitude s _ = r at h ⊢
    cases r with
    | none => simp at h
    | some mag =>
      simp only at h ⊢
      rcases arredonda_cases (s.head? == some '-') mag with h1 | ⟨m, h1⟩
      · exact ⟨_, by rw [h1]⟩
      · rw [h1] at h; simp at h

theorem arredonda_in_range (neg : Bool) (v : ℚ) (h1 : v = 0 ∨ limiteZero < v)
    (h2 : v ≤ maxFloat64) :
    arredonda neg v = (F64.fin neg v, none) := by
  have hmax : maxFloat64 < limiteInf := by
    unfold maxFloat64 limiteInf; norm_num
  have a : ¬ limiteInf ≤ v := by intro h; linarith
  have b : ¬ maxFloat64 < v := not_lt.mpr h2
  rcases h1 with rfl | h1
  · have c : (0 : ℚ) ≤ limiteZero := by unfold limiteZero; positivity
    simp [arredonda, a, b, c]
  · have c : ¬ v ≤ limiteZero := not_le.mpr h1
    simp [arredonda, a, b, c]

/-- C8 (as stated, refuted): the cleaned text of "R$ 1e400" is "1e400", which
`strconv.ParseFloat` does not parse (it reports `ErrRange`), and the result is +Inf,
not 0.0; the text "NaN", which spells no number, gives NaN, not 0.0. -/
theorem convertePreco_fora_da_faixa :
    limpaPreco "R$ 1e400" = "1e400" ∧
    (strconvParseFloat "1e400").2 = some NumError.ErrRange ∧
    convertePrecoParaFloat "R$ 1e400" = F64.inf false ∧
    convertePrecoParaFloat "R$ 1e400" ≠ F64.fin false 0 ∧
    convertePrecoParaFloat "NaN" = F64.nan := by
  decide!

/-- C8 (amended): `convertePrecoParaFloat` returns what `strconv.ParseFloat` yields for
the text obtained by deleting every "R$", deleting every ".", replacing every "," by "."
and trimming white space: the decimal value when that text is a decimal numeral (an
optional minus sign, digits, and optionally a point and digits) within the `float64`
range, 0.0 when `ParseFloat` rejects its syntax, and an infinity when `ParseFloat`
reports it out of range; "R$ 1.234,56" gives 1234.56, "R$ 10,00" gives 10.00 and a text
without a number gives 0.0. -/
theorem convertePreco_valor (txt : String) :
    convertePrecoParaFloat txt = (strconvParseFloat (limpaPreco txt)).1 ∧
    (∀ (neg : Bool) (ds1 ds2 : List Nat), (∀ d ∈ ds1, d < 10) → (∀ d ∈ ds2, d < 10) →
      ds1 ≠ [] →
      (limpaPreco txt).toList =
        (if neg then ['-'] else []) ++ ds1.map digitChar ++ '.' :: ds2.map digitChar →
      ((valorDigitos (ds1 ++ ds2) : ℚ) / 10 ^ ds2.length = 0 ∨
        limiteZero < (valorDigitos (ds1 ++ ds2) : ℚ) / 10 ^ ds2.length) →
      (valorDigitos (ds1 ++ ds2) : ℚ) / 10 ^ ds2.length ≤ maxFloat64 →
      convertePrecoParaFloat txt =
        F64.fin neg ((valorDigitos (ds1 ++ ds2) : ℚ) / 10 ^ ds2.length)) ∧
    (∀ (neg : Bool) (ds : List Nat), (∀ d ∈ ds, d < 10) → ds ≠ [] →
      (limpaPreco txt).toList = (if neg then ['-'] else []) ++ ds.map digitChar →
      (valorDigitos ds : ℚ) ≤ maxFloat64 →
      convertePrecoParaFloat txt = F64.fin neg (valorDigitos ds : ℚ)) ∧
    ((strconvParseFloat (limpaPreco txt)).2 = some NumError.ErrSyntax →
      convertePrecoParaFloat txt = F64.fin false 0) ∧
    ((strconvParseFloat (limpaPreco txt)).2 = some NumError.ErrRange →
      ∃ neg, convertePrecoParaFloat txt = F64.inf neg) ∧
    convertePrecoParaFloat "R$ 1.234,56" = F64.fin false (123456 / 100) ∧
    convertePrecoParaFloat "R$ 10,00" = F64.fin false 10 ∧
    convertePrecoParaFloat "sem preço" = F64.fin false 0 := by
  have heq := convertePreco_eq_limpa txt
  refine ⟨heq, ?_, ?_, ?_, ?_, by decide!, by decide!, by decide!⟩
  · intro neg ds1 ds2 h1 h2 hne htxt hlo hhi
    rw [heq]
    show (parseFloatChars (limpaPreco txt).toList).1 = _
    rw [htxt, parseFloatChars_decimal ds1 ds2 h1 h2 hne neg]
    unfold valorDigitos at hlo hhi ⊢
    rw [arredonda_in_range neg _ hlo hhi]
  · intro neg ds h hne htxt hhi
    rw [heq]
    show (parseFloatChars (limpaPreco txt).toList).1 = _
    rw [htxt, parseFloatChars_inteiro ds h hne neg]
    unfold valorDigitos at hhi ⊢
    have hlo : ((ds.foldl (fun a d => a * 10 + d) 0 : Nat) : ℚ) = 0 ∨
        limiteZero < ((ds.foldl (fun a d => a * 10 + d) 0 : Nat) : ℚ) := by
      by_cases hz : ds.foldl (fun a d => a * 10 + d) 0 = 0
      · left; simp [hz]
      · right
        have h1 : (1 : ℚ) ≤ ((ds.foldl (fun a d => a * 10 + d) 0 : Nat) : ℚ) := by
          exact_mod_cast Nat.one_le_iff_ne_zero.mpr hz
        have h2 : limiteZero < 1 := by
          unfold limiteZero
          rw [div_lt_one (by positivity)]
          exact one_lt_pow₀ (by norm_num) (by norm_num)
        linarith
    rw [arredonda_in_range neg _ hlo hhi]
  · intro h
    rw [heq]
    exact parseFloatChars_erro_sintaxe _ h
  · intro h
    rw [heq]
    exact parseFloatChars_erro_faixa _ h

/-! ## Signs -/

theorem fieldsAux_chars : ∀ (s cur tok : List Char), tok ∈ fieldsAux s cur →
    ∀ ch ∈ tok, ch ∈ s ∨ ch ∈ cur := by
  intro s
  induction s with
  | nil =>
    intro cur tok h ch hch
    by_cases hc : cur.isEmpty = true
    · simp [fieldsAux, hc] at h
    · simp only [fieldsAux, hc, if_false, List.mem_singleton, Bool.false_eq_true] at h
      subst h
      exact Or.inr (by simpa using hch)
  | cons c cs ih =>
    intro cur tok h ch hch
    by_cases hsp : isSpace c = true
    · by_cases hc : cur.isEmpty = true
      · simp only [fieldsAux, hsp, hc, if_true] at h
        rcases ih [] tok h ch hch with h1 | h1
        · exact Or.inl (by simp [h1])
        · simp at h1
      · simp only [fieldsAux, hsp, hc, if_true, if_false, List.mem_cons,
          Bool.false_eq_true] at h
        rcases h with rfl | h
        · exact Or.inr (by simpa using hch)
        · rcases ih [] tok h ch hch with h1 | h1
          · exact Or.inl (by simp [h1])
          · simp at h1
    · simp only [fieldsAux, hsp, if_false, Bool.false_eq_true] at h
      rcases ih (c :: cur) tok h ch hch with h1 | h1
      · exact Or.inl (by simp [h1])
      · simp only [List.mem_cons] at h1
        rcases h1 with rfl | h1
        · exact Or.inl (by simp)
        · exact Or.inr h1

theorem stringsFields_sem_sinal (txt : String) (h : '-' ∉ txt.toList) :
    ∀ t ∈ stringsFields txt, '-' ∉ t.toList := by
  intro t ht hmem
  simp only [stringsFields, List.mem_map] at ht
  obtain ⟨tok, htok, rfl⟩ := ht
  rcases fieldsAux_chars txt.toList [] tok htok '-' hmem with h1 | h1
  · exact h h1
  · simp at h1

theorem strconvAtoi_nonneg (t : String) (v : Int) (h : strconvAtoi t = some v)
    (hs : '-' ∉ t.toList) : 0 ≤ v := by
  unfold strconvAtoi at h
  have hs1 : '-' ∉ t.data := hs
  simp only [String.toList] at h
  cases hl : t.data with
  | nil => simp [hl] at h
  | cons c cs =>
    have hc : c ≠ '-' := by
      intro hc; apply hs1; rw [hl, hc]; simp
    simp only [hl] at h
    have hb : (c == '-') = false := by simp [hc]
    simp only [hb] at h
    generalize digitsValue _ = r at h
    cases r with
    | none => simp at h
    | some n =>
      simp only [Bool.false_eq_true, if_false] at h
      split_ifs at h
      · cases h; exact Int.natCast_nonneg n
      
theorem parseEstoqueLoop_nonneg (toks : List String) (h : ∀ t ∈ toks, '-' ∉ t.toList) :
    0 ≤ parseEstoqueLoop toks := by
  induction toks with
  | nil => simp [parseEstoqueLoop]
  | cons t ts ih =>
    cases ht : strconvAtoi t with
    | none =>
      simp only [parseEstoqueLoop, ht]
      exact ih (fun u hu => h u (by simp [hu]))
    | some v =>
      simp only [parseEstoqueLoop, ht]
      exact strconvAtoi_nonneg t v ht (h t (by simp))

theorem apagaCifrao_mem : ∀ (s : List Char) (ch : Char), ch ∈ apagaCifrao s → ch ∈ s := by
  intro s
  induction s using apagaCifrao.induct with
  | case1 => intro ch h; simp [apagaCifrao] at h
  | case2 c => intro ch h; simpa [apagaCifrao] using h
  | case3 c d cs h ih =>
    intro ch hch
    simp only [apagaCifrao, h, and_self, if_true] at hch
    simp [ih ch hch]
  | case4 c d cs h ih =>
    intro ch hch
    simp only [apagaCifrao, h, if_false, List.mem_cons] at hch
    rcases hch with rfl | hch
    · simp
    · have := ih ch hch
      simp only [List.mem_cons] at this ⊢
      exact Or.inr this

theorem limpaPreco_sem_sinal (txt : String) (h : '-' ∉ txt.toList) :
    '-' ∉ (limpaPreco txt).toList := by
  intro hmem
  simp only [limpaPreco, trimSpaceChars] at hmem
  have h1 := List.dropWhile_subset isSpace (List.mem_reverse.mp hmem)
  have h2 := List.dropWhile_subset isSpace (List.mem_reverse.mp h1)
  simp only [List.mem_map, List.mem_filter] at h2
  obtain ⟨a, ⟨ha, _⟩, hb⟩ := h2
  by_cases hc : a = ','
  · simp [hc] at hb
  · simp only [hc, if_false] at hb
    subst hb
    exact h (apagaCifrao_mem _ _ ha)

theorem specialInf_geZero (n : Nat) (s : List Char) (v : F64) (k : Nat)
    (h : specialInf false n s = some (v, k)) : v = F64.inf false := by
  unfold specialInf at h
  simp only at h
  split_ifs at h <;>
    (simp only [Option.some.injEq, Prod.mk.injEq] at h; exact h.1.symm)

theorem parseFloatChars_sem_sinal (s : List Char) (h : '-' ∉ s) :
    (parseFloatChars s).1 = F64.nan ∨ (parseFloatChars s).1.geZero = true := by
  have hhead : (s.head? == some '-') = false := by
    cases s with
    | nil => rfl
    | cons c cs =>
      have : c ≠ '-' := by intro hc; apply h; simp [hc]
      simp [this]
  unfold parseFloatChars
  cases hsp : special s with
  | some vn =>
    obtain ⟨v, n⟩ := vn
    simp only
    by_cases hn : n = s.length
    · simp only [hn, if_true]
      cases s with
      | nil => simp [special] at hsp
      | cons c cs =>
        have hc : c ≠ '-' := by intro hc; apply h; simp [hc]
        have hb : (c == '-') = false := by simp [hc]
        unfold special at hsp
        simp only [hb, hc, or_false] at hsp
        split_ifs at hsp
        · rw [specialInf_geZero _ _ _ _ hsp]; exact Or.inr rfl
        · rw [specialInf_geZero _ _ _ _ hsp]; exact Or.inr rfl
        · simp only [Option.some.injEq, Prod.mk.injEq] at hsp
          exact Or.inl hsp.1.symm
    · simp only [hn, if_false]
      exact Or.inr rfl
  | none =>
    simp only [hhead]
    generalize lerMagnitude s _ = r
    cases r with
    | none => exact Or.inr rfl
    | some mag =>
      simp only
      rcases arredonda_cases false mag with h1 | ⟨m, h1⟩ <;> rw [h1] <;> exact Or.inr rfl

/-- C10 (as stated, refuted): a minus sign in the stock or price text gives a negative
quantity and a negative price, and the price text "NaN" gives NaN, which is not `>= 0`. -/
theorem observacao_negativa :
    parseEstoque "Estoque: -3 unidades" = -3 ∧
    convertePrecoParaFloat "R$ -10,00" = F64.fin true 10 ∧
    (convertePrecoParaFloat "R$ -10,00").geZero = false ∧
    (convertePrecoParaFloat "NaN").geZero = false ∧
    (extraiDadosItemCarrinho
      { estoque := some "Estoque: -3 unidades", precoTotal := some "R$ -10,00" }).Quantidade
      = -3 ∧
    (extraiDadosItemCarrinho
      { estoque := some "Estoque: -3 unidades", precoTotal := some "R$ -10,00" }).PrecoTotal
      = F64.fin true 10 := by
  decide!

/-- C10 (amended): for a stock text and a price text without a minus sign, the
observation built by `extraiDadosItemCarrinho` has a non-negative quantity, and its
unit and total prices are non-negative or NaN; a missing stock or price element leaves
the quantity 0 and the prices 0.0. -/
theorem observacao_sem_sinal (estoque preco : String)
    (he : '-' ∉ estoque.toList) (hp : '-' ∉ preco.toList) :
    0 ≤ parseEstoque estoque ∧
    (convertePrecoParaFloat preco = F64.nan ∨ (convertePrecoParaFloat preco).geZero = true) ∧
    0 ≤ (extraiDadosItemCarrinho
      { estoque := some estoque, precoTotal := some preco }).Quantidade ∧
    ((extraiDadosItemCarrinho { estoque := some estoque, precoTotal := some preco }).Preco
        = F64.nan ∨
      (extraiDadosItemCarrinho
        { estoque := some estoque, precoTotal := some preco }).Preco.geZero = true) ∧
    ((extraiDadosItemCarrinho { estoque := some estoque, precoTotal := some preco }).PrecoTotal
        = F64.nan ∨
      (extraiDadosItemCarrinho
        { estoque := some estoque, precoTotal := some preco }).PrecoTotal.geZero = true) ∧
    (extraiDadosItemCarrinho { estoque := none, precoTotal := none }).Quantidade = 0 ∧
    (extraiDadosItemCarrinho { estoque := none, precoTotal := none }).Preco = F64.fin false 0 ∧
    (extraiDadosItemCarrinho { estoque := none, precoTotal := none }).PrecoTotal
      = F64.fin false 0 := by
  have h1 : 0 ≤ parseEstoque estoque :=
    parseEstoqueLoop_nonneg _ (stringsFields_sem_sinal estoque he)
  have h2 : convertePrecoParaFloat preco = F64.nan ∨
      (convertePrecoParaFloat preco).geZero = true := by
    rw [convertePreco_eq_limpa]
    exact parseFloatChars_sem_sinal _ (limpaPreco_sem_sinal preco hp)
  exact ⟨h1, h2, h1, h2, h2, rfl, rfl, rfl⟩

/-- Witness of C10 (amended): the texts "Estoque: 3 unidades" and "R$ 10,00". -/
theorem observacao_sem_sinal_witness :
    0 ≤ parseEstoque "Estoque: 3 unidades" ∧
    (convertePrecoParaFloat "R$ 10,00" = F64.nan ∨
      (convertePrecoParaFloat "R$ 10,00").geZero = true) ∧
    0 ≤ (extraiDadosItemCarrinho
      { estoque := some "Estoque: 3 unidades", precoTotal := some "R$ 10,00" }).Quantidade ∧
    ((extraiDadosItemCarrinho
        { estoque := some "Estoque: 3 unidades", precoTotal := some "R$ 10,00" }).Preco
        = F64.nan ∨
      (extraiDadosItemCarrinho
        { estoque := some "Estoque: 3 unidades", precoTotal := some "R$ 10,00" }).Preco.geZero
        = true) ∧
    ((extraiDadosItemCarrinho
        { estoque := some "Estoque: 3 unidades", precoTotal := some "R$ 10,00" }).PrecoTotal
        = F64.nan ∨
      (extraiDadosItemCarrinho
        { estoque := some "Estoque: 3 unidades",
          precoTotal := some "R$ 10,00" }).PrecoTotal.geZero = true) ∧
    (extraiDadosItemCarrinho { estoque := none, precoTotal := none }).Quantidade = 0 ∧
    (extraiDadosItemCarrinho { estoque := none, precoTotal := none }).Preco = F64.fin false 0 ∧
    (extraiDadosItemCarrinho { estoque := none, precoTotal := none }).PrecoTotal
      = F64.fin false 0 :=
  observacao_sem_sinal "Estoque: 3 unidades" "R$ 10,00" (by decide) (by decide)

/-! ## Claims on the extraction protocol -/

theorem buscaLoop_length {σ ε : Type} (wd : WebDriver σ ε) (nome colecao numero : String) :
    ∀ (stores : List ε) (s : σ), (buscaLoop wd nome colecao numero stores s).1.length ≤ 1 := by
  intro stores
  induction stores with
  | nil => intro s; simp [buscaLoop]
  | cons store resto ih =>
    intro s
    unfold buscaLoop
    split_ifs
    · cases localizaBotaoComprarNM wd store s with
      | none => exact ih s
      | some btn =>
        simp only []
        cases localizaItemCarrinho wd nome numero
            (abreModalCarrinho wd (wd.Click btn (fechaBannerCookies wd s))) with
        | none => exact ih _
        | some row => simp
    · exact ih s

/-- C11: when the navigation succeeds, `buscaCartaCompleta` returns no error and at most
one result, whatever the session answers to the element lookups; and when the lookup of
`#marketplace-stores` fails the result is empty, with no error. -/
theorem buscaCartaCompleta_sem_erro {σ ε : Type} (wd : WebDriver σ ε)
    (nome colecao numero : String) (s : σ)
    (hnav : (wd.Get (montaURL nome colecao numero) s).2 = none) :
    (buscaCartaCompleta wd nome colecao numero s).1.2 = none ∧
    (buscaCartaCompleta wd nome colecao numero s).1.1.length ≤ 1 ∧
    (wd.FindElement By.css "#marketplace-stores"
        (fechaBannerCookies wd (wd.Get (montaURL nome colecao numero) s).1) = none →
      (buscaCartaCompleta wd nome colecao numero s).1 = ([], none)) := by
  unfold buscaCartaCompleta
  rcases hget : wd.Get (montaURL nome colecao numero) s with ⟨s1, e⟩
  rw [hget] at hnav
  simp only at hnav
  subst hnav
  simp only []
  cases hst : wd.FindElement By.css "#marketplace-stores" (fechaBannerCookies wd s1) with
  | none => simp
  | some cont =>
    cases hss : wd.ElemFindElements cont By.css ".store" (fechaBannerCookies wd s1) with
    | none => simp [hss]
    | some stores =>
      simp only [hss, true_and, reduceCtorEq, false_implies, and_true]
      exact buscaLoop_length wd nome colecao numero stores _

/-- Witness of C11: a page without the seller-list container. -/
theorem buscaCartaCompleta_sem_erro_witness :
    (buscaCartaCompleta paginaDriver "Pikachu" "SV1" "25"
        { banner := true, lojas := none, carrinho := [] }).1.2 = none ∧
    (buscaCartaCompleta paginaDriver "Pikachu" "SV1" "25"
        { banner := true, lojas := none, carrinho := [] }).1.1.length ≤ 1 ∧
    (paginaDriver.FindElement By.css "#marketplace-stores"
        (fechaBannerCookies paginaDriver
          (paginaDriver.Get (montaURL "Pikachu" "SV1" "25")
            { banner := true, lojas := none, carrinho := [] }).1) = none →
      (buscaCartaCompleta paginaDriver "Pikachu" "SV1" "25"
        { banner := true, lojas := none, carrinho := [] }).1 = ([], none)) :=
  buscaCartaCompleta_sem_erro paginaDriver "Pikachu" "SV1" "25"
    { banner := true, lojas := none, carrinho := [] } rfl

/-! ## Claims on reading and writing the store file -/

theorem carregarMonitorCSV_erro (arq : Arquivo) (e : ErroCSV)
    (h : (carregarMonitorCSV arq).2 = some e) : (carregarMonitorCSV arq).1 = [] := by
  unfold carregarMonitorCSV at h ⊢
  cases ho : osOpen arq with
  | none => rfl
  | some texto =>
    simp only [ho] at h ⊢
    cases hr : csvReadAll texto with
    | none => rfl
    | some recs =>
      cases recs with
      | nil => rfl
      | cons cols lines =>
        simp only [hr] at h ⊢
        split_ifs at h ⊢ with hall
        rfl

/-- C13 (the code departs from the claim): when the store file exists and
`carregarMonitorCSV` returns an error for it, `salvarMonitoramento` does not return that
error. If the file may be written, the new record is put at the end of the file as it
is, without a header, and the error returned is nil; if it may not be written, the
error returned is that of `os.OpenFile`. The three errors of `carregarMonitorCSV` occur:
the `io.EOF` of an empty file, the `*csv.ParseError` of a quote that is not closed, the
`*os.PathError` of a file that may not be read. When the path is absent and may be
created, the file is created with the header and the new record and the error is nil,
as claimed; when it may not be created, the error of `os.OpenFile` is returned. -/
theorem salvarMonitoramento_falhas (n c k : String) (p : F64) (d : String)
    (texto : List Char) (legivel gravavel : Bool) (e : ErroCSV)
    (herr : (carregarMonitorCSV (Arquivo.existe texto legivel gravavel)).2 = some e) :
    salvarMonitoramento n c k p d (Arquivo.existe texto legivel gravavel) =
      (if gravavel then
        (Arquivo.existe
          (texto ++ writerWrite [n, c, k, formatFloat2 p, d, formatFloat2 p, d])
          legivel true, none)
      else (Arquivo.existe texto legivel false, some ErroCSV.abrir)) ∧
    (carregarMonitorCSV (Arquivo.existe [] true true)).2 = some ErroCSV.semCabecalho ∧
    (carregarMonitorCSV (Arquivo.existe ['"', 'a'] true true)).2 = some ErroCSV.formato ∧
    (carregarMonitorCSV (Arquivo.existe [] false true)).2 = some ErroCSV.abrir ∧
    salvarMonitoramento n c k p d (Arquivo.ausente true) =
      (Arquivo.existe
        (writerWrite colunas ++ writerWrite [n, c, k, formatFloat2 p, d, formatFloat2 p, d])
        true true, none) ∧
    salvarMonitoramento n c k p d (Arquivo.ausente false) =
      (Arquivo.ausente false, some ErroCSV.abrir) := by
  have hl := carregarMonitorCSV_erro _ e herr
  refine ⟨?_, by decide, by decide, by decide, ?_, ?_⟩
  · cases gravavel <;>
      simp [salvarMonitoramento, osStat, hl, indiceDe, osOpenAppend, escreve]
  · simp [salvarMonitoramento, osStat, indiceDe, osOpenAppend, escreve]
  · simp [salvarMonitoramento, osStat, indiceDe, osOpenAppend]

/-- Witness of C13: the store file that exists and is empty. The record is written
without a header, and the file is then read as a header without records. -/
theorem salvarMonitoramento_falhas_witness :
    (carregarMonitorCSV (Arquivo.existe [] true true)).2 = some ErroCSV.semCabecalho ∧
    (salvarMonitoramento "Pikachu" "SV1" "25" (F64.fin false 10) "t1"
        (Arquivo.existe [] true true) =
      (if true then
        (Arquivo.existe
          ([] ++ writerWrite ["Pikachu", "SV1", "25", formatFloat2 (F64.fin false 10), "t1",
            formatFloat2 (F64.fin false 10), "t1"])
          true true, none)
      else (Arquivo.existe [] true false, some ErroCSV.abrir)) ∧
    (carregarMonitorCSV (Arquivo.existe [] true true)).2 = some ErroCSV.semCabecalho ∧
    (carregarMonitorCSV (Arquivo.existe ['"', 'a'] true true)).2 = some ErroCSV.formato ∧
    (carregarMonitorCSV (Arquivo.existe [] false true)).2 = some ErroCSV.abrir ∧
    salvarMonitoramento "Pikachu" "SV1" "25" (F64.fin false 10) "t1" (Arquivo.ausente true) =
      (Arquivo.existe
        (writerWrite colunas ++ writerWrite ["Pikachu", "SV1", "25",
          formatFloat2 (F64.fin false 10), "t1", formatFloat2 (F64.fin false 10), "t1"])
        true true, none) ∧
    salvarMonitoramento "Pikachu" "SV1" "25" (F64.fin false 10) "t1" (Arquivo.ausente false) =
      (Arquivo.ausente false, some ErroCSV.abrir)) ∧
    writerWrite ["Pikachu", "SV1", "25", formatFloat2 (F64.fin false 10), "t1",
        formatFloat2 (F64.fin false 10), "t1"] =
      "Pikachu;SV1;25;10.00;t1;10.00;t1\n".data ∧
    carregarMonitorCSV (Arquivo.existe "Pikachu;SV1;25;10.00;t1;10.00;t1\n".data true true) =
      ([], none) :=
  ⟨by decide,
    salvarMonitoramento_falhas "Pikachu" "SV1" "25" (F64.fin false 10) "t1" [] true true
      ErroCSV.semCabecalho (by decide),
    by decide!, by decide!⟩

theorem centavos_proximo (m : ℚ) (h0 : 0 ≤ m) :
    |(centavos m : ℚ) / 100 - m| ≤ 1 / 200 := by
  have hx0 : 0 ≤ m * 100 := by positivity
  have hfx : (⌊m * 100⌋₊ : ℚ) ≤ m * 100 := Nat.floor_le hx0
  have hlt : m * 100 < ⌊m * 100⌋₊ + 1 := Nat.lt_floor_add_one _
  have key : |(centavos m : ℚ) - m * 100| ≤ 1 / 2 := by
    unfold centavos
    simp only
    split_ifs with a b c
    · rw [abs_le]; constructor <;> linarith
    · rw [abs_le]; push_cast; constructor <;> linarith
    · rw [abs_le]; constructor <;> linarith
    · rw [abs_le]; push_cast; constructor <;> linarith
  have e : (centavos m : ℚ) / 100 - m = ((centavos m : ℚ) - m * 100) / 100 := by ring
  rw [e, abs_div, abs_of_pos (show (0 : ℚ) < 100 by norm_num), div_le_iff₀ (by norm_num)]
  linarith

/-- What `carregarMonitorCSV` reads from the file that `sobrescreverMonitorCSV` wrote. -/
theorem carregar_sobrescrever (lista : List MonitorEntry) (arq : Arquivo)
    (hac : acessivel arq = true) :
    (sobrescreverMonitorCSV arq lista colunas).2 = none ∧
    carregarMonitorCSV (sobrescreverMonitorCSV arq lista colunas).1 =
      (lista.map relida, none) := by
  have e : sobrescreverMonitorCSV arq lista colunas =
      (Arquivo.existe (csvTexto (colunas :: lista.map registro)) true true, none) := by
    cases arq with
    | ausente c0 =>
      simp only [acessivel] at hac
      subst hac
      simp [sobrescreverMonitorCSV, osCreate, escreve, csvTexto_cons]
    | existe t l g =>
      simp only [acessivel, Bool.and_eq_true] at hac
      obtain ⟨rfl, rfl⟩ := hac
      simp [sobrescreverMonitorCSV, osCreate, escreve, csvTexto_cons]
  rw [e]
  refine ⟨rfl, ?_⟩
  rw [carregar_csvTexto _ (by
    intro r hr
    obtain ⟨me, _, rfl⟩ := List.mem_map.mp hr
    rfl) true, List.map_map]
  congr 1
  apply List.map_congr_left
  intro me _
  exact lerLinha_lido_registro me

/-- C14 (as stated, refuted): an entry whose name holds a carriage return and a line
feed is read back with the line feed only. -/
theorem roundtrip_perde_cr :
    carregarMonitorCSV (sobrescreverMonitorCSV (Arquivo.ausente true)
        [MonitorEntry.mk "Pika\r\nchu" "SV1" "25" (F64.fin false 5) "t1" (F64.fin false 5) "t1"]
        colunas).1 =
      ([MonitorEntry.mk "Pika\nchu" "SV1" "25" (F64.fin false 5) "t1" (F64.fin false 5) "t1"],
        none) := by
  decide!

/-- C14 (amended): a list of entries with `float64` prices written with
`sobrescreverMonitorCSV` (under the header `colunas`, to a path that may be read and
written, or created when absent) and read back with `carregarMonitorCSV` gives, with no
error, as many entries in the same order; in each, the name, collection, number, current
date and initial date are the ones written with every carriage return that stands
directly before a line feed taken out, hence identical to the ones written when these
hold no such carriage return; both prices come back to two decimals: a finite price as
the whole number of hundredths nearest to it, at most half a hundredth away. -/
theorem roundtrip_monitorCSV (lista : List MonitorEntry) (arq : Arquivo)
    (hv : ∀ me ∈ lista, me.PrecoAtual.valido = true ∧ me.PrecoInicial.valido = true)
    (hac : acessivel arq = true) :
    (sobrescreverMonitorCSV arq lista colunas).2 = none ∧
    carregarMonitorCSV (sobrescreverMonitorCSV arq lista colunas).1 =
      (lista.map relida, none) ∧
    (carregarMonitorCSV (sobrescreverMonitorCSV arq lista colunas).1).1.length =
      lista.length ∧
    (∀ (i : Nat) (me : MonitorEntry), lista[i]? = some me →
      ∃ lida, (carregarMonitorCSV (sobrescreverMonitorCSV arq lista colunas).1).1[i]? =
          some lida ∧
        lida.Nome = csvLido me.Nome ∧ lida.Colecao = csvLido me.Colecao ∧
        lida.Numero = csvLido me.Numero ∧ lida.DataAtual = csvLido me.DataAtual ∧
        lida.DataInicial = csvLido me.DataInicial ∧
        lida.PrecoAtual = arredonda2 me.PrecoAtual ∧
        lida.PrecoInicial = arredonda2 me.PrecoInicial ∧
        (textosLimpos me = true →
          lida.Nome = me.Nome ∧ lida.Colecao = me.Colecao ∧ lida.Numero = me.Numero ∧
          lida.DataAtual = me.DataAtual ∧ lida.DataInicial = me.DataInicial)) ∧
    (∀ (neg : Bool) (m : ℚ), 0 ≤ m →
      arredonda2 (F64.fin neg m) = F64.fin neg ((centavos m : ℚ) / 100) ∧
      |(centavos m : ℚ) / 100 - m| ≤ 1 / 200) ∧
    arredonda2 F64.nan = F64.nan ∧ (∀ neg, arredonda2 (F64.inf neg) = F64.inf neg) := by
  obtain ⟨h0, h1⟩ := carregar_sobrescrever lista arq hac
  refine ⟨h0, h1, by rw [h1]; simp, ?_, fun neg m hm => ⟨rfl, centavos_proximo m hm⟩, rfl,
    fun _ => rfl⟩
  intro i me hi
  have hme := List.getElem?_mem hi
  refine ⟨relida me, by rw [h1]; simp [hi], rfl, rfl, rfl, rfl, rfl, ?_, ?_, ?_⟩
  · simp [relida, parseFloat_formatFloat2 _ (hv me hme).1]
  · simp [relida, parseFloat_formatFloat2 _ (hv me hme).2]
  · intro hl
    rw [textosLimpos_iff] at hl
    obtain ⟨a, b, c, d, e⟩ := hl
    exact ⟨a, b, c, d, e⟩

/-- Witness of C14 (amended): two entries, one with a price of more than two decimals
and a name that is written between quotes. -/
theorem roundtrip_monitorCSV_witness :
    carregarMonitorCSV (sobrescreverMonitorCSV (Arquivo.ausente true)
        [entradaExemplo, MonitorEntry.mk "Mew; \"ex\"" "SV2" "151" (F64.fin false (1234 / 1000))
          "2024-01-03 10:00:00" (F64.fin false 0) "2024-01-02 10:00:00"] colunas).1 =
      ([entradaExemplo, MonitorEntry.mk "Mew; \"ex\"" "SV2" "151" (F64.fin false (1234 / 1000))
          "2024-01-03 10:00:00" (F64.fin false 0) "2024-01-02 10:00:00"].map relida,
        none) :=
  (roundtrip_monitorCSV
    [entradaExemplo, MonitorEntry.mk "Mew; \"ex\"" "SV2" "151" (F64.fin false (1234 / 1000))
      "2024-01-03 10:00:00" (F64.fin false 0) "2024-01-02 10:00:00"] (Arquivo.ausente true)
    (by decide!) (by decide)).2.1

/-! ## Claims on the labels of a seller -/

theorem loopLingua_eq (ts : List String) : ∀ (l : String),
    loopLingua ts l = ((ts.filter (fun t => t != "")).getLast?).getD l := by
  induction ts with
  | nil => intro l; rfl
  | cons t ts ih =>
    intro l
    by_cases ht : t = ""
    · subst ht
      simp [loopLingua, ih]
    · have hb : (t != "") = true := by simp [ht]
      simp only [loopLingua, ne_eq, ht, not_false_eq_true, if_true, ih, List.filter_cons, hb,
        List.getLast?_cons]
      rfl

theorem toUpperRune_nm (c : Char) :
    (toUpperRune c = 'N' ↔ (c = 'N' ∨ c = 'n')) ∧ (toUpperRune c = 'M' ↔ (c = 'M' ∨ c = 'm')) := by
  have hc : c = Char.ofNat c.toNat := (Char.ofNat_toNat c).symm
  unfold toUpperRune
  by_cases h1 : 97 ≤ c.toNat ∧ c.toNat ≤ 122
  · generalize c.toNat = k at h1 hc
    subst hc
    obtain ⟨h1a, h1b⟩ := h1
    interval_cases k <;> decide
  · simp only [h1, if_false]
    have hn : c ≠ 'n' := by
      intro h; apply h1; rw [h]; decide
    have hm : c ≠ 'm' := by
      intro h; apply h1; rw [h]; decide
    by_cases h2 : c.toNat = 0x131
    · have hN : c ≠ 'N' := by intro h; rw [h] at h2; revert h2; decide
      have hM : c ≠ 'M' := by intro h; rw [h] at h2; revert h2; decide
      simp [h2, hn, hm, hN, hM]
    · simp only [h2, if_false]
      by_cases h3 : c.toNat = 0x17F
      · have hN : c ≠ 'N' := by intro h; rw [h] at h3; revert h3; decide
        have hM : c ≠ 'M' := by intro h; rw [h] at h3; revert h3; decide
        simp [h3, hn, hm, hN, hM]
      · simp [h3, hn, hm]

theorem contemLista_upper_nm : ∀ (l : List Char),
    contemLista (l.map toUpperRune) ['N', 'M'] = contemNMLista l := by
  intro l
  induction l using contemNMLista.induct with
  | case1 => rfl
  | case2 c => simp [contemLista, contemNMLista, List.isPrefixOf]
  | case3 c d r ih =>
    have hc := (toUpperRune_nm c).1
    have hd := (toUpperRune_nm d).2
    have e1 : ('N' == toUpperRune c) = (c == 'n' || c == 'N') := by
      rw [Bool.eq_iff_iff]
      simp only [beq_iff_eq, Bool.or_eq_true]
      constructor
      · intro h; exact (hc.mp h.symm).symm
      · intro h; exact (hc.mpr h.symm).symm
    have e2 : ('M' == toUpperRune d) = (d == 'm' || d == 'M') := by
      rw [Bool.eq_iff_iff]
      simp only [beq_iff_eq, Bool.or_eq_true]
      constructor
      · intro h; exact (hd.mp h.symm).symm
      · intro h; exact (hd.mpr h.symm).symm
    simp only [List.map_cons] at ih ⊢
    rw [contemLista, ih, contemNMLista]
    simp only [List.isPrefixOf, e1, e2, Bool.and_true]

theorem stringsContains_upper_nm (t : String) :
    stringsContains (stringsToUpper t) "NM" = contemNM t := by
  exact contemLista_upper_nm t.toList

theorem loopCondicao_eq (ts : List String) :
    loopCondicao ts = (ts.find? contemNM).getD "" := by
  induction ts with
  | nil => rfl
  | cons t ts ih =>
    by_cases h : contemNM t = true
    · simp [loopCondicao, stringsContains_upper_nm, h]
    · simp [loopCondicao, stringsContains_upper_nm, h, ih]

theorem contemNM_find (ts : List String) :
    (ts.find? contemNM).getD "" = "" ∨ contemNM ((ts.find? contemNM).getD "") = true := by
  cases h : ts.find? contemNM with
  | none => exact Or.inl rfl
  | some t => exact Or.inr (by simpa using List.find?_some h)

theorem ultimo_eq_primeiro (ts : List String)
    (h : (ts.filter (fun t => t != "")).length ≤ 1) : ultimoNaoVazio ts = primeiroNaoVazio ts := by
  unfold ultimoNaoVazio primeiroNaoVazio
  induction ts with
  | nil => rfl
  | cons t ts ih =>
    by_cases ht : (t != "") = true
    · simp only [List.filter_cons, ht, if_true, List.length_cons] at h
      have hnil : ts.filter (fun t => t != "") = [] := by
        apply List.eq_nil_of_length_eq_zero; omega
      simp [List.filter_cons, ht, hnil, List.find?]
    · simp only [List.filter_cons, ht] at h
      simp only [List.filter_cons, ht, List.find?]
      exact ih h

/-- C15 (as stated, refuted): for a seller whose information block has two images
titled "Português" and "Inglês", in this order, `extraiLinguaECondicao` returns the
language "Inglês", the last non-empty title, not the first. -/
theorem extraiLingua_ultimo_titulo :
    (extraiLinguaECondicao paginaDriver
        (Elemento.loja { infos := true, imagens := ["Português", "Inglês"],
                         qualidades := ["NM"], comprar := true, linha := none })
        paginaExemplo).1 = "Inglês" ∧
    primeiroNaoVazio ["Português", "Inglês"] = "Português" := by
  decide

/-- C15 (amended): the language label returned by `extraiLinguaECondicao` is the last
non-empty title among the `img` elements of the seller's information block, in document
order (empty when there is none or no information block), which is the first one when
at most one title is non-empty; the condition label is the first title among the
`.quality` elements that contains "NM" in any case, and it is empty when no title does,
so a returned condition is empty or contains "NM". -/
theorem extraiLinguaECondicao_rotulos {σ ε : Type} (wd : WebDriver σ ε) (store : ε) (s : σ) :
    (wd.ElemFindElement store By.css ".infos-quality-and-language.desktop-only" s = none →
      extraiLinguaECondicao wd store s = ("", "")) ∧
    (∀ infos, wd.ElemFindElement store By.css ".infos-quality-and-language.desktop-only" s
        = some infos →
      (extraiLinguaECondicao wd store s).1 =
        ultimoNaoVazio (titulosDe wd ((wd.ElemFindElements infos By.tag "img" s).getD []) s) ∧
      (extraiLinguaECondicao wd store s).2 =
        ((titulosDe wd ((wd.ElemFindElements infos By.css ".quality" s).getD []) s).find?
          contemNM).getD "") ∧
    ((extraiLinguaECondicao wd store s).2 = "" ∨
      contemNM (extraiLinguaECondicao wd store s).2 = true) ∧
    (∀ ts : List String, (ts.filter (fun t => t != "")).length ≤ 1 →
      ultimoNaoVazio ts = primeiroNaoVazio ts) := by
  refine ⟨?_, ?_, ?_, ultimo_eq_primeiro⟩
  · intro h
    simp [extraiLinguaECondicao, h]
  · intro infos h
    simp only [extraiLinguaECondicao, h, loopLingua_eq, loopCondicao_eq]
    exact ⟨rfl, rfl⟩
  · unfold extraiLinguaECondicao
    cases wd.ElemFindElement store By.css ".infos-quality-and-language.desktop-only" s with
    | none => exact Or.inl rfl
    | some infos =>
      simp only [loopCondicao_eq]
      exact contemNM_find _


/-! ## Claims on a page of seller blocks -/

theorem pagina_extrai (v : Vendedor) (s : Pagina) :
    extraiLinguaECondicao paginaDriver (Elemento.loja v) s =
      if v.infos then (loopLingua v.imagens "", loopCondicao v.qualidades) else ("", "") := by
  by_cases h : v.infos = true
  · simp [extraiLinguaECondicao, paginaDriver, h, List.map_map, Function.comp_def]
  · simp [extraiLinguaECondicao, paginaDriver, h]

theorem pagina_comprar (v : Vendedor) (s : Pagina) :
    localizaBotaoComprarNM paginaDriver (Elemento.loja v) s =
      if v.comprar then some (Elemento.comprar v) else none := by
  simp [localizaBotaoComprarNM, paginaDriver]

theorem pagina_fechaBanner (s : Pagina) :
    fechaBannerCookies paginaDriver s = { s with banner := false } := by
  cases s with
  | mk b l c m a =>
    cases b <;> simp [fechaBannerCookies, paginaDriver]

/-- The cart view is open after `abreModalCarrinho`. -/
theorem pagina_abreModal (s : Pagina) :
    abreModalCarrinho paginaDriver s = { s with menuAberto := true, carrinhoAberto := true } := by
  simp [abreModalCarrinho, paginaDriver]

theorem pagina_localizaLoop (nome numero : String) (s : Pagina) (ls : List LinhaPagina) :
    localizaLoop paginaDriver nome numero s (ls.map Elemento.linha) =
      (ls.find? (tituloConfere nome numero)).map Elemento.linha := by
  induction ls with
  | nil => rfl
  | cons l ls ih =>
    cases ht : l.titulo with
    | none =>
      simp [localizaLoop, paginaDriver, ht, tituloConfere, List.find?]
      simpa [paginaDriver] using ih
    | some t =>
      by_cases hc : (stringsContains t nome && stringsContains t ("(" ++ numero ++ ")")) = true
      · simp [localizaLoop, paginaDriver, ht, tituloConfere, List.find?, hc]
      · simp only [Bool.not_eq_true] at hc
        simp [localizaLoop, paginaDriver, ht, tituloConfere, List.find?, hc]
        simpa [paginaDriver] using ih

/-- The rows of the cart are found only in the open cart view. -/
theorem pagina_localizaItem (nome numero : String) (s : Pagina) :
    localizaItemCarrinho paginaDriver nome numero s =
      if s.carrinhoAberto then (s.carrinho.find? (tituloConfere nome numero)).map Elemento.linha
      else none := by
  have h := pagina_localizaLoop nome numero s s.carrinho
  simp only [localizaItemCarrinho]
  by_cases ha : s.carrinhoAberto = true
  · simpa [paginaDriver, ha] using h
  · simp [paginaDriver, ha]

theorem pagina_leLinha (l : LinhaPagina) (s : Pagina) :
    leLinhaCarrinho paginaDriver (Elemento.linha l) s =
      { estoque := l.estoque, precoTotal := l.precoTotal } := by
  cases l with
  | mk t e p r =>
    cases e <;> cases p <;> simp [leLinhaCarrinho, paginaDriver]


theorem contemNM_loopCondicao (qs : List String) :
    stringsContains (stringsToUpper (loopCondicao qs)) "NM" = qs.any contemNM := by
  rw [stringsContains_upper_nm, loopCondicao_eq]
  cases h : qs.find? contemNM with
  | none =>
    have hall : qs.any contemNM = false := by
      rw [List.any_eq_false]
      intro t ht
      have := List.find?_eq_none.mp h t ht
      simpa using this
    rw [hall]
    rfl
  | some t =>
    have h1 : contemNM t = true := by simpa using List.find?_some h
    have h2 : t ∈ qs := List.mem_of_find?_eq_some h
    have hany : qs.any contemNM = true := List.any_eq_true.mpr ⟨t, h2, h1⟩
    rw [hany]
    exact h1

theorem contemNM_vazio : stringsContains (stringsToUpper "") "NM" = false := by
  decide

theorem pagina_buscaLoop (nome colecao numero : String) (vs : List Vendedor) :
    ∀ (s : Pagina), (∀ l ∈ s.carrinho, tituloConfere nome numero l = false) →
    (buscaLoop paginaDriver nome colecao numero (vs.map Elemento.loja) s).1 =
      buscaRef nome colecao numero vs := by
  induction vs with
  | nil => intro s _; rfl
  | cons v vs ih =>
    intro s hs
    have hnone : s.carrinho.find? (tituloConfere nome numero) = none := by
      rw [List.find?_eq_none]
      intro l hl
      simp [hs l hl]
    simp only [List.map_cons, buscaLoop, pagina_extrai, pagina_comprar, pagina_fechaBanner,
      pagina_abreModal, pagina_localizaItem]
    unfold buscaRef
    by_cases hi : v.infos = true
    · by_cases hq : v.qualidades.any contemNM = true
      · by_cases hc : v.comprar = true
        · cases hl : v.linha with
          | none =>
            have hqual : qualifica nome numero v = false := by
              simp [qualifica, hl]
            simp only [hi, if_true, contemNM_loopCondicao, hq, hc, List.find?, hqual]
            have hcar : (paginaDriver.Click (Elemento.comprar v)
                { s with banner := false }).carrinho = s.carrinho := by
              simp [paginaDriver, hl]
            simp only [hcar, hnone, Option.map_none', if_true, ite_self]
            have := ih { paginaDriver.Click (Elemento.comprar v) { s with banner := false } with
                menuAberto := true, carrinhoAberto := true }
              (by simp only [hcar]; exact hs)
            simpa [buscaRef, hcar] using this
          | some l =>
            have hcar : (paginaDriver.Click (Elemento.comprar v)
                { s with banner := false }).carrinho = s.carrinho ++ [l] := by
              simp [paginaDriver, hl]
            by_cases hm : tituloConfere nome numero l = true
            · have hqual : qualifica nome numero v = true := by
                simp [qualifica, hl, hi, hq, hc, hm]
              have hfind : (s.carrinho ++ [l]).find? (tituloConfere nome numero) = some l := by
                rw [List.find?_append, hnone]
                simp [List.find?, hm]
              simp only [hi, if_true, contemNM_loopCondicao, hq, hc, List.find?, hqual, hcar,
                hfind, Option.map_some', hl, Option.toList, pagina_leLinha]
              simp [observacaoDe, loopCondicao_eq]
            · simp only [Bool.not_eq_true] at hm
              have hqual : qualifica nome numero v = false := by
                simp [qualifica, hl, hm]
              have hfind : (s.carrinho ++ [l]).find? (tituloConfere nome numero) = none := by
                rw [List.find?_append, hnone]
                simp [List.find?, hm]
              simp only [hi, if_true, contemNM_loopCondicao, hq, hc, List.find?, hqual, hcar,
                hfind, Option.map_none']
              have := ih { paginaDriver.Click (Elemento.comprar v) { s with banner := false } with
                  menuAberto := true, carrinhoAberto := true }
                (by
                  simp only [hcar]
                  intro x hx
                  rcases List.mem_append.mp hx with hx | hx
                  · exact hs x hx
                  · simp at hx; rw [hx]; exact hm)
              simpa [buscaRef, hcar] using this
        · have hqual : qualifica nome numero v = false := by
            simp [qualifica, hc]
          simp only [hi, if_true, contemNM_loopCondicao, hq, hc, List.find?, hqual,
            Bool.false_eq_true, if_false]
          simpa [buscaRef] using ih s hs
      · have hqual : qualifica nome numero v = false := by
          simp [qualifica, hq]
        simp only [hi, if_true, contemNM_loopCondicao, hq, List.find?, hqual,
          Bool.false_eq_true, if_false]
        simpa [buscaRef] using ih s hs
    · have hqual : qualifica nome numero v = false := by
        simp [qualifica, hi]
      simp only [hi, Bool.false_eq_true, if_false, contemNM_vazio, List.find?, hqual]
      simpa [buscaRef] using ih s hs


theorem buscaRef_observacao (nome colecao numero : String) (vs : List Vendedor) :
    ∀ r ∈ buscaRef nome colecao numero vs,
      contemNM r.Condicao = true ∧ r.Nome = nome ∧ r.Colecao = colecao ∧ r.Numero = numero := by
  intro r hr
  unfold buscaRef at hr
  cases hf : vs.find? (qualifica nome numero) with
  | none => simp [hf] at hr
  | some v =>
    have hq : qualifica nome numero v = true := by simpa using List.find?_some hf
    simp only [hf] at hr
    cases hl : v.linha with
    | none => simp [hl] at hr
    | some l =>
      simp only [hl, Option.map_some', Option.toList, List.mem_singleton] at hr
      subst hr
      have hany : v.qualidades.any contemNM = true := by
        simp only [qualifica, Bool.and_eq_true] at hq
        exact hq.1.1.2
      obtain ⟨t, ht, hnm⟩ := List.any_eq_true.mp hany
      refine ⟨?_, rfl, rfl, rfl⟩
      simp only [observacaoDe]
      cases hfind : v.qualidades.find? contemNM with
      | none =>
        have := List.find?_eq_none.mp hfind t ht
        exact absurd hnm this
      | some u => simpa using List.find?_some hfind


/-- C12 (as stated, refuted): the cart already holds a row of the card, priced
"R$ 99,00", and the only seller, of condition "NM", has a buy control that puts no row in
the cart. No seller has a cart row of its own to be found, so the claim gives an empty
result; `buscaCartaCompleta` finds the row left in the cart and returns it as the
observation of that seller. -/
theorem buscaCartaCompleta_sobra_no_carrinho :
    (buscaCartaCompleta paginaDriver "Pikachu" "SV1" "25" paginaComSobra).1 =
      ([{ Nome := "Pikachu", Colecao := "SV1", Numero := "25", Condicao := "NM",
          Quantidade := 1, Preco := F64.fin false 99, PrecoTotal := F64.fin false 99,
          Lingua := "Português" }], none) ∧
    (∀ v ∈ paginaComSobra.lojas.getD [], qualifica "Pikachu" "25" v = false) ∧
    buscaRef "Pikachu" "SV1" "25" (paginaComSobra.lojas.getD []) = [] := by
  decide!

/-- C12 (amended): on a page given as a list of seller blocks in document order, whose
cart holds no row of the card at the start (no row whose title contains the card name
and the number in parentheses; other rows may be there), whether or not the banner is
shown and the cart view is open, `buscaCartaCompleta` returns, with no error, the
observation of the first seller that has a condition label containing "NM" in any case,
a buy control and a cart row found by its title, and nothing when no seller has all
three; a returned observation has a condition containing "NM" and the requested name,
collection and number. On the page with seller A ("LP") and seller B ("NM — Near Mint",
cart row priced "R$ 10,00") the result is the one observation of B, with price 10.00. -/
theorem buscaCartaCompleta_primeiro_NM (nome colecao numero : String) (b m a : Bool)
    (vs : List Vendedor) (c : List LinhaPagina)
    (hc : ∀ l ∈ c, tituloConfere nome numero l = false) :
    (buscaCartaCompleta paginaDriver nome colecao numero
        { banner := b, lojas := some vs, carrinho := c, menuAberto := m,
          carrinhoAberto := a }).1 =
      (buscaRef nome colecao numero vs, none) ∧
    (∀ v, vs.find? (qualifica nome numero) = some v →
      ∃ l, v.linha = some l ∧
        buscaRef nome colecao numero vs = [observacaoDe nome colecao numero v l]) ∧
    ((∀ v ∈ vs, qualifica nome numero v = false) → buscaRef nome colecao numero vs = []) ∧
    (∀ r ∈ buscaRef nome colecao numero vs,
      contemNM r.Condicao = true ∧ r.Nome = nome ∧ r.Colecao = colecao ∧
        r.Numero = numero) ∧
    (buscaCartaCompleta paginaDriver "Pikachu" "SV1" "25" paginaExemplo).1 =
      ([{ Nome := "Pikachu", Colecao := "SV1", Numero := "25", Condicao := "NM — Near Mint",
          Quantidade := 3, Preco := F64.fin false 10, PrecoTotal := F64.fin false 10,
          Lingua := "Português" }], none) := by
  refine ⟨?_, ?_, ?_, buscaRef_observacao nome colecao numero vs, by decide!⟩
  · have h := pagina_buscaLoop nome colecao numero vs
      { banner := false, lojas := some vs, carrinho := c, menuAberto := false,
        carrinhoAberto := false } hc
    simp only [buscaCartaCompleta, pagina_fechaBanner]
    simp only [paginaDriver, Option.map_some', Option.getD_some] at h ⊢
    simp only [true_and, and_self, if_true, reduceCtorEq, false_and, if_false]
    simp [h]
  · intro v hv
    have hq : qualifica nome numero v = true := by simpa using List.find?_some hv
    cases hl : v.linha with
    | none => simp [qualifica, hl] at hq
    | some l => exact ⟨l, rfl, by simp [buscaRef, hv, hl]⟩
  · intro hall
    have hnone : vs.find? (qualifica nome numero) = none := by
      rw [List.find?_eq_none]
      intro v hv
      simp [hall v hv]
    simp [buscaRef, hnone]

/-- Witness of C12 (amended): the sellers of the example, with a row of another card
left in the cart and the cart view open. -/
theorem buscaCartaCompleta_primeiro_NM_witness :
    (∀ l ∈ [linhaOutra], tituloConfere "Pikachu" "25" l = false) ∧
    (buscaCartaCompleta paginaDriver "Pikachu" "SV1" "25"
        { banner := true, lojas := some vendedoresExemplo, carrinho := [linhaOutra],
          menuAberto := true, carrinhoAberto := true }).1 =
      (buscaRef "Pikachu" "SV1" "25" vendedoresExemplo, none) :=
  ⟨by decide,
    (buscaCartaCompleta_primeiro_NM "Pikachu" "SV1" "25" true true true vendedoresExemplo
      [linhaOutra] (by decide)).1⟩

end PrecoMonitor
